import Mathlib

/-! Double-array trie (`src/trie.c`): embedding and verification.

The C functions of `src/trie.c` are embedded as Lean functions of the same names.

* A `trie_t` value is the contents of the C struct: the four growable arrays become lists
  (their logical length `n` is the list length), `alpha_map` is the 256-entry byte table.
* Node fields are `int32_t` (here `Int`), node indices are `uint32_t` (here `Nat`); every
  place where the C code converts between the two, or where 32-bit arithmetic can wrap, is
  written out with `to_int32` / `to_uint32` / `% 4294967296`.
* A `char *` argument is the list of the bytes stored from the pointer on, up to the end of
  the object the pointer lies in: `*p` is the head, `p + 1` the tail, and a C string is read
  up to its first NUL byte.  Reading past the end of the list is a read outside the object.
* The functions return `Except Fault _`: `Fault.ub` is an access outside an array or a read of
  an uninitialised variable; `Fault.fuel` says that a `while` loop did not leave within `fuel`
  iterations (every loop of unknown length gets the same budget `fuel`).
* `trie.h` is not part of the sources.  Numeric header constants are defined below from the
  specification; the index limit `TRIE_MAX_INDEX` is an argument `max_index` of the functions
  that use it, with the usual value `TRIE_MAX_INDEX_DEFAULT`.
-/

/-- Ways in which a run of the C code leaves the behaviour the embedding can follow. -/
inductive Fault where
  | fuel
  | ub
deriving DecidableEq

/-- The C struct `trie_node_t`: a `(base, check)` cell of the node store. -/
structure trie_node_t where
  base : Int
  check : Int
deriving DecidableEq

/-- The C struct `trie_data_node_t`: a `(tail, data)` record of the data store. -/
structure trie_data_node_t where
  tail : Nat
  data : Nat
deriving DecidableEq

/-- The C struct `trie_t`. -/
structure trie_t where
  null_node : trie_node_t
  nodes : List trie_node_t
  data : List trie_data_node_t
  tail : List UInt8
  alphabet : List UInt8
  alpha_map : UInt8 → UInt8
  alphabet_size : Nat

/-- Modelled from the spec: header constant `NULL_ID = 0` (section 6). -/
def NULL_ID : Nat := 0

/-- Modelled from the spec: header constant `FREE_LIST_ID = 1` (section 6). -/
def FREE_LIST_ID : Nat := 1

/-- Modelled from the spec: header constant `ROOT_ID = 2` (section 6). -/
def ROOT_ID : Nat := 2

/-- Modelled from the spec: header constant `TRIE_POOL_BEGIN = 3` (section 6). -/
def TRIE_POOL_BEGIN : Nat := 3

/-- Modelled from the spec: header constant `TRIE_INDEX_ERROR`, the sentinel returned from base
allocation; it is the index `0` of the placeholder cell, which no allocation returns. -/
def TRIE_INDEX_ERROR : Nat := 0

/-- Modelled from the spec: header constant `NULL_NODE`, the placeholder cell `(0, 0)` that
`trie_get_node` hands out for an index outside the node store. -/
def NULL_NODE : trie_node_t := ⟨0, 0⟩

/-- Modelled from the spec: the usual value of the header constant `TRIE_MAX_INDEX`, the largest
value the specification allows (`2^31 - 1`). -/
def TRIE_MAX_INDEX_DEFAULT : Nat := 2147483647

/-- Conversion of a C integer value to `uint32_t`. -/
def to_uint32 (x : Int) : Nat := (x % 4294967296).toNat

/-- Conversion of a C integer value to `int32_t` (two's complement wrap). -/
def to_int32 (x : Int) : Int := (x + 2147483648) % 4294967296 - 2147483648

/-- Dereference `*p` of a byte pointer. -/
def deref : List UInt8 → Except Fault UInt8
  | [] => .error .ub
  | c :: _ => .ok c

/-- The C string a pointer points to: the bytes before the first NUL. -/
def c_string : List UInt8 → Except Fault (List UInt8)
  | [] => .error .ub
  | c :: cs =>
    if c = 0 then .ok []
    else match c_string cs with
      | .ok s => .ok (c :: s)
      | .error e => .error e

/-- Modelled from the spec: `string_common_prefix` (string utilities, not in the sources): the
length of the longest common prefix of two C strings. -/
def string_common_prefix : List UInt8 → List UInt8 → Nat
  | a :: as, b :: bs => if a = b then string_common_prefix as bs + 1 else 0
  | _, _ => 0

/-- The C library call `strncmp(a, b, n) == 0` on two C strings. -/
def strncmp_eq (a b : List UInt8) (n : Nat) : Bool := decide (a.take n = b.take n)

/-! ## Constructors -/

/-- The loop `alpha_map[alphabet[i]] = i` of `trie_new_empty`. -/
def fill_alpha_map : List UInt8 → Nat → (UInt8 → UInt8) → (UInt8 → UInt8)
  | [], _, m => m
  | c :: cs, i, m => fill_alpha_map cs (i + 1) (fun x => if x = c then UInt8.ofNat i else m x)

/-- `trie_new_empty(alphabet, alphabet_size)`.  The struct comes from `malloc` and only the
entries `alpha_map[alphabet[i]]` are written, so every other entry of the table keeps what the
allocated memory held: that content is the argument `mem`. -/
def trie_new_empty (alphabet : List UInt8) (mem : UInt8 → UInt8) : trie_t :=
  { null_node := NULL_NODE
    nodes := []
    data := []
    tail := []
    alphabet := alphabet
    alpha_map := fill_alpha_map alphabet 0 mem
    alphabet_size := alphabet.length }

/-- `trie_new(alphabet, alphabet_size)`. -/
def trie_new (alphabet : List UInt8) (mem : UInt8 → UInt8) : trie_t :=
  let self := trie_new_empty alphabet mem
  { self with
    nodes := self.nodes ++ [⟨0, 0⟩] ++ [⟨-1, -1⟩] ++ [⟨TRIE_POOL_BEGIN, 0⟩]
    tail := self.tail ++ [0]
    data := self.data ++ [⟨0, 0⟩] }

/-- `trie_node_is_free(node)`. -/
def trie_node_is_free (node : trie_node_t) : Bool := decide (node.check < 0)

/-- `trie_get_node(self, index)`. -/
def trie_get_node (self : trie_t) (index : Nat) : trie_node_t :=
  if index ≥ self.nodes.length ∨ index < ROOT_ID then self.null_node
  else self.nodes.getD index self.null_node

/-- The array access `self->nodes->a[index]`. -/
def node_at (self : trie_t) (index : Nat) : Except Fault trie_node_t :=
  match self.nodes.get? index with
  | some n => .ok n
  | none => .error .ub

/-- `trie_set_base(self, index, base)`. -/
def trie_set_base (self : trie_t) (index : Nat) (base : Int) : Except Fault trie_t :=
  match self.nodes.get? index with
  | some n => .ok { self with nodes := self.nodes.set index { n with base := base } }
  | none => .error .ub

/-- `trie_set_check(self, index, check)`. -/
def trie_set_check (self : trie_t) (index : Nat) (check : Int) : Except Fault trie_t :=
  match self.nodes.get? index with
  | some n => .ok { self with nodes := self.nodes.set index { n with check := check } }
  | none => .error .ub

/-- `trie_get_root(self)`. -/
def trie_get_root (self : trie_t) : Except Fault trie_node_t := node_at self ROOT_ID

/-- `trie_get_free_list(self)`. -/
def trie_get_free_list (self : trie_t) : Except Fault trie_node_t := node_at self FREE_LIST_ID

/-- `trie_get_char_index(self, c)`. -/
def trie_get_char_index (self : trie_t) (c : UInt8) : Nat := (self.alpha_map c).toNat + 1

/-- `trie_get_transition_index(self, node, c)`. -/
def trie_get_transition_index (self : trie_t) (node : trie_node_t) (c : UInt8) : Nat :=
  to_uint32 (node.base + (trie_get_char_index self c : Int))

/-! ## Private implementation -/

/-- The cells `(-(i-1), -(i+1))` pushed by the loop of `trie_extend`, for `count` values of `i`
starting at the given one. -/
def extend_cells : Nat → Nat → List trie_node_t
  | 0, _ => []
  | k + 1, i =>
    ⟨to_int32 (-((i : Int) - 1)), to_int32 (-((i : Int) + 1))⟩ :: extend_cells k (i + 1)

/-- `trie_extend(self, to_index)`; the `bool` result comes with the trie after the call. -/
def trie_extend (max_index : Nat) (self : trie_t) (to_index : Nat) :
    Except Fault (Bool × trie_t) :=
  if to_index ≤ 0 ∨ max_index ≤ to_index then .ok (false, self)
  else if to_index < self.nodes.length then .ok (true, self)
  else
    let new_begin := self.nodes.length
    let self1 : trie_t :=
      { self with
        nodes := self.nodes ++ extend_cells ((to_index + 1) % 4294967296 - new_begin) new_begin }
    do
      let free_list_node ← trie_get_free_list self1
      let free_tail := to_uint32 (-free_list_node.base)
      let self2 ← trie_set_check self1 free_tail (to_int32 (-(new_begin : Int)))
      let self3 ← trie_set_base self2 new_begin (to_int32 (-(free_tail : Int)))
      let self4 ← trie_set_check self3 to_index (to_int32 (-(FREE_LIST_ID : Int)))
      let self5 ← trie_set_base self4 FREE_LIST_ID (to_int32 (-(to_index : Int)))
      pure (true, self5)

/-- `trie_make_room_for(self, next_id)` (the result of `trie_extend` is dropped, as in C). -/
def trie_make_room_for (max_index : Nat) (self : trie_t) (next_id : Nat) : Except Fault trie_t :=
  if (next_id + self.alphabet_size) % 4294967296 ≥ self.nodes.length then
    match trie_extend max_index self ((next_id + self.alphabet_size) % 4294967296) with
    | .ok r => .ok r.2
    | .error e => .error e
  else .ok self

/-- `trie_set_node(self, index, node)`. -/
def trie_set_node (self : trie_t) (index : Nat) (node : trie_node_t) : Except Fault trie_t :=
  match self.nodes.get? index with
  | some _ => .ok { self with nodes := self.nodes.set index node }
  | none => .error .ub

/-- `trie_init_node(self, index)`. -/
def trie_init_node (self : trie_t) (index : Nat) : Except Fault trie_t :=
  let node := trie_get_node self index
  let prev := to_int32 (-node.base)
  let next := to_int32 (-node.check)
  do
    let self1 ← trie_set_check self (to_uint32 prev) (to_int32 (-next))
    trie_set_base self1 (to_uint32 next) (to_int32 (-prev))

/-- The `while (i != FREE_LIST_ID && i < index)` loop of `trie_free_node`. -/
def free_node_scan (self : trie_t) (index : Nat) : Nat → Int → Except Fault Int
  | 0, _ => .error .fuel
  | k + 1, i =>
    if i ≠ (FREE_LIST_ID : Int) ∧ to_uint32 i < index then
      free_node_scan self index k (to_int32 (-(trie_get_node self (to_uint32 i)).check))
    else .ok i

/-- `trie_free_node(self, index)`. -/
def trie_free_node (fuel : Nat) (self : trie_t) (index : Nat) : Except Fault trie_t := do
  let free_list_node ← trie_get_free_list self
  let i ← free_node_scan self index fuel (to_int32 (-free_list_node.check))
  let node := trie_get_node self (to_uint32 i)
  let prev := to_int32 (-node.base)
  let self1 ← trie_set_node self index ⟨to_int32 (-prev), to_int32 (-i)⟩
  let self2 ← trie_set_check self1 (to_uint32 prev) (to_int32 (-(index : Int)))
  trie_set_base self2 (to_uint32 i) (to_int32 (-(index : Int)))

/-- The test `index < self->nodes->n && trie_get_node(self, index).check == node_id` on the
transition of `node` on the byte `c`. -/
def has_transition (self : trie_t) (node : trie_node_t) (node_id : Nat) (c : UInt8) : Bool :=
  decide (trie_get_transition_index self node c < self.nodes.length) &&
    decide (to_uint32 (trie_get_node self (trie_get_transition_index self node c)).check = node_id)

/-- `trie_node_has_children(self, node_id)`. -/
def trie_node_has_children (self : trie_t) (node_id : Nat) : Bool :=
  if node_id > self.nodes.length then false
  else if (trie_get_node self node_id).base < 0 then false
  else (self.alphabet.take self.alphabet_size).any
    (fun c => has_transition self (trie_get_node self node_id) node_id c)

/-- The `while` loop of `trie_prune_up_to`. -/
def prune_loop (fuel : Nat) (p : Nat) : Nat → trie_t → Nat → Except Fault trie_t
  | 0, _, _ => .error .fuel
  | k + 1, self, s =>
    if p ≠ s ∧ trie_node_has_children self s = false then
      match trie_free_node fuel self s with
      | .ok self1 => prune_loop fuel p k self1 (to_uint32 (trie_get_node self s).check)
      | .error e => .error e
    else .ok self

/-- `trie_prune_up_to(self, p, s)`. -/
def trie_prune_up_to (fuel : Nat) (self : trie_t) (p s : Nat) : Except Fault trie_t :=
  prune_loop fuel p fuel self s

/-- `trie_prune(self, s)`. -/
def trie_prune (fuel : Nat) (self : trie_t) (s : Nat) : Except Fault trie_t :=
  trie_prune_up_to fuel self ROOT_ID s

/-- `trie_get_transition_chars(self, node_id, transitions, &num_transitions)`: the bytes written
to `transitions`, in order. -/
def trie_get_transition_chars (self : trie_t) (node_id : Nat) : List UInt8 :=
  (self.alphabet.take self.alphabet_size).filter
    (fun c => has_transition self (trie_get_node self node_id) node_id c)

/-- `trie_can_fit_transitions(self, node_id, transitions, num_transitions)`. -/
def trie_can_fit_transitions (max_index : Nat) (self : trie_t) (node_id : Nat)
    (transitions : List UInt8) : Bool :=
  transitions.all (fun c =>
    !(decide (node_id > to_uint32 ((max_index : Int) - (trie_get_char_index self c : Int))) ||
      !trie_node_is_free
        (trie_get_node self ((node_id + trie_get_char_index self c) % 4294967296))))

/-- First loop of `trie_find_new_base`: follow the free list while the index is below `limit`. -/
def find_base_skip (self : trie_t) (limit : Nat) : Nat → Nat → Except Fault Nat
  | 0, _ => .error .fuel
  | k + 1, index =>
    if index ≠ FREE_LIST_ID ∧ index < limit then
      find_base_skip self limit k (to_uint32 (-(trie_get_node self index).check))
    else .ok index

/-- The `for (index = ...; ; index++)` loop of `trie_find_new_base`; `none` is the
`return TRIE_INDEX_ERROR` inside it. -/
def find_base_extend (max_index : Nat) : Nat → trie_t → Nat → Except Fault (Option Nat × trie_t)
  | 0, _, _ => .error .fuel
  | k + 1, self, index =>
    match trie_extend max_index self index with
    | .error e => .error e
    | .ok (false, self1) => .ok (none, self1)
    | .ok (true, self1) =>
      if (trie_get_node self1 index).check < 0 then .ok (some index, self1)
      else find_base_extend max_index k self1 ((index + 1) % 4294967296)

/-- The loop `while (!trie_can_fit_transitions(...))` of `trie_find_new_base`; `none` is the
`return TRIE_INDEX_ERROR` inside it. -/
def find_base_search (max_index : Nat) (first_char_index : Nat) (transitions : List UInt8) :
    Nat → trie_t → Nat → Except Fault (Option Nat × trie_t)
  | 0, _, _ => .error .fuel
  | k + 1, self, index =>
    if trie_can_fit_transitions max_index self
        (to_uint32 ((index : Int) - (first_char_index : Int))) transitions then
      .ok (some index, self)
    else if -(trie_get_node self index).check = (FREE_LIST_ID : Int) then
      match trie_extend max_index self
          ((self.nodes.length + self.alphabet_size) % 4294967296) with
      | .error e => .error e
      | .ok (false, self1) => .ok (none, self1)
      | .ok (true, self1) =>
        find_base_search max_index first_char_index transitions k self1
          (to_uint32 (-(trie_get_node self1 index).check))
    else
      find_base_search max_index first_char_index transitions k self
        (to_uint32 (-(trie_get_node self index).check))

/-- `trie_find_new_base(self, transitions, num_transitions)`; the result comes with the trie
after the call. -/
def trie_find_new_base (fuel max_index : Nat) (self : trie_t) (transitions : List UInt8) :
    Except Fault (Nat × trie_t) :=
  match transitions with
  | [] => .error .ub
  | c0 :: _ =>
    let first_char_index := trie_get_char_index self c0
    do
      let node ← trie_get_free_list self
      let index ← find_base_skip self (first_char_index + TRIE_POOL_BEGIN) fuel
        (to_uint32 (-node.check))
      let r1 ←
        (if index = FREE_LIST_ID then
          find_base_extend max_index fuel self (first_char_index + TRIE_POOL_BEGIN)
        else pure (some index, self))
      match r1 with
      | (none, self1) => pure (TRIE_INDEX_ERROR, self1)
      | (some index1, self1) =>
        let r2 ← find_base_search max_index first_char_index transitions fuel self1 index1
        match r2 with
        | (none, self2) => pure (TRIE_INDEX_ERROR, self2)
        | (some index2, self2) =>
          pure (to_uint32 ((index2 : Int) - (first_char_index : Int)), self2)

/-- The inner loop of `trie_relocate_base`: every transition out of `old_index` gets the check
value `new_index`. -/
def relocate_grandchildren (old_transition : trie_node_t) (old_index new_index : Nat) :
    List UInt8 → trie_t → Except Fault trie_t
  | [], self => .ok self
  | c :: cs, self =>
    if has_transition self old_transition old_index c then
      match trie_set_check self (trie_get_transition_index self old_transition c)
          (to_int32 (new_index : Int)) with
      | .ok self1 => relocate_grandchildren old_transition old_index new_index cs self1
      | .error e => .error e
    else relocate_grandchildren old_transition old_index new_index cs self

/-- The outer loop of `trie_relocate_base` over the transition bytes of the node. -/
def relocate_children (fuel : Nat) (current_index : Nat) (old_node : trie_node_t)
    (new_base : Int) : List UInt8 → trie_t → Except Fault trie_t
  | [], self => .ok self
  | c :: cs, self =>
    let char_index := trie_get_char_index self c
    let old_index := to_uint32 (old_node.base + (char_index : Int))
    let new_index := to_uint32 (new_base + (char_index : Int))
    let old_transition := trie_get_node self old_index
    do
      let self1 ← trie_init_node self new_index
      let self2 ← trie_set_node self1 new_index
        ⟨old_transition.base, to_int32 (current_index : Int)⟩
      let self3 ←
        (if old_transition.base > 0 then
          relocate_grandchildren old_transition old_index new_index
            (self2.alphabet.take self2.alphabet_size) self2
        else pure self2)
      let self4 ← trie_free_node fuel self3 old_index
      relocate_children fuel current_index old_node new_base cs self4

/-- `trie_relocate_base(self, current_index, new_base)`. -/
def trie_relocate_base (fuel max_index : Nat) (self : trie_t) (current_index : Nat)
    (new_base : Int) : Except Fault trie_t := do
  let self1 ← trie_make_room_for max_index self (to_uint32 new_base)
  let old_node := trie_get_node self1 current_index
  let transitions := trie_get_transition_chars self1 current_index
  let self2 ← relocate_children fuel current_index old_node new_base transitions self1
  trie_set_base self2 current_index new_base

/-! ## Public methods -/

/-- `trie_get_transition(self, node, c)`. -/
def trie_get_transition (self : trie_t) (node : trie_node_t) (c : UInt8) :
    Except Fault trie_node_t :=
  if trie_get_transition_index self node c ≥ self.nodes.length then .ok self.null_node
  else node_at self (trie_get_transition_index self node c)

/-- `trie_add_tail(self, tail)`, where `tail` is the C string read from the pointer. -/
def trie_add_tail (self : trie_t) (tail : List UInt8) : trie_t :=
  { self with tail := self.tail ++ tail ++ [0] }

/-- The copy loop `for (i = tail_pos; *tail && i < n; i++, tail++) a[i] = *tail` of
`trie_set_tail`: the buffer and the value of `i` after the loop. -/
def set_tail_copy : List UInt8 → List UInt8 → Nat → List UInt8 × Nat
  | [], buf, i => (buf, i)
  | c :: cs, buf, i => if i < buf.length then set_tail_copy cs (buf.set i c) (i + 1) else (buf, i)

/-- `trie_set_tail(self, tail, tail_pos)`, where `tail` is the C string read from the pointer
(when the pointer lies in the tail buffer it is ahead of the bytes being written). -/
def trie_set_tail (self : trie_t) (tail : List UInt8) (tail_pos : Int) : Except Fault trie_t :=
  let num_appends : Int := (tail_pos + (tail.length : Int)) - (self.tail.length : Int)
  let buf := if num_appends > 0 then self.tail ++ List.replicate num_appends.toNat 0 else self.tail
  if tail_pos < 0 then .error .ub
  else
    let r := set_tail_copy tail buf tail_pos.toNat
    if r.2 < r.1.length then .ok { self with tail := r.1.set r.2 0 } else .error .ub

/-- `trie_add_transition(self, node_id, c)`; the result comes with the trie after the call.
The array `transitions` has `alphabet_size` entries, so appending `c` to a full array is a
write outside it. -/
def trie_add_transition (fuel max_index : Nat) (self : trie_t) (node_id : Nat) (c : UInt8) :
    Except Fault (Nat × trie_t) :=
  let node := trie_get_node self node_id
  let char_index := trie_get_char_index self c
  if node.base > 0 then
    let next_id := to_uint32 (node.base + (char_index : Int))
    match trie_make_room_for max_index self next_id with
    | .error e => .error e
    | .ok self1 =>
      let next := trie_get_node self1 next_id
      if to_uint32 next.check = node_id then .ok (next_id, self1)
      else if to_uint32 node.base > to_uint32 ((max_index : Int) - (char_index : Int)) ∨
          trie_node_is_free next = false then
        let transitions := trie_get_transition_chars self1 node_id
        if transitions.length < self1.alphabet_size then do
          let r ← trie_find_new_base fuel max_index self1 (transitions ++ [c])
          let self3 ← trie_relocate_base fuel max_index r.2 node_id (to_int32 (r.1 : Int))
          let next_id1 := (r.1 + char_index) % 4294967296
          let self4 ← trie_init_node self3 next_id1
          let self5 ← trie_set_check self4 next_id1 (to_int32 (node_id : Int))
          pure (next_id1, self5)
        else .error .ub
      else do
        let self4 ← trie_init_node self1 next_id
        let self5 ← trie_set_check self4 next_id (to_int32 (node_id : Int))
        pure (next_id, self5)
  else do
    let r ← trie_find_new_base fuel max_index self [c]
    let self2 ← trie_set_base r.2 node_id (to_int32 (r.1 : Int))
    let next_id := (r.1 + char_index) % 4294967296
    let self4 ← trie_init_node self2 next_id
    let self5 ← trie_set_check self4 next_id (to_int32 (node_id : Int))
    pure (next_id, self5)

/-- `trie_separate_tail(self, from_index, tail, data)`; the result comes with the trie after
the call. -/
def trie_separate_tail (fuel max_index : Nat) (self : trie_t) (from_index : Nat)
    (tail : List UInt8) (data : Nat) : Except Fault (Int × trie_t) := do
  let c ← deref tail
  let r ← trie_add_transition fuel max_index self from_index c
  let index := to_int32 (r.1 : Int)
  let tail1 := if c ≠ 0 then tail.tail else tail
  let self2 ← trie_set_base r.2 (to_uint32 index) (to_int32 (-1 * (r.2.data.length : Int)))
  let self3 : trie_t :=
    { self2 with data := self2.data ++ [⟨self2.tail.length % 4294967296, data⟩] }
  let s ← c_string tail1
  pure (index, trie_add_tail self3 s)

/-- The loop of `trie_tail_merge` over the bytes of the common prefix: whether every
transition was added, the node reached, and the trie. -/
def tail_merge_walk (fuel max_index : Nat) : List UInt8 → trie_t → Nat →
    Except Fault (Bool × Nat × trie_t)
  | [], self, node_id => .ok (true, node_id, self)
  | c :: cs, self, node_id =>
    match trie_add_transition fuel max_index self node_id c with
    | .error e => .error e
    | .ok (next_id, self1) =>
      if next_id = TRIE_INDEX_ERROR then .ok (false, node_id, self1)
      else tail_merge_walk fuel max_index cs self1 next_id

/-- The array access `self->data->a[index]` with an `int32_t` index. -/
def data_at (self : trie_t) (index : Int) : Except Fault trie_data_node_t :=
  if index < 0 then .error .ub
  else match self.data.get? index.toNat with
    | some d => .ok d
    | none => .error .ub

/-- The label `exit_prune` of `trie_tail_merge`. -/
def tail_merge_exit_prune (fuel : Nat) (self : trie_t) (old_node_id node_id : Nat)
    (original_tail : List UInt8) (old_tail_pos : Nat) : Except Fault trie_t := do
  let self1 ← trie_prune_up_to fuel self old_node_id node_id
  trie_set_tail self1 original_tail (to_int32 (old_tail_pos : Int))

/-- `trie_tail_merge(self, old_node_id, suffix, data)`. -/
def trie_tail_merge (fuel max_index : Nat) (self : trie_t) (old_node_id : Nat)
    (suffix : List UInt8) (data : Nat) : Except Fault trie_t := do
  let old_node := trie_get_node self old_node_id
  let old_data_index := to_int32 (-1 * old_node.base)
  let old_data_node ← data_at self old_data_index
  let old_tail_pos := old_data_node.tail
  let old_tail ← c_string (self.tail.drop old_tail_pos)
  let new_suffix ← c_string suffix
  let common_prefix := string_common_prefix old_tail new_suffix
  if common_prefix = old_tail.length ∧ old_tail.length = new_suffix.length then pure self
  else
    let w ← tail_merge_walk fuel max_index (old_tail.take common_prefix) self old_node_id
    match w with
    | (false, node_id, self1) =>
      tail_merge_exit_prune fuel self1 old_node_id node_id old_tail old_tail_pos
    | (true, node_id, self1) =>
      let r ← trie_add_transition fuel max_index self1 node_id (old_tail.getD common_prefix 0)
      if r.1 = TRIE_INDEX_ERROR then
        tail_merge_exit_prune fuel r.2 old_node_id node_id old_tail old_tail_pos
      else
        let self3 ← trie_set_base r.2 r.1 (to_int32 (-1 * old_data_index))
        let self4 ← trie_set_tail self3 (old_tail.drop ( common_prefix + 1))
          (to_int32 (old_tail_pos : Int))
        let r5 ← trie_separate_tail fuel max_index self4 node_id (suffix.drop common_prefix) data
        pure r5.2

/-- The `for` loop of `trie_add_to_node`; the first argument counts the iterations left. -/
def add_to_node_loop (fuel max_index : Nat) (data : Nat) :
    Nat → trie_t → List UInt8 → Nat → trie_node_t → Except Fault trie_t
  | 0, self, _, _, _ => .ok self
  | k + 1, self, ptr, node_id, node =>
    match deref ptr with
    | .error e => .error e
    | .ok c =>
      let next_id := trie_get_transition_index self node c
      match (if next_id ≠ NULL_ID then trie_make_room_for max_index self next_id
             else .ok self) with
      | .error e => .error e
      | .ok self1 =>
        let next := trie_get_node self1 next_id
        if next.check < 0 ∨ to_uint32 next.check ≠ node_id then
          match trie_separate_tail fuel max_index self1 node_id ptr data with
          | .ok r => .ok r.2
          | .error e => .error e
        else if next.base < 0 ∧ to_uint32 next.check = node_id then
          trie_tail_merge fuel max_index self1 next_id ptr.tail data
        else add_to_node_loop fuel max_index data k self1 ptr.tail next_id next

/-- `trie_add_to_node(self, node_id, key, data)`. -/
def trie_add_to_node (fuel max_index : Nat) (self : trie_t) (node_id : Nat) (key : List UInt8)
    (data : Nat) : Except Fault trie_t :=
  match c_string key with
  | .error e => .error e
  | .ok s =>
    add_to_node_loop fuel max_index data (s.length + 1) self key node_id
      (trie_get_node self node_id)

/-- `trie_add(self, key, data)`. -/
def trie_add (fuel max_index : Nat) (self : trie_t) (key : List UInt8) (data : Nat) :
    Except Fault trie_t :=
  match c_string key with
  | .error e => .error e
  | .ok s => if s.length = 0 then .ok self else trie_add_to_node fuel max_index self ROOT_ID key data

/-- The tail comparison of `trie_get` at a node with `base < 0`: the value returned. -/
def trie_get_tail (self : trie_t) (node : trie_node_t) (next_id : Nat) (ptr : List UInt8)
    (c : UInt8) (whole_word : Bool) : Except Fault Nat :=
  match data_at self (to_int32 (-1 * node.base)) with
  | .error e => .error e
  | .ok data_node =>
    match c_string (self.tail.drop data_node.tail) with
    | .error e => .error e
    | .ok current_tail =>
      match c_string (if c ≠ 0 then ptr.tail else ptr) with
      | .error e => .error e
      | .ok query_tail =>
        if (if whole_word = true ∧ query_tail.length = current_tail.length then
              strncmp_eq current_tail query_tail current_tail.length
            else strncmp_eq current_tail query_tail query_tail.length) = true
        then .ok next_id else .ok 0

/-- The `for` loop of `trie_get`; the first argument counts the iterations left, the last one is
the variable `next_id`, which has no value before the first iteration. -/
def trie_get_loop (self : trie_t) (whole_word : Bool) :
    Nat → List UInt8 → trie_node_t → Nat → Option Nat → Except Fault Nat
  | 0, _, _, _, some next_id => .ok next_id
  | 0, _, _, _, none => .error .ub
  | k + 1, ptr, node, node_id, _ =>
    match deref ptr with
    | .error e => .error e
    | .ok c =>
      let next_id := trie_get_transition_index self node c
      let node1 := trie_get_node self next_id
      if to_uint32 node1.check ≠ node_id then .ok 0
      else if node1.base < 0 then trie_get_tail self node1 next_id ptr c whole_word
      else trie_get_loop self whole_word k ptr.tail node1 next_id (some next_id)

/-- `trie_get(self, word, whole_word)` for a non-NULL `word`. -/
def trie_get (self : trie_t) (word : List UInt8) (whole_word : Bool) : Except Fault Nat :=
  match trie_get_root self with
  | .error e => .error e
  | .ok node =>
    match c_string word with
    | .error e => .error e
    | .ok s =>
      trie_get_loop self whole_word (if whole_word then s.length + 1 else s.length) word node
        ROOT_ID none

/-- A key or query given by its bytes, as the caller's NUL-terminated buffer. -/
def c_str (k : List UInt8) : List UInt8 := k ++ [0]

/-! ## I/O methods

`file_write_int32`, `file_write_chars`, `file_read_int32`, `file_read_chars` belong to the file
utilities of the repository, which are not part of the sources, and `FILE`, `ftell`, `fseek` to
the C library. -/

/-- Modelled from the spec: a byte stream (`FILE *`), given by the bytes of the file and the
current position in it. -/
structure file_t where
  bytes : List UInt8
  pos : Nat

/-- Modelled from the spec: header constant `TRIE_SIGNATURE`, the 4-byte magic of the stream
format. -/
def TRIE_SIGNATURE : Nat := 2880154539

/-- Modelled from the spec: header constant `NUM_CHARS`, the number of entries of `alpha_map`
and of the alphabet buffer of `trie_read`: one per byte value. -/
def NUM_CHARS : Nat := 256

/-- Modelled from the spec: `file_write_chars(file, buf, len)` puts the bytes at the current
position and moves the position behind them (failures of the device are outside the model). -/
def file_write_chars (file : file_t) (buf : List UInt8) : Bool × file_t :=
  (true,
    { bytes := file.bytes.take file.pos ++ buf ++ file.bytes.drop (file.pos + buf.length)
      pos := file.pos + buf.length })

/-- The four bytes of a 32-bit value, most significant first. -/
def int32_bytes (v : Int) : List UInt8 :=
  [UInt8.ofNat (to_uint32 v / 16777216), UInt8.ofNat (to_uint32 v / 65536),
   UInt8.ofNat (to_uint32 v / 256), UInt8.ofNat (to_uint32 v)]

/-- Modelled from the spec: `file_write_int32(file, value)` writes the 32-bit two's complement
value as four bytes in one fixed byte order. -/
def file_write_int32 (file : file_t) (value : Int) : Bool × file_t :=
  file_write_chars file (int32_bytes value)

/-- Modelled from the spec: `file_read_chars(file, buf, len)` reads `len` bytes at the current
position; when the stream ends before that it fails, with the position at the end. -/
def file_read_chars (file : file_t) (len : Nat) : Option (List UInt8) × file_t :=
  if file.pos + len ≤ file.bytes.length then
    (some ((file.bytes.drop file.pos).take len), { file with pos := file.pos + len })
  else (none, { file with pos := max file.pos file.bytes.length })

/-- Modelled from the spec: `file_read_int32(file, &value)` reads four bytes at the current
position as a 32-bit two's complement value, in the byte order of `file_write_int32`. -/
def file_read_int32 (file : file_t) : Option Int × file_t :=
  match file_read_chars file 4 with
  | (some [b3, b2, b1, b0], file1) =>
    (some (to_int32 ((b3.toNat * 16777216 + b2.toNat * 65536 + b1.toNat * 256 + b0.toNat : Nat) :
      Int)), file1)
  | (_, file1) => (none, file1)

/-- The loop of `trie_write` over the nodes; `false` is the `return false` inside it.  The
counter `int i` of the loop is left out: it runs up to the number of nodes, which has to be at
most `2^31 - 1` for that (see `serialisable`). -/
def write_nodes : List trie_node_t → file_t → Bool × file_t
  | [], file => (true, file)
  | node :: rest, file =>
    match file_write_int32 file node.base with
    | (false, file1) => (false, file1)
    | (true, file1) =>
      match file_write_int32 file1 node.check with
      | (false, file2) => (false, file2)
      | (true, file2) => write_nodes rest file2

/-- The loop of `trie_write` over the data records; `false` is the `return false` inside it.
The counter `int i` is left out as in `write_nodes`. -/
def write_data_nodes : List trie_data_node_t → file_t → Bool × file_t
  | [], file => (true, file)
  | data_node :: rest, file =>
    match file_write_int32 file (to_int32 (data_node.tail : Int)) with
    | (false, file1) => (false, file1)
    | (true, file1) =>
      match file_write_int32 file1 (to_int32 (data_node.data : Int)) with
      | (false, file2) => (false, file2)
      | (true, file2) => write_data_nodes rest file2

/-- `trie_write(self, file)`; the result comes with the stream after the call. -/
def trie_write (self : trie_t) (file : file_t) : Bool × file_t :=
  match file_write_int32 file (to_int32 (TRIE_SIGNATURE : Int)) with
  | (false, f1) => (false, f1)
  | (true, f1) =>
    match file_write_int32 f1 (to_int32 (self.alphabet_size : Int)) with
    | (false, f2) => (false, f2)
    | (true, f2) =>
      match file_write_chars f2 (self.alphabet.take self.alphabet_size) with
      | (false, f3) => (false, f3)
      | (true, f3) =>
        match file_write_int32 f3 (to_int32 (self.nodes.length : Int)) with
        | (false, f4) => (false, f4)
        | (true, f4) =>
          match write_nodes self.nodes f4 with
          | (false, f5) => (false, f5)
          | (true, f5) =>
            match file_write_int32 f5 (to_int32 (self.data.length : Int)) with
            | (false, f6) => (false, f6)
            | (true, f6) =>
              match write_data_nodes self.data f6 with
              | (false, f7) => (false, f7)
              | (true, f7) =>
                match file_write_int32 f7 (to_int32 (self.tail.length : Int)) with
                | (false, f8) => (false, f8)
                | (true, f8) => file_write_chars f8 self.tail

/-- The loop of `trie_read` over `num_nodes` nodes: the nodes pushed, or `none` for the
`goto exit_trie_created` inside it.  The counter `int i` is left out as in `write_nodes`. -/
def read_nodes : Nat → file_t → Option (List trie_node_t) × file_t
  | 0, file => (some [], file)
  | k + 1, file =>
    match file_read_int32 file with
    | (none, file1) => (none, file1)
    | (some base, file1) =>
      match file_read_int32 file1 with
      | (none, file2) => (none, file2)
      | (some check, file2) =>
        match read_nodes k file2 with
        | (none, file3) => (none, file3)
        | (some rest, file3) => (some (⟨base, check⟩ :: rest), file3)

/-- The loop of `trie_read` over `num_data_nodes` records: the records pushed, or `none` for the
`goto exit_trie_created` inside it.  The counter `int i` is left out as in `write_nodes`. -/
def read_data_nodes : Nat → file_t → Option (List trie_data_node_t) × file_t
  | 0, file => (some [], file)
  | k + 1, file =>
    match file_read_int32 file with
    | (none, file1) => (none, file1)
    | (some tail_ptr, file1) =>
      match file_read_int32 file1 with
      | (none, file2) => (none, file2)
      | (some data, file2) =>
        match read_data_nodes k file2 with
        | (none, file3) => (none, file3)
        | (some rest, file3) => (some (⟨to_uint32 tail_ptr, to_uint32 data⟩ :: rest), file3)

/-- The labels `exit_trie_created` and `exit_file_read` of `trie_read`: no trie, and the stream
back at `save_pos`. -/
def trie_read_exit (file : file_t) (save_pos : Nat) : Option trie_t × file_t :=
  (none, { file with pos := save_pos })

/-- `trie_read(file)`: the trie returned (`none` for `NULL`) and the stream after the call.  The
struct of the new trie comes from `trie_new_empty`, so `mem` is what its allocation held.  An
`alphabet_size` above `NUM_CHARS` makes `file_read_chars` write outside the local buffer. -/
def trie_read (file : file_t) (mem : UInt8 → UInt8) : Except Fault (Option trie_t × file_t) :=
  let save_pos := file.pos
  match file_read_int32 file with
  | (none, f1) => .ok (trie_read_exit f1 save_pos)
  | (some signature, f1) =>
    if to_uint32 signature ≠ TRIE_SIGNATURE then .ok (trie_read_exit f1 save_pos)
    else
      match file_read_int32 f1 with
      | (none, f2) => .ok (trie_read_exit f2 save_pos)
      | (some alphabet_size, f2) =>
        if to_uint32 alphabet_size > NUM_CHARS then .error .ub
        else
          match file_read_chars f2 (to_uint32 alphabet_size) with
          | (none, f3) => .ok (trie_read_exit f3 save_pos)
          | (some alphabet, f3) =>
            let trie := trie_new_empty alphabet mem
            match file_read_int32 f3 with
            | (none, f4) => .ok (trie_read_exit f4 save_pos)
            | (some num_nodes, f4) =>
              match read_nodes (to_uint32 num_nodes) f4 with
              | (none, f5) => .ok (trie_read_exit f5 save_pos)
              | (some nodes, f5) =>
                match file_read_int32 f5 with
                | (none, f6) => .ok (trie_read_exit f6 save_pos)
                | (some num_data_nodes, f6) =>
                  match read_data_nodes (to_uint32 num_data_nodes) f6 with
                  | (none, f7) => .ok (trie_read_exit f7 save_pos)
                  | (some data, f7) =>
                    match file_read_int32 f7 with
                    | (none, f8) => .ok (trie_read_exit f8 save_pos)
                    | (some tail_len, f8) =>
                      match file_read_chars f8 (to_uint32 tail_len) with
                      | (none, f9) => .ok (trie_read_exit f9 save_pos)
                      | (some tail, f9) =>
                        .ok (some { trie with
                                      nodes := trie.nodes ++ nodes
                                      data := trie.data ++ data
                                      tail := tail }, f9)

/-! ## Clients of the interface and predicates of the statements -/

/-- A sequence of `trie_add` calls, in order; it stops at the first call that does not return. -/
def trie_add_all (fuel max_index : Nat) : trie_t → List (List UInt8 × Nat) → Except Fault trie_t
  | self, [] => .ok self
  | self, (key, data) :: rest =>
    match trie_add fuel max_index self key data with
    | .ok self1 => trie_add_all fuel max_index self1 rest
    | .error e => .error e

/-- The trie a computation returned, or the given one when it did not return. -/
def trie_or (d : trie_t) : Except Fault trie_t → trie_t
  | .ok t => t
  | .error _ => d

/-- The content of `alpha_map` left by an allocation all of whose bytes hold `g`. -/
def mem_const (g : Fin 256) : UInt8 → UInt8 := fun _ => UInt8.ofNat g.val

/-- `trie_get(key, true)` on the trie returns a node with `base < 0` whose data record holds
`payload`. -/
def holds_payload (self : trie_t) (key : List UInt8) (payload : Nat) : Bool :=
  match trie_get self (c_str key) true with
  | .error _ => false
  | .ok h =>
    match self.nodes.get? h with
    | none => false
    | some node =>
      decide (node.base < 0) &&
        (match self.data.get? (-node.base).toNat with
          | none => false
          | some d => decide (d.data = payload))

/-- On the trie `self`: `trie_add(k1, 1)` returns and `trie_get(k1, true)` is non-zero after it,
`trie_add(k2, 2)` returns too, and `trie_get(k1, true)` is zero after it. -/
def key_lost (self : trie_t) (k1 k2 : List UInt8) : Bool :=
  match trie_add 300 TRIE_MAX_INDEX_DEFAULT self (c_str k1) 1 with
  | .error _ => false
  | .ok t1 =>
    match trie_get t1 (c_str k1) true, trie_add 300 TRIE_MAX_INDEX_DEFAULT t1 (c_str k2) 2 with
    | .ok h1, .ok t2 =>
      decide (h1 ≠ 0) &&
        (match trie_get t2 (c_str k1) true with
          | .ok h2 => decide (h2 = 0)
          | .error _ => false)
    | _, _ => false

/-- On the trie `self`: `trie_add(k1, 1)` returns and `k1` holds the payload 1 after it,
`trie_add(k2, 2)` returns too, and `k1` does not hold the payload 1 after it. -/
def payload_lost (self : trie_t) (k1 k2 : List UInt8) : Bool :=
  match trie_add 300 TRIE_MAX_INDEX_DEFAULT self (c_str k1) 1 with
  | .error _ => false
  | .ok t1 =>
    match trie_add 300 TRIE_MAX_INDEX_DEFAULT t1 (c_str k2) 2 with
    | .error _ => false
    | .ok t2 => holds_payload t1 k1 1 && !holds_payload t2 k1 1

/-- The trie over the alphabet {NUL, a, b, c} after `trie_add("acc", 1)` and
`trie_add("ac", 2)`. -/
def trie_acc_ac : trie_t :=
  trie_or (trie_new [0, 97, 98, 99] (fun _ => 0))
    (trie_add_all 16 TRIE_MAX_INDEX_DEFAULT (trie_new [0, 97, 98, 99] (fun _ => 0))
      [(c_str [97, 99, 99], 1), (c_str [97, 99], 2)])

/-- The trie `trie_acc_ac` after `trie_extend` to index 14. -/
def trie_acc_ac_extended : trie_t :=
  match trie_extend TRIE_MAX_INDEX_DEFAULT trie_acc_ac 14 with
  | .ok r => r.2
  | .error _ => trie_acc_ac

/-- The trie can be written with 32-bit fields: the alphabet has `alphabet_size ≤ 256` bytes,
the node store and the data store have at most `2^31 - 1` entries (the loops of `trie_write`
and `trie_read` over them count with an `int`, which runs up to the number of entries), the
tail length is a `uint32_t` value, node fields are `int32_t` values and data fields are
`uint32_t` values. -/
def serialisable (self : trie_t) : Prop :=
  self.alphabet_size ≤ 256 ∧ self.alphabet.length = self.alphabet_size ∧
    self.nodes.length < 2147483648 ∧ self.data.length < 2147483648 ∧
    self.tail.length < 4294967296 ∧
    (∀ node ∈ self.nodes, (-2147483648 ≤ node.base ∧ node.base < 2147483648) ∧
      (-2147483648 ≤ node.check ∧ node.check < 2147483648)) ∧
    (∀ d ∈ self.data, d.tail < 4294967296 ∧ d.data < 4294967296)

/-- The stream `trie_write` produces for the trie on an empty file. -/
def trie_written (self : trie_t) : List UInt8 := (trie_write self ⟨[], 0⟩).2.bytes

/-- The parts of a trie that no operation after construction writes. -/
def tables (self : trie_t) : (UInt8 → UInt8) × trie_node_t × List UInt8 × Nat :=
  (self.alpha_map, self.null_node, self.alphabet, self.alphabet_size)

/-- Every value the computation can return satisfies `P`. -/
def returns {α : Type} (x : Except Fault α) (P : α → Prop) : Prop := ∀ a, x = .ok a → P a

/-- The bytes `write_nodes` puts out for a list of nodes. -/
def nodes_stream : List trie_node_t → List UInt8
  | [] => []
  | node :: rest => int32_bytes node.base ++ (int32_bytes node.check ++ nodes_stream rest)

/-- The bytes `write_data_nodes` puts out for a list of data records. -/
def data_stream : List trie_data_node_t → List UInt8
  | [] => []
  | d :: rest =>
    int32_bytes (to_int32 (d.tail : Int)) ++
      (int32_bytes (to_int32 (d.data : Int)) ++ data_stream rest)

/-- The stream layout of a trie: signature, alphabet size, alphabet, node count, nodes, record
count, records, tail length, tail. -/
def trie_stream (self : trie_t) : List UInt8 :=
  int32_bytes (to_int32 (TRIE_SIGNATURE : Int)) ++
    (int32_bytes (to_int32 (self.alphabet_size : Int)) ++
      (self.alphabet.take self.alphabet_size ++
        (int32_bytes (to_int32 (self.nodes.length : Int)) ++
          (nodes_stream self.nodes ++
            (int32_bytes (to_int32 (self.data.length : Int)) ++
              (data_stream self.data ++
                (int32_bytes (to_int32 (self.tail.length : Int)) ++ self.tail)))))))

/-! ## Suffix keys -/

/-- Modelled from the spec: the number of bytes of the UTF-8 sequence that starts with the
given byte (a byte that cannot start a sequence counts as one byte). -/
def utf8_sequence_length (b : UInt8) : Nat :=
  if b.toNat < 192 then 1
  else if b.toNat < 224 then 2
  else if b.toNat < 240 then 3
  else if b.toNat < 248 then 4
  else 1

/-- The loop of the reversal: the first argument bounds the number of sequences left, the last
one is the output built so far. -/
def utf8_reversed_loop : Nat → List UInt8 → List UInt8 → List UInt8
  | 0, _, out => out
  | _ + 1, [], out => out
  | k + 1, b :: rest, out =>
    utf8_reversed_loop k ((b :: rest).drop (utf8_sequence_length b))
      ((b :: rest).take (utf8_sequence_length b) ++ out)

/-- Modelled from the spec: `utf8_reversed_string` (string utilities, not in the sources)
reverses a string by Unicode scalar: the UTF-8 sequences come out in the opposite order, the
bytes of each sequence stay in their order. -/
def utf8_reversed_string (s : List UInt8) : List UInt8 := utf8_reversed_loop s.length s []

/-- `trie_add_suffix(self, key, data)`; the reversed key is a fresh NUL-terminated buffer. -/
def trie_add_suffix (fuel max_index : Nat) (self : trie_t) (key : List UInt8) (data : Nat) :
    Except Fault trie_t :=
  match c_string key with
  | .error e => .error e
  | .ok s =>
    if s.length = 0 then .ok self
    else do
      let root ← trie_get_root self
      let node_id := trie_get_transition_index self root 0
      let node := trie_get_node self node_id
      let r ←
        (if node.check ≠ (ROOT_ID : Int) then trie_add_transition fuel max_index self ROOT_ID 0
         else pure (node_id, self))
      trie_add_to_node fuel max_index r.2 r.1 (utf8_reversed_string s ++ [0]) data

/-- A sequence of `trie_add_suffix` calls, in order; it stops at the first call that does not
return. -/
def trie_add_suffix_all (fuel max_index : Nat) :
    trie_t → List (List UInt8 × Nat) → Except Fault trie_t
  | self, [] => .ok self
  | self, (key, data) :: rest =>
    match trie_add_suffix fuel max_index self key data with
    | .ok self1 => trie_add_suffix_all fuel max_index self1 rest
    | .error e => .error e

/-! ## The free list -/

/-- The `check` field of the cell at an index of the node store, when the store has the cell. -/
def check_at (self : trie_t) (i : Nat) : Option Int :=
  (self.nodes.get? i).map trie_node_t.check

/-- The `base` field of the cell at an index of the node store, when the store has the cell. -/
def base_at (self : trie_t) (i : Nat) : Option Int :=
  (self.nodes.get? i).map trie_node_t.base

/-- The cell `b` follows the cell `a` on the free list: `check[a] = -b` and `base[b] = -a`. -/
def free_link (self : trie_t) (a b : Nat) : Prop :=
  check_at self a = some (-(b : Int)) ∧ base_at self b = some (-(a : Int))

/-- The walk along `-check` from the cell `a` visits the cells of the list, in ascending order,
and then comes to the head `FREE_LIST_ID`; the backward links agree at every step. -/
def free_chain (self : trie_t) : Nat → List Nat → Prop
  | a, [] => free_link self a FREE_LIST_ID
  | a, b :: rest => a < b ∧ free_link self a b ∧ free_chain self b rest

/-- The free list of the trie is well formed and consists of the cells `L`: the trie hands out
`NULL_NODE` for missing cells, every index fits a negated `int32_t` link, the placeholder cell 0
is `(0, 0)`, the walk from the head visits `L` in strictly ascending order and returns to the
head with agreeing backward links, and the free cells (`check < 0`) at the indices from
`ROOT_ID` on are exactly the cells of `L`. -/
def free_list_is (self : trie_t) (L : List Nat) : Prop :=
  self.null_node = NULL_NODE ∧ self.nodes.length ≤ 2147483648 ∧
    self.nodes.get? NULL_ID = some ⟨0, 0⟩ ∧ free_chain self FREE_LIST_ID L ∧
    ∀ i < self.nodes.length, ROOT_ID ≤ i →
      (trie_node_is_free (trie_get_node self i) = true ↔ i ∈ L)

/-- The parts of a trie outside the node store are the same in both tries. -/
def same_store (a b : trie_t) : Prop :=
  b.data = a.data ∧ b.tail = a.tail ∧ tables b = tables a

/-- The last cell of the walk that starts at `a` and visits the cells of the list. -/
def free_list_last : Nat → List Nat → Nat
  | a, [] => a
  | _, b :: rest => free_list_last b rest

/-- The trie `self1` is the trie `self` with free cells appended: its free list is the free
list `L` of `self` followed by cells `M` behind the old end of the store, the store did not
shrink, the parts outside the node store are the same, and every old cell from `ROOT_ID` on
that is not free is the same cell as before. -/
def free_list_grown (self self1 : trie_t) (L M : List Nat) : Prop :=
  free_list_is self1 (L ++ M) ∧ (∀ x ∈ M, self.nodes.length ≤ x) ∧
    self.nodes.length ≤ self1.nodes.length ∧ same_store self self1 ∧
    ∀ i < self.nodes.length, ROOT_ID ≤ i → i ∉ L → self1.nodes.get? i = self.nodes.get? i

/-- The trie over the alphabet {a, b, c}, with a zero-filled `alpha_map`, after
`trie_add_suffix("a", 1)` and `trie_add_suffix("ba", 2)`. -/
def trie_suffix_a_ba : trie_t :=
  trie_or (trie_new [97, 98, 99] (fun _ => 0))
    (trie_add_suffix_all 16 TRIE_MAX_INDEX_DEFAULT (trie_new [97, 98, 99] (fun _ => 0))
      [(c_str [97], 1), (c_str [98, 97], 2)])

/-- The trie over the alphabet {NUL, a} after `trie_add("a", 1)` and `trie_add("aa", 2)`. -/
def trie_a_aa : trie_t :=
  trie_or (trie_new [0, 97] (fun _ => 0))
    (trie_add_all 16 TRIE_MAX_INDEX_DEFAULT (trie_new [0, 97] (fun _ => 0))
      [(c_str [97], 1), (c_str [97, 97], 2)])

/-- The trie over the alphabet {a, b, c}, with an `alpha_map` allocated in memory that holds
the byte 7 everywhere, after `trie_add("a", 1)` and `trie_add("aa", 2)`. -/
def trie_a_aa_filled : trie_t :=
  trie_or (trie_new [97, 98, 99] (fun _ => 7))
    (trie_add_all 16 TRIE_MAX_INDEX_DEFAULT (trie_new [97, 98, 99] (fun _ => 7))
      [(c_str [97], 1), (c_str [97, 97], 2)])

/-- The trie over the alphabet {a, b, c}, with an `alpha_map` allocated in memory that holds
the byte 7 everywhere, after `trie_add("aa", 1)` and `trie_add("a", 2)`. -/
def trie_aa_a_filled : trie_t :=
  trie_or (trie_new [97, 98, 99] (fun _ => 7))
    (trie_add_all 16 TRIE_MAX_INDEX_DEFAULT (trie_new [97, 98, 99] (fun _ => 7))
      [(c_str [97, 97], 1), (c_str [97], 2)])

/-! ## Tries that differ in the data store and the tail buffer -/

/-- The trie with the given data store and tail buffer in place of its own. -/
def with_store (self : trie_t) (data : List trie_data_node_t) (tail : List UInt8) : trie_t :=
  { self with data := data, tail := tail }

/-- The trie over the alphabet {NUL, a, b, c, d} with the given node store, an empty data store
and an empty tail buffer. -/
def trie_abcd (nodes : List trie_node_t) : trie_t :=
  { trie_new_empty [0, 97, 98, 99, 100] (fun _ => 0) with nodes := nodes }

/-! ## Tries of the statements about `trie_tail_merge` and `trie_add_transition` -/

/-- The trie over the alphabet {a, b, c}, with a zero-filled `alpha_map`, after
`trie_add("b", 1)`. -/
def trie_b : trie_t :=
  trie_or (trie_new [97, 98, 99] (fun _ => 0))
    (trie_add_all 16 TRIE_MAX_INDEX_DEFAULT (trie_new [97, 98, 99] (fun _ => 0))
      [(c_str [98], 1)])

/-- The trie over the alphabet {NUL, a, b}, with the index limit `TRIE_MAX_INDEX = 10`, after
`trie_add("a", 1)`, `trie_add("bab", 2)` and `trie_add("aa", 3)`. -/
def trie_a_bab_aa : trie_t :=
  trie_or (trie_new [0, 97, 98] (fun _ => 0))
    (trie_add_all 16 10 (trie_new [0, 97, 98] (fun _ => 0))
      [(c_str [97], 1), (c_str [98, 97, 98], 2), (c_str [97, 97], 3)])

/-! ## The path of a query, the node an add restructures and the invariant of the trie -/

/-- The cells that the loop of `trie_get` reads and follows (the arguments are those of
`trie_get_loop`). -/
def get_cells (self : trie_t) : Nat → List UInt8 → trie_node_t → Nat → List Nat
  | 0, _, _, _ => []
  | k + 1, ptr, node, node_id =>
    match deref ptr with
    | .error _ => []
    | .ok c =>
      let next_id := trie_get_transition_index self node c
      let node1 := trie_get_node self next_id
      if to_uint32 node1.check ≠ node_id then []
      else if node1.base < 0 then [next_id]
      else next_id :: get_cells self k ptr.tail node1 next_id

/-- The path of a query: the cells `trie_get(word, whole_word)` reads and follows, the root
first. -/
def trie_get_path (self : trie_t) (word : List UInt8) (whole_word : Bool) : List Nat :=
  match c_string word with
  | .error _ => []
  | .ok s =>
    ROOT_ID :: get_cells self (if whole_word then s.length + 1 else s.length) word
      (trie_get_node self ROOT_ID) ROOT_ID

/-- Two ranges of positions have no position in common. -/
def spans_apart (a b : Nat × Nat) : Prop := a.2 ≤ b.1 ∨ b.2 ≤ a.1

/-- The node that the loop of `trie_add_to_node` restructures, read off the trie before the
call: the terminal whose tail it splits, or the node at which the key leaves the trie when that
node gets a new base (it has none, or the cell of the new transition is taken or cannot be
made).  It is `none` when the key is stored already and when the add only claims a free cell
for the new transition. -/
def add_site (max_index : Nat) (self : trie_t) :
    Nat → List UInt8 → Nat → trie_node_t → Option Nat
  | 0, _, _, _ => none
  | k + 1, ptr, node_id, node =>
    match deref ptr with
    | .error _ => none
    | .ok c =>
      let next_id := trie_get_transition_index self node c
      let next := trie_get_node self next_id
      if next.check < 0 ∨ to_uint32 next.check ≠ node_id then
        if 0 < node.base ∧
            to_uint32 node.base ≤
              to_uint32 ((max_index : Int) - (trie_get_char_index self c : Int)) ∧
            ((next_id < self.nodes.length ∧ next.check < 0) ∨
              (self.nodes.length ≤ next_id ∧ next_id + self.alphabet_size < max_index)) then
          none
        else some node_id
      else if next.base < 0 then
        match data_at self (to_int32 (-1 * next.base)), c_string ptr.tail with
        | .ok d, .ok suffix =>
          match c_string (self.tail.drop d.tail) with
          | .ok old_tail =>
            if string_common_prefix old_tail suffix = old_tail.length ∧
                old_tail.length = suffix.length then none
            else some next_id
          | .error _ => some next_id
        | _, _ => some next_id
      else add_site max_index self k ptr.tail next_id next

/-- The node that `trie_add(key, _)` restructures (see `add_site`). -/
def trie_add_site (max_index : Nat) (self : trie_t) (key : List UInt8) : Option Nat :=
  match c_string key with
  | .error _ => none
  | .ok s =>
    if s.length = 0 then none
    else add_site max_index self (s.length + 1) key ROOT_ID (trie_get_node self ROOT_ID)

/-- A cell from `ROOT_ID` on with a negative check value, given by the two field views of a
node store. -/
def list_cell (chk : Nat → Option Int) (i : Nat) : Prop :=
  2 ≤ i ∧ ∃ c, chk i = some c ∧ c < 0

/-- The cell `i` is allocated: it lies from `ROOT_ID` on and its check value is not negative. -/
def allocated (self : trie_t) (i : Nat) : Prop :=
  2 ≤ i ∧ ∃ c, check_at self i = some c ∧ 0 ≤ c

/-- The cells `P` are allocated cells of `t`, and each of them is the root or has its parent
(the value of its check field) in `P`. -/
def path_closed (t : trie_t) (P : Nat → Prop) : Prop :=
  ∀ i, P i → allocated t i ∧ (i = ROOT_ID ∨ ∃ j : Nat, P j ∧ check_at t i = some (j : Int))

/-- The store of `s` outside the nodes is that of `t` with records and tail bytes appended,
and with the tail bytes at the positions from `lo` up to `hi` rewritten. -/
def store_grown (t s : trie_t) (lo hi : Nat) : Prop :=
  tables s = tables t ∧ t.data <+: s.data ∧ t.tail.length ≤ s.tail.length ∧
    ∀ j, j < t.tail.length → ¬ (lo ≤ j ∧ j < hi) → s.tail.get? j = t.tail.get? j

instance spans_apart_decidable (a b : Nat × Nat) : Decidable (spans_apart a b) := by
  unfold spans_apart
  exact inferInstance

/-! ## Theorems -/

set_option maxRecDepth 100000

/-! ### Tables: what no operation writes -/

theorem returns_ok {α : Type} {P : α → Prop} {a : α} (h : P a) :
    returns (Except.ok a : Except Fault α) P := by
  intro b hb; cases hb; exact h

theorem returns_pure {α : Type} {P : α → Prop} {a : α} (h : P a) :
    returns (pure a : Except Fault α) P := returns_ok h

theorem returns_error {α : Type} {P : α → Prop} {e : Fault} :
    returns (Except.error e : Except Fault α) P := by
  intro b hb; cases hb

theorem returns_bind {α β : Type} {x : Except Fault α} {f : α → Except Fault β} {Q : α → Prop}
    {P : β → Prop} (hx : returns x Q) (hf : ∀ a, Q a → returns (f a) P) :
    returns (x >>= f) P := by
  intro b hb
  cases x with
  | error e => cases hb
  | ok a => exact hf a (hx a rfl) b hb

theorem returns_mono {α : Type} {x : Except Fault α} {P Q : α → Prop} (hx : returns x P)
    (h : ∀ a, P a → Q a) : returns x Q := fun a ha => h a (hx a ha)

theorem returns_true {α : Type} (x : Except Fault α) : returns x (fun _ => True) :=
  fun _ _ => trivial

theorem trie_set_base_tables (self : trie_t) (i : Nat) (b : Int) :
    returns (trie_set_base self i b) (fun r => tables r = tables self) := by
  unfold trie_set_base
  split
  · exact returns_ok rfl
  · exact returns_error

theorem trie_set_check_tables (self : trie_t) (i : Nat) (b : Int) :
    returns (trie_set_check self i b) (fun r => tables r = tables self) := by
  unfold trie_set_check
  split
  · exact returns_ok rfl
  · exact returns_error

theorem trie_set_node_tables (self : trie_t) (i : Nat) (n : trie_node_t) :
    returns (trie_set_node self i n) (fun r => tables r = tables self) := by
  unfold trie_set_node
  split
  · exact returns_ok rfl
  · exact returns_error

theorem trie_extend_tables (m : Nat) (self : trie_t) (i : Nat) :
    returns (trie_extend m self i) (fun r => tables r.2 = tables self) := by
  unfold trie_extend
  split
  · exact returns_ok rfl
  split
  · exact returns_ok rfl
  refine returns_bind (returns_true _) fun n _ => ?_
  refine returns_bind (trie_set_check_tables _ _ _) fun a1 h1 => ?_
  refine returns_bind (trie_set_base_tables _ _ _) fun a2 h2 => ?_
  refine returns_bind (trie_set_check_tables _ _ _) fun a3 h3 => ?_
  refine returns_bind (trie_set_base_tables _ _ _) fun a4 h4 => ?_
  exact returns_pure (by simp only [h4, h3, h2, h1]; rfl)

theorem trie_make_room_for_tables (m : Nat) (self : trie_t) (i : Nat) :
    returns (trie_make_room_for m self i) (fun r => tables r = tables self) := by
  unfold trie_make_room_for
  split
  · split
    · rename_i r h
      exact returns_ok (trie_extend_tables m self _ r h)
    · exact returns_error
  · exact returns_ok rfl

theorem trie_init_node_tables (self : trie_t) (i : Nat) :
    returns (trie_init_node self i) (fun r => tables r = tables self) := by
  unfold trie_init_node
  refine returns_bind (trie_set_check_tables _ _ _) fun a1 h1 => ?_
  exact returns_mono (trie_set_base_tables _ _ _) fun a2 h2 => h2.trans h1

theorem trie_free_node_tables (fuel : Nat) (self : trie_t) (i : Nat) :
    returns (trie_free_node fuel self i) (fun r => tables r = tables self) := by
  unfold trie_free_node
  refine returns_bind (returns_true _) fun n _ => ?_
  refine returns_bind (returns_true _) fun j _ => ?_
  refine returns_bind (trie_set_node_tables _ _ _) fun a1 h1 => ?_
  refine returns_bind (trie_set_check_tables _ _ _) fun a2 h2 => ?_
  exact returns_mono (trie_set_base_tables _ _ _) fun a3 h3 => h3.trans (h2.trans h1)

theorem prune_loop_tables (fuel p : Nat) (k : Nat) :
    ∀ (self : trie_t) (s : Nat),
      returns (prune_loop fuel p k self s) (fun r => tables r = tables self) := by
  induction k with
  | zero => intro self s; exact returns_error
  | succ k ih =>
    intro self s
    unfold prune_loop
    split
    · split
      · rename_i self1 h
        exact returns_mono (ih self1 _) fun a ha =>
          ha.trans (trie_free_node_tables fuel self s self1 h)
      · exact returns_error
    · exact returns_ok rfl

theorem trie_prune_up_to_tables (fuel : Nat) (self : trie_t) (p s : Nat) :
    returns (trie_prune_up_to fuel self p s) (fun r => tables r = tables self) :=
  prune_loop_tables fuel p fuel self s

theorem find_base_extend_tables (m : Nat) (k : Nat) :
    ∀ (self : trie_t) (i : Nat),
      returns (find_base_extend m k self i) (fun r => tables r.2 = tables self) := by
  induction k with
  | zero => intro self i; exact returns_error
  | succ k ih =>
    intro self i
    unfold find_base_extend
    split
    · exact returns_error
    · rename_i self1 h
      exact returns_ok (trie_extend_tables m self i _ h)
    · rename_i self1 h
      split
      · exact returns_ok (trie_extend_tables m self i _ h)
      · exact returns_mono (ih self1 _) fun a ha =>
          ha.trans (trie_extend_tables m self i _ h)

theorem find_base_search_tables (m fci : Nat) (tr : List UInt8) (k : Nat) :
    ∀ (self : trie_t) (i : Nat),
      returns (find_base_search m fci tr k self i) (fun r => tables r.2 = tables self) := by
  induction k with
  | zero => intro self i; exact returns_error
  | succ k ih =>
    intro self i
    unfold find_base_search
    split
    · exact returns_ok rfl
    split
    · split
      · exact returns_error
      · rename_i self1 h
        exact returns_ok (trie_extend_tables m self _ _ h)
      · rename_i self1 h
        exact returns_mono (ih self1 _) fun a ha =>
          ha.trans (trie_extend_tables m self _ _ h)
    · exact ih self _

theorem trie_find_new_base_tables (fuel m : Nat) (self : trie_t) (tr : List UInt8) :
    returns (trie_find_new_base fuel m self tr) (fun r => tables r.2 = tables self) := by
  unfold trie_find_new_base
  split
  · exact returns_error
  · refine returns_bind (returns_true _) fun n _ => ?_
    refine returns_bind (returns_true _) fun index _ => ?_
    refine returns_bind (Q := fun (r : Option Nat × trie_t) => tables r.2 = tables self) ?_
      fun r1 h1 => ?_
    · split
      · exact find_base_extend_tables m fuel self _
      · exact returns_pure rfl
    · split
      · exact returns_pure h1
      · rename_i index1 self1
        refine returns_bind (find_base_search_tables m _ _ fuel self1 index1) fun r2 h2 => ?_
        split
        · exact returns_pure (h2.trans h1)
        · exact returns_pure (h2.trans h1)

theorem relocate_grandchildren_tables (old : trie_node_t) (oi ni : Nat) (cs : List UInt8) :
    ∀ self : trie_t,
      returns (relocate_grandchildren old oi ni cs self) (fun r => tables r = tables self) := by
  induction cs with
  | nil => intro self; exact returns_ok rfl
  | cons c cs ih =>
    intro self
    unfold relocate_grandchildren
    split
    · split
      · rename_i self1 h
        exact returns_mono (ih self1) fun a ha => ha.trans (trie_set_check_tables _ _ _ _ h)
      · exact returns_error
    · exact ih self

theorem relocate_children_tables (fuel ci : Nat) (old : trie_node_t) (nb : Int)
    (cs : List UInt8) :
    ∀ self : trie_t,
      returns (relocate_children fuel ci old nb cs self) (fun r => tables r = tables self) := by
  induction cs with
  | nil => intro self; exact returns_ok rfl
  | cons c cs ih =>
    intro self
    unfold relocate_children
    refine returns_bind (trie_init_node_tables _ _) fun a1 h1 => ?_
    refine returns_bind (trie_set_node_tables _ _ _) fun a2 h2 => ?_
    refine returns_bind (Q := fun (r : trie_t) => tables r = tables a2) ?_ fun a3 h3 => ?_
    · split
      · exact relocate_grandchildren_tables _ _ _ _ a2
      · exact returns_pure rfl
    refine returns_bind (trie_free_node_tables _ _ _) fun a4 h4 => ?_
    exact returns_mono (ih a4) fun a ha => ha.trans (h4.trans (h3.trans (h2.trans h1)))

theorem trie_relocate_base_tables (fuel m : Nat) (self : trie_t) (ci : Nat) (nb : Int) :
    returns (trie_relocate_base fuel m self ci nb) (fun r => tables r = tables self) := by
  unfold trie_relocate_base
  refine returns_bind (trie_make_room_for_tables _ _ _) fun a1 h1 => ?_
  refine returns_bind (relocate_children_tables _ _ _ _ _ a1) fun a2 h2 => ?_
  exact returns_mono (trie_set_base_tables _ _ _) fun a3 h3 => h3.trans (h2.trans h1)

theorem trie_set_tail_tables (self : trie_t) (tail : List UInt8) (pos : Int) :
    returns (trie_set_tail self tail pos) (fun r => tables r = tables self) := by
  intro a h
  unfold trie_set_tail at h
  dsimp only at h
  split_ifs at h <;> cases h <;> rfl

theorem trie_add_transition_tables (fuel m : Nat) (self : trie_t) (node_id : Nat) (c : UInt8) :
    returns (trie_add_transition fuel m self node_id c) (fun r => tables r.2 = tables self) := by
  unfold trie_add_transition
  dsimp only
  split
  · split
    · exact returns_error
    · rename_i self1 h
      have h1 := trie_make_room_for_tables m self _ self1 h
      split
      · exact returns_ok h1
      split
      · split
        · refine returns_bind (trie_find_new_base_tables _ _ _ _) fun r hr => ?_
          refine returns_bind (trie_relocate_base_tables _ _ _ _ _) fun a3 h3 => ?_
          refine returns_bind (trie_init_node_tables _ _) fun a4 h4 => ?_
          refine returns_bind (trie_set_check_tables _ _ _) fun a5 h5 => ?_
          exact returns_pure (h5.trans (h4.trans (h3.trans (hr.trans h1))))
        · exact returns_error
      · refine returns_bind (trie_init_node_tables _ _) fun a4 h4 => ?_
        refine returns_bind (trie_set_check_tables _ _ _) fun a5 h5 => ?_
        exact returns_pure (h5.trans (h4.trans h1))
  · refine returns_bind (trie_find_new_base_tables _ _ _ _) fun r hr => ?_
    refine returns_bind (trie_set_base_tables _ _ _) fun a2 h2 => ?_
    refine returns_bind (trie_init_node_tables _ _) fun a4 h4 => ?_
    refine returns_bind (trie_set_check_tables _ _ _) fun a5 h5 => ?_
    exact returns_pure (h5.trans (h4.trans (h2.trans hr)))

theorem trie_separate_tail_tables (fuel m : Nat) (self : trie_t) (from_index : Nat)
    (tail : List UInt8) (data : Nat) :
    returns (trie_separate_tail fuel m self from_index tail data)
      (fun r => tables r.2 = tables self) := by
  unfold trie_separate_tail
  refine returns_bind (returns_true _) fun c _ => ?_
  refine returns_bind (trie_add_transition_tables _ _ _ _ _) fun r hr => ?_
  refine returns_bind (trie_set_base_tables _ _ _) fun a2 h2 => ?_
  refine returns_bind (returns_true _) fun s _ => ?_
  exact returns_pure (h2.trans hr)

theorem tail_merge_walk_tables (fuel m : Nat) (cs : List UInt8) :
    ∀ (self : trie_t) (node_id : Nat),
      returns (tail_merge_walk fuel m cs self node_id)
        (fun r => tables r.2.2 = tables self) := by
  induction cs with
  | nil => intro self node_id; exact returns_ok rfl
  | cons c cs ih =>
    intro self node_id
    unfold tail_merge_walk
    split
    · exact returns_error
    · rename_i next_id self1 h
      have h1 := trie_add_transition_tables fuel m self node_id c _ h
      split
      · exact returns_ok h1
      · exact returns_mono (ih self1 next_id) fun a ha => ha.trans h1

theorem tail_merge_exit_prune_tables (fuel : Nat) (self : trie_t) (a b : Nat)
    (tail : List UInt8) (pos : Nat) :
    returns (tail_merge_exit_prune fuel self a b tail pos)
      (fun r => tables r = tables self) := by
  unfold tail_merge_exit_prune
  refine returns_bind (trie_prune_up_to_tables _ _ _ _) fun a1 h1 => ?_
  exact returns_mono (trie_set_tail_tables _ _ _) fun a2 h2 => h2.trans h1

theorem trie_tail_merge_tables (fuel m : Nat) (self : trie_t) (old_node_id : Nat)
    (suffix : List UInt8) (data : Nat) :
    returns (trie_tail_merge fuel m self old_node_id suffix data)
      (fun r => tables r = tables self) := by
  unfold trie_tail_merge
  refine returns_bind (returns_true _) fun d _ => ?_
  refine returns_bind (returns_true _) fun old_tail _ => ?_
  refine returns_bind (returns_true _) fun new_suffix _ => ?_
  dsimp only
  split
  · exact returns_pure rfl
  · refine returns_bind (tail_merge_walk_tables _ _ _ _ _) fun w hw => ?_
    split
    · exact returns_mono (tail_merge_exit_prune_tables _ _ _ _ _ _) fun a ha => ha.trans hw
    · refine returns_bind (trie_add_transition_tables _ _ _ _ _) fun r hr => ?_
      split
      · exact returns_mono (tail_merge_exit_prune_tables _ _ _ _ _ _) fun a ha =>
          ha.trans (hr.trans hw)
      · refine returns_bind (trie_set_base_tables _ _ _) fun a3 h3 => ?_
        refine returns_bind (trie_set_tail_tables _ _ _) fun a4 h4 => ?_
        refine returns_bind (trie_separate_tail_tables _ _ _ _ _ _) fun r5 h5 => ?_
        exact returns_pure (h5.trans (h4.trans (h3.trans (hr.trans hw))))

theorem add_to_node_loop_tables (fuel m data : Nat) (k : Nat) :
    ∀ (self : trie_t) (ptr : List UInt8) (node_id : Nat) (node : trie_node_t),
      returns (add_to_node_loop fuel m data k self ptr node_id node)
        (fun r => tables r = tables self) := by
  induction k with
  | zero => intro self ptr node_id node; exact returns_ok rfl
  | succ k ih =>
    intro self ptr node_id node
    unfold add_to_node_loop
    split
    · exact returns_error
    · dsimp only
      split
      · exact returns_error
      · rename_i self1 h
        have h1 : tables self1 = tables self := by
          split at h
          · exact trie_make_room_for_tables m self _ self1 h
          · cases h; rfl
        split
        · split
          · rename_i r hr
            exact returns_ok ((trie_separate_tail_tables fuel m self1 _ _ _ r hr).trans h1)
          · exact returns_error
        split
        · exact returns_mono (trie_tail_merge_tables _ _ _ _ _ _) fun a ha => ha.trans h1
        · exact returns_mono (ih self1 _ _ _) fun a ha => ha.trans h1

/-- `trie_add` writes neither the alphabet nor `alpha_map` nor the placeholder node. -/
theorem trie_add_tables (fuel m : Nat) (self : trie_t) (key : List UInt8) (data : Nat) :
    returns (trie_add fuel m self key data) (fun r => tables r = tables self) := by
  unfold trie_add
  split
  · exact returns_error
  · split
    · exact returns_ok rfl
    · unfold trie_add_to_node
      split
      · exact returns_error
      · exact add_to_node_loop_tables _ _ _ _ _ _ _ _

/-! ### C1: a call of `trie_add` that does not return -/

/-- On `trie_acc_ac_extended` the search loop of `trie_find_new_base` for the bytes `c`, `a`
stays at index 0 for ever: no budget is enough. -/
theorem find_base_search_stuck_at_zero (k : Nat) :
    find_base_search TRIE_MAX_INDEX_DEFAULT 4 [99, 97] k trie_acc_ac_extended 0 =
      .error .fuel := by
  induction k with
  | zero => rfl
  | succ k ih =>
    have step : find_base_search TRIE_MAX_INDEX_DEFAULT 4 [99, 97] (k + 1)
          trie_acc_ac_extended 0 =
        find_base_search TRIE_MAX_INDEX_DEFAULT 4 [99, 97] k trie_acc_ac_extended 0 := rfl
    rw [step, ih]

/-- On `trie_acc_ac` the search loop started at the free cell 8 goes to cell 1, then to cell 0,
and stays there. -/
theorem find_base_search_stuck (k : Nat) :
    find_base_search TRIE_MAX_INDEX_DEFAULT 4 [99, 97] k trie_acc_ac 8 = .error .fuel := by
  rcases k with _ | _ | k
  · rfl
  · rfl
  · have step : find_base_search TRIE_MAX_INDEX_DEFAULT 4 [99, 97] (k + 2) trie_acc_ac 8 =
        find_base_search TRIE_MAX_INDEX_DEFAULT 4 [99, 97] k trie_acc_ac_extended 0 := rfl
    rw [step, find_base_search_stuck_at_zero]

/-- On `trie_acc_ac`, `trie_find_new_base` for the bytes `c`, `a` does not return. -/
theorem find_new_base_stuck (fuel : Nat) :
    trie_find_new_base fuel TRIE_MAX_INDEX_DEFAULT trie_acc_ac [99, 97] = .error .fuel := by
  rcases fuel with _ | _ | _ | k
  · rfl
  · rfl
  · rfl
  · have step : trie_find_new_base (k + 3) TRIE_MAX_INDEX_DEFAULT trie_acc_ac [99, 97] =
        (do
          let r2 ← find_base_search TRIE_MAX_INDEX_DEFAULT 4 [99, 97] (k + 3) trie_acc_ac 8
          match r2 with
          | (none, self2) => pure (TRIE_INDEX_ERROR, self2)
          | (some index2, self2) =>
            pure (to_uint32 ((index2 : Int) - ((4 : Nat) : Int)), self2)) := rfl
    rw [step, find_base_search_stuck]; rfl

/-- On `trie_acc_ac`, `trie_add_transition(5, 'a')` does not return. -/
theorem add_transition_stuck (fuel : Nat) :
    trie_add_transition fuel TRIE_MAX_INDEX_DEFAULT trie_acc_ac 5 97 = .error .fuel := by
  have step : trie_add_transition fuel TRIE_MAX_INDEX_DEFAULT trie_acc_ac 5 97 =
      (do
        let r ← trie_find_new_base fuel TRIE_MAX_INDEX_DEFAULT trie_acc_ac [99, 97]
        let self3 ← trie_relocate_base fuel TRIE_MAX_INDEX_DEFAULT r.2 5 (to_int32 (r.1 : Int))
        let next_id1 := (r.1 + 2) % 4294967296
        let self4 ← trie_init_node self3 next_id1
        let self5 ← trie_set_check self4 next_id1 (to_int32 ((5 : Nat) : Int))
        pure (next_id1, self5)) := rfl
  rw [step, find_new_base_stuck]; rfl

/-- C1 (the code at the failing input): over the alphabet {NUL, a, b, c}, `trie_add("acc", 1)`
and `trie_add("ac", 2)` return the trie `trie_acc_ac`; the next call `trie_add("aa", 3)` does
not return: whatever the iteration budget, the search loop of `trie_find_new_base` is still
running when it is used up, so `trie_get("aa", true)` is never reached. -/
theorem trie_add_aa_never_returns :
    trie_add_all 16 TRIE_MAX_INDEX_DEFAULT (trie_new [0, 97, 98, 99] (fun _ => 0))
        [(c_str [97, 99, 99], 1), (c_str [97, 99], 2)] = .ok trie_acc_ac ∧
      ∀ fuel : Nat,
        trie_add fuel TRIE_MAX_INDEX_DEFAULT trie_acc_ac (c_str [97, 97]) 3 = .error .fuel := by
  refine ⟨rfl, fun fuel => ?_⟩
  have step : trie_add fuel TRIE_MAX_INDEX_DEFAULT trie_acc_ac (c_str [97, 97]) 3 =
      (match (do
          let r ← trie_add_transition fuel TRIE_MAX_INDEX_DEFAULT trie_acc_ac 5 97
          let index := to_int32 (r.1 : Int)
          let self2 ← trie_set_base r.2 (to_uint32 index)
            (to_int32 (-1 * (r.2.data.length : Int)))
          let self3 : trie_t :=
            { self2 with data := self2.data ++ [⟨self2.tail.length % 4294967296, 3⟩] }
          let s ← c_string [0]
          pure (index, trie_add_tail self3 s) : Except Fault (Int × trie_t)) with
        | .ok r => .ok r.2
        | .error e => .error e) := rfl
  rw [step, add_transition_stuck]; rfl

/-! ### C2: `whole_word` lookups of proper prefixes -/

/-- C2 (the code at the failing input): over the alphabet {a, b, c}, after `trie_add("cab", 7)`
on the new trie, `trie_get("cab", true)` returns node 6 and `trie_get("cax", true)` returns 0,
but `trie_get("ca", true)` returns node 6 as well, for a key that was never added. -/
theorem trie_get_whole_word_accepts_proper_prefix :
    ((trie_add 16 TRIE_MAX_INDEX_DEFAULT (trie_new [97, 98, 99] (fun _ => 0))
        (c_str [99, 97, 98]) 7).bind fun t =>
      (trie_get t (c_str [99, 97, 98]) true).bind fun h1 =>
      (trie_get t (c_str [99, 97, 120]) true).bind fun h2 =>
      (trie_get t (c_str [99, 97]) true).bind fun h3 => .ok (h1, h2, h3)) = .ok (6, 0, 6) := by
  rfl

/-! ### C3 and C4: keys and payloads after later adds -/

/-- C3 (the code at the failing inputs): over the alphabet {a, b, c}, for each of the values
`g = 0, 1, 2, 3, 7, 100` of the unwritten entries of `alpha_map`, a stored key is lost by a later
add.  For `g ≥ 3`, after `trie_add("a")` and `trie_add("aa")` the query `trie_get("a", true)`
returns 0: the relocation of node "a" moves only the transitions on alphabet bytes and leaves
the terminator child behind.  For `g < 3` the terminator has the char index of an alphabet byte,
and after `trie_add("aaa")`, `trie_add("aba")` or `trie_add("aca")` the add of "a" takes the cell
of the second byte, so that `trie_get` of the longer key returns 0. -/
theorem trie_add_loses_stored_key :
    ([0, 1, 2, 3, 7, 100] : List (Fin 256)).all (fun g =>
      key_lost (trie_new [97, 98, 99] (mem_const g)) [97] [97, 97] ||
      key_lost (trie_new [97, 98, 99] (mem_const g)) [97, 97, 97] [97] ||
      key_lost (trie_new [97, 98, 99] (mem_const g)) [97, 98, 97] [97] ||
      key_lost (trie_new [97, 98, 99] (mem_const g)) [97, 99, 97] [97]) = true := by
  decide!

/-- C4 (the code at the failing inputs): over the alphabet {a, b, c}, for each of the values
`g = 0, 1, 2, 3, 7, 100` of the unwritten entries of `alpha_map`, after `trie_add("a", 1)` the
key "a" holds the payload 1 and one of the further adds `trie_add("aa", 2)`,
`trie_add("ab", 2)`, `trie_add("ac", 2)` ends that: for `g < 3` the new key takes the terminator
cell of "a" and its `base` then points to the record of payload 2; for `g ≥ 3` the key "a" is
lost and `trie_get("a", true)` is 0. -/
theorem trie_add_loses_first_payload :
    ([0, 1, 2, 3, 7, 100] : List (Fin 256)).all (fun g =>
      payload_lost (trie_new [97, 98, 99] (mem_const g)) [97] [97, 97] ||
      payload_lost (trie_new [97, 98, 99] (mem_const g)) [97] [97, 98] ||
      payload_lost (trie_new [97, 98, 99] (mem_const g)) [97] [97, 99]) = true := by
  decide!

/-! ### C5: adding a stored key again -/

/-- C5 (the code at the failing input): over the alphabet {NUL, a, b}, after
`trie_add("a", 1)` and `trie_add("ab", 2)` the key "a" ends on the terminator transition.
`trie_add("a", 9)` then hands `ptr + 1`, the address behind the terminator of the key, to
`trie_tail_merge`: with the key in a buffer holding `a NUL b NUL` the call appends the data
record `(3, 9)` and a tail byte and turns the terminal of "a" into an inner node, so that "a" no
longer holds its payload; with the key in a buffer of exactly two bytes the read is outside the
buffer. -/
theorem trie_add_stored_key_reads_behind_terminator :
    ((trie_add_all 16 TRIE_MAX_INDEX_DEFAULT (trie_new [0, 97, 98] (fun _ => 0))
        [(c_str [97], 1), (c_str [97, 98], 2)]).bind fun t =>
      (trie_add 16 TRIE_MAX_INDEX_DEFAULT t [97, 0, 98, 0] 9).bind fun t1 =>
        .ok (t.data, t.tail, holds_payload t [97] 1, t1.data, t1.tail, holds_payload t1 [97] 1)) =
      .ok ([⟨0, 0⟩, ⟨1, 1⟩, ⟨2, 2⟩], [0, 0, 0], true,
        [⟨0, 0⟩, ⟨1, 1⟩, ⟨2, 2⟩, ⟨3, 9⟩], [0, 0, 0, 0], false) ∧
    ((trie_add_all 16 TRIE_MAX_INDEX_DEFAULT (trie_new [0, 97, 98] (fun _ => 0))
        [(c_str [97], 1), (c_str [97, 98], 2)]).bind fun t =>
      trie_add 16 TRIE_MAX_INDEX_DEFAULT t (c_str [97]) 9) = .error .ub := by
  constructor <;> rfl

/-! ### C6: reading back a written trie -/

/-- C6 (the code at the failing input): over the alphabet {a, b, c}, with 7 in the entries of
`alpha_map` that `trie_new` does not write, after `trie_add("ab", 1)` and `trie_add("abc", 2)`
the query `trie_get("ab", true)` returns node 11.  `trie_write` and `trie_read` return; the
trie read back from the written stream into a zero-filled struct has the same nodes, data
records and tail bytes, but there the same query returns 0: the char index of the terminator
is `alpha_map[0] + 1`, which `trie_new_empty` leaves as the allocation has it in both tries. -/
theorem trie_read_back_changes_lookup :
    ((trie_add_all 16 TRIE_MAX_INDEX_DEFAULT (trie_new [97, 98, 99] (fun _ => 7))
        [(c_str [97, 98], 1), (c_str [97, 98, 99], 2)]).bind fun t =>
      (trie_read ⟨trie_written t, 0⟩ (fun _ => 0)).bind fun r =>
        match r.1 with
        | none => .error .ub
        | some t1 =>
          (trie_get t (c_str [97, 98]) true).bind fun h =>
          (trie_get t1 (c_str [97, 98]) true).bind fun h1 =>
            .ok (decide (t1.nodes = t.nodes), decide (t1.data = t.data),
              decide (t1.tail = t.tail), h, h1)) = .ok (true, true, true, 11, 0) := by
  rfl

theorem file_write_chars_end (b buf : List UInt8) :
    file_write_chars ⟨b, b.length⟩ buf = (true, ⟨b ++ buf, (b ++ buf).length⟩) := by
  simp [file_write_chars, List.drop_eq_nil_of_le]

theorem file_write_int32_end (b : List UInt8) (v : Int) :
    file_write_int32 ⟨b, b.length⟩ v =
      (true, ⟨b ++ int32_bytes v, (b ++ int32_bytes v).length⟩) := by
  unfold file_write_int32
  exact file_write_chars_end b _

theorem write_nodes_end (ns : List trie_node_t) :
    ∀ b : List UInt8, write_nodes ns ⟨b, b.length⟩ =
      (true, ⟨b ++ nodes_stream ns, (b ++ nodes_stream ns).length⟩) := by
  induction ns with
  | nil => intro b; simp [write_nodes, nodes_stream]
  | cons n ns ih =>
    intro b
    unfold write_nodes
    rw [file_write_int32_end]
    dsimp only
    rw [file_write_int32_end]
    dsimp only
    rw [ih]
    simp [nodes_stream, List.append_assoc]

theorem write_data_nodes_end (ds : List trie_data_node_t) :
    ∀ b : List UInt8, write_data_nodes ds ⟨b, b.length⟩ =
      (true, ⟨b ++ data_stream ds, (b ++ data_stream ds).length⟩) := by
  induction ds with
  | nil => intro b; simp [write_data_nodes, data_stream]
  | cons d ds ih =>
    intro b
    unfold write_data_nodes
    rw [file_write_int32_end]
    dsimp only
    rw [file_write_int32_end]
    dsimp only
    rw [ih]
    simp [data_stream, List.append_assoc]

theorem trie_write_empty (self : trie_t) :
    trie_write self ⟨[], 0⟩ = (true, ⟨trie_stream self, (trie_stream self).length⟩) := by
  unfold trie_write
  have h0 : (⟨[], 0⟩ : file_t) = ⟨[], ([] : List UInt8).length⟩ := rfl
  rw [h0, file_write_int32_end]
  dsimp only
  rw [file_write_int32_end]
  dsimp only
  rw [file_write_chars_end]
  dsimp only
  rw [file_write_int32_end]
  dsimp only
  rw [write_nodes_end]
  dsimp only
  rw [file_write_int32_end]
  dsimp only
  rw [write_data_nodes_end]
  dsimp only
  rw [file_write_int32_end]
  dsimp only
  rw [file_write_chars_end]
  simp [trie_stream, List.append_assoc]

theorem to_int32_to_uint32 (v : Int) : to_int32 ((to_uint32 v : Nat) : Int) = to_int32 v := by
  unfold to_int32 to_uint32
  omega

theorem to_int32_of_range (v : Int) (h1 : -2147483648 ≤ v) (h2 : v < 2147483648) :
    to_int32 v = v := by
  unfold to_int32
  omega

theorem to_uint32_to_int32 (n : Nat) (h : n < 4294967296) :
    to_uint32 (to_int32 (n : Int)) = n := by
  unfold to_int32 to_uint32
  omega

theorem to_int32_idem (v : Int) : to_int32 (to_int32 v) = to_int32 v := by
  unfold to_int32
  omega

theorem int32_bytes_length (v : Int) : (int32_bytes v).length = 4 := rfl

theorem file_read_chars_at (bytes pre buf post : List UInt8) (pos n : Nat)
    (hb : bytes = pre ++ (buf ++ post)) (hpos : pos = pre.length) (hn : n = buf.length) :
    file_read_chars ⟨bytes, pos⟩ n = (some buf, ⟨bytes, pos + n⟩) := by
  subst hb hpos hn
  unfold file_read_chars
  simp

theorem file_read_int32_at (bytes pre post : List UInt8) (v : Int) (pos : Nat)
    (hb : bytes = pre ++ (int32_bytes v ++ post)) (hpos : pos = pre.length) :
    file_read_int32 ⟨bytes, pos⟩ = (some (to_int32 v), ⟨bytes, pos + 4⟩) := by
  unfold file_read_int32
  rw [file_read_chars_at bytes pre (int32_bytes v) post pos 4 hb hpos rfl]
  have hu : to_uint32 v < 4294967296 := by unfold to_uint32; omega
  have hsum : (UInt8.ofNat (to_uint32 v / 16777216)).toNat * 16777216 +
      (UInt8.ofNat (to_uint32 v / 65536)).toNat * 65536 +
      (UInt8.ofNat (to_uint32 v / 256)).toNat * 256 + (UInt8.ofNat (to_uint32 v)).toNat =
      to_uint32 v := by
    have e1 : (UInt8.ofNat (to_uint32 v / 16777216)).toNat = to_uint32 v / 16777216 % 256 := rfl
    have e2 : (UInt8.ofNat (to_uint32 v / 65536)).toNat = to_uint32 v / 65536 % 256 := rfl
    have e3 : (UInt8.ofNat (to_uint32 v / 256)).toNat = to_uint32 v / 256 % 256 := rfl
    have e4 : (UInt8.ofNat (to_uint32 v)).toNat = to_uint32 v % 256 := rfl
    rw [e1, e2, e3, e4]
    omega
  show (some (to_int32 ((_ : Nat) : Int)), _) = _
  rw [hsum, to_int32_to_uint32]

theorem read_nodes_at (bytes post : List UInt8) (ns : List trie_node_t) :
    ∀ (pre : List UInt8) (pos : Nat), bytes = pre ++ (nodes_stream ns ++ post) →
      pos = pre.length →
      (∀ node ∈ ns, (-2147483648 ≤ node.base ∧ node.base < 2147483648) ∧
        (-2147483648 ≤ node.check ∧ node.check < 2147483648)) →
      read_nodes ns.length ⟨bytes, pos⟩ = (some ns, ⟨bytes, pos + 8 * ns.length⟩) := by
  induction ns with
  | nil => intro pre pos _ _ _; simp [read_nodes]
  | cons n ns ih =>
    intro pre pos hb hpos hr
    have hn := hr n (List.mem_cons_self _ _)
    simp only [List.length_cons, read_nodes]
    rw [file_read_int32_at bytes pre (int32_bytes n.check ++ (nodes_stream ns ++ post)) n.base
      pos (by rw [hb]; simp [nodes_stream, List.append_assoc]) hpos]
    dsimp only
    rw [file_read_int32_at bytes (pre ++ int32_bytes n.base) (nodes_stream ns ++ post) n.check
      (pos + 4) (by rw [hb]; simp [nodes_stream, List.append_assoc])
      (by rw [hpos]; simp [int32_bytes_length])]
    dsimp only
    rw [ih (pre ++ int32_bytes n.base ++ int32_bytes n.check) (pos + 4 + 4)
      (by rw [hb]; simp [nodes_stream, List.append_assoc])
      (by rw [hpos]; simp [int32_bytes_length])
      (fun node hm => hr node (List.mem_cons_of_mem _ hm))]
    dsimp only
    rw [to_int32_of_range _ hn.1.1 hn.1.2, to_int32_of_range _ hn.2.1 hn.2.2]
    simp only [Prod.mk.injEq, true_and]
    congr 1
    omega

theorem read_data_nodes_at (bytes post : List UInt8) (ds : List trie_data_node_t) :
    ∀ (pre : List UInt8) (pos : Nat), bytes = pre ++ (data_stream ds ++ post) →
      pos = pre.length →
      (∀ d ∈ ds, d.tail < 4294967296 ∧ d.data < 4294967296) →
      read_data_nodes ds.length ⟨bytes, pos⟩ = (some ds, ⟨bytes, pos + 8 * ds.length⟩) := by
  induction ds with
  | nil => intro pre pos _ _ _; simp [read_data_nodes]
  | cons d ds ih =>
    intro pre pos hb hpos hr
    have hd := hr d (List.mem_cons_self _ _)
    simp only [List.length_cons, read_data_nodes]
    rw [file_read_int32_at bytes pre
      (int32_bytes (to_int32 (d.data : Int)) ++ (data_stream ds ++ post))
      (to_int32 (d.tail : Int)) pos (by rw [hb]; simp [data_stream, List.append_assoc]) hpos]
    dsimp only
    rw [file_read_int32_at bytes (pre ++ int32_bytes (to_int32 (d.tail : Int)))
      (data_stream ds ++ post) (to_int32 (d.data : Int)) (pos + 4)
      (by rw [hb]; simp [data_stream, List.append_assoc])
      (by rw [hpos]; simp [int32_bytes_length])]
    dsimp only
    rw [ih (pre ++ int32_bytes (to_int32 (d.tail : Int)) ++ int32_bytes (to_int32 (d.data : Int)))
      (pos + 4 + 4)
      (by rw [hb]; simp [data_stream, List.append_assoc])
      (by rw [hpos]; simp [int32_bytes_length])
      (fun x hm => hr x (List.mem_cons_of_mem _ hm))]
    dsimp only
    rw [to_int32_idem, to_int32_idem, to_uint32_to_int32 _ hd.1, to_uint32_to_int32 _ hd.2]
    simp only [Prod.mk.injEq, true_and]
    congr 1
    omega

theorem nodes_stream_length (ns : List trie_node_t) : (nodes_stream ns).length = 8 * ns.length := by
  induction ns with
  | nil => rfl
  | cons n ns ih => simp [nodes_stream, int32_bytes_length, ih]; omega

theorem data_stream_length (ds : List trie_data_node_t) :
    (data_stream ds).length = 8 * ds.length := by
  induction ds with
  | nil => rfl
  | cons d ds ih => simp [data_stream, int32_bytes_length, ih]; omega

/-- `trie_read` on the stream layout of a serialisable trie returns a trie with the alphabet,
nodes, data records and tail bytes of the written one. -/
theorem trie_read_stream (self : trie_t) (mem : UInt8 → UInt8) (hs : serialisable self) :
    trie_read ⟨trie_stream self, 0⟩ mem =
      .ok (some { trie_new_empty self.alphabet mem with
                    nodes := (trie_new_empty self.alphabet mem).nodes ++ self.nodes
                    data := (trie_new_empty self.alphabet mem).data ++ self.data
                    tail := self.tail },
        ⟨trie_stream self, (trie_stream self).length⟩) := by
  obtain ⟨ha, hal, hn, hd, ht, hnr, hdr⟩ := hs
  have htake : self.alphabet.take self.alphabet_size = self.alphabet := by
    rw [← hal, List.take_length]
  have e_sig : to_uint32 (to_int32 (to_int32 (TRIE_SIGNATURE : Int))) = TRIE_SIGNATURE := by
    rw [to_int32_idem]; exact to_uint32_to_int32 _ (by unfold TRIE_SIGNATURE; omega)
  have e_as : to_uint32 (to_int32 (to_int32 (self.alphabet_size : Int))) =
      self.alphabet_size := by
    rw [to_int32_idem]; exact to_uint32_to_int32 _ (by omega)
  have e_n : to_uint32 (to_int32 (to_int32 (self.nodes.length : Int))) = self.nodes.length := by
    rw [to_int32_idem]; exact to_uint32_to_int32 _ (by omega)
  have e_d : to_uint32 (to_int32 (to_int32 (self.data.length : Int))) = self.data.length := by
    rw [to_int32_idem]; exact to_uint32_to_int32 _ (by omega)
  have e_t : to_uint32 (to_int32 (to_int32 (self.tail.length : Int))) = self.tail.length := by
    rw [to_int32_idem]; exact to_uint32_to_int32 _ ht
  have q1 := file_read_int32_at (trie_stream self)
    []
    (int32_bytes (to_int32 (self.alphabet_size : Int)) ++
      (self.alphabet ++
      (int32_bytes (to_int32 (self.nodes.length : Int)) ++
      (nodes_stream self.nodes ++
      (int32_bytes (to_int32 (self.data.length : Int)) ++
      (data_stream self.data ++
      (int32_bytes (to_int32 (self.tail.length : Int)) ++
      (self.tail))))))))
    (to_int32 (TRIE_SIGNATURE : Int))
    (0)
    (by unfold trie_stream; rw [htake, List.nil_append])
    (by simp [int32_bytes_length, hal, nodes_stream_length, data_stream_length]; try omega)
  have q2 := file_read_int32_at (trie_stream self)
    (int32_bytes (to_int32 (TRIE_SIGNATURE : Int)))
    (self.alphabet ++
      (int32_bytes (to_int32 (self.nodes.length : Int)) ++
      (nodes_stream self.nodes ++
      (int32_bytes (to_int32 (self.data.length : Int)) ++
      (data_stream self.data ++
      (int32_bytes (to_int32 (self.tail.length : Int)) ++
      (self.tail)))))))
    (to_int32 (self.alphabet_size : Int))
    (0 + 4)
    (by unfold trie_stream; rw [htake]; try simp only [List.append_assoc, List.append_nil, List.nil_append])
    (by simp [int32_bytes_length, hal, nodes_stream_length, data_stream_length]; try omega)
  have r3 := file_read_chars_at (trie_stream self)
    (int32_bytes (to_int32 (TRIE_SIGNATURE : Int)) ++
      int32_bytes (to_int32 (self.alphabet_size : Int)))
    self.alphabet
    (int32_bytes (to_int32 (self.nodes.length : Int)) ++
      (nodes_stream self.nodes ++
      (int32_bytes (to_int32 (self.data.length : Int)) ++
      (data_stream self.data ++
      (int32_bytes (to_int32 (self.tail.length : Int)) ++
      (self.tail))))))
    (0 + 4 + 4) self.alphabet_size
    (by unfold trie_stream; rw [htake]; try simp only [List.append_assoc, List.append_nil, List.nil_append])
    (by simp [int32_bytes_length, hal, nodes_stream_length, data_stream_length]; try omega) hal.symm
  have q4 := file_read_int32_at (trie_stream self)
    (int32_bytes (to_int32 (TRIE_SIGNATURE : Int)) ++
      int32_bytes (to_int32 (self.alphabet_size : Int)) ++
      self.alphabet)
    (nodes_stream self.nodes ++
      (int32_bytes (to_int32 (self.data.length : Int)) ++
      (data_stream self.data ++
      (int32_bytes (to_int32 (self.tail.length : Int)) ++
      (self.tail)))))
    (to_int32 (self.nodes.length : Int))
    (0 + 4 + 4 + self.alphabet_size)
    (by unfold trie_stream; rw [htake]; try simp only [List.append_assoc, List.append_nil, List.nil_append])
    (by simp [int32_bytes_length, hal, nodes_stream_length, data_stream_length]; try omega)
  have r5 := read_nodes_at (trie_stream self)
    (int32_bytes (to_int32 (self.data.length : Int)) ++
      (data_stream self.data ++
      (int32_bytes (to_int32 (self.tail.length : Int)) ++
      (self.tail))))
    self.nodes
    (int32_bytes (to_int32 (TRIE_SIGNATURE : Int)) ++
      int32_bytes (to_int32 (self.alphabet_size : Int)) ++
      self.alphabet ++
      int32_bytes (to_int32 (self.nodes.length : Int)))
    (0 + 4 + 4 + self.alphabet_size + 4)
    (by unfold trie_stream; rw [htake]; try simp only [List.append_assoc, List.append_nil, List.nil_append])
    (by simp [int32_bytes_length, hal, nodes_stream_length, data_stream_length]; try omega) hnr
  have q6 := file_read_int32_at (trie_stream self)
    (int32_bytes (to_int32 (TRIE_SIGNATURE : Int)) ++
      int32_bytes (to_int32 (self.alphabet_size : Int)) ++
      self.alphabet ++
      int32_bytes (to_int32 (self.nodes.length : Int)) ++
      nodes_stream self.nodes)
    (data_stream self.data ++
      (int32_bytes (to_int32 (self.tail.length : Int)) ++
      (self.tail)))
    (to_int32 (self.data.length : Int))
    (0 + 4 + 4 + self.alphabet_size + 4 + 8 * self.nodes.length)
    (by unfold trie_stream; rw [htake]; try simp only [List.append_assoc, List.append_nil, List.nil_append])
    (by simp [int32_bytes_length, hal, nodes_stream_length, data_stream_length]; try omega)
  have r7 := read_data_nodes_at (trie_stream self)
    (int32_bytes (to_int32 (self.tail.length : Int)) ++
      (self.tail))
    self.data
    (int32_bytes (to_int32 (TRIE_SIGNATURE : Int)) ++
      int32_bytes (to_int32 (self.alphabet_size : Int)) ++
      self.alphabet ++
      int32_bytes (to_int32 (self.nodes.length : Int)) ++
      nodes_stream self.nodes ++
      int32_bytes (to_int32 (self.data.length : Int)))
    (0 + 4 + 4 + self.alphabet_size + 4 + 8 * self.nodes.length + 4)
    (by unfold trie_stream; rw [htake]; try simp only [List.append_assoc, List.append_nil, List.nil_append])
    (by simp [int32_bytes_length, hal, nodes_stream_length, data_stream_length]; try omega) hdr
  have q8 := file_read_int32_at (trie_stream self)
    (int32_bytes (to_int32 (TRIE_SIGNATURE : Int)) ++
      int32_bytes (to_int32 (self.alphabet_size : Int)) ++
      self.alphabet ++
      int32_bytes (to_int32 (self.nodes.length : Int)) ++
      nodes_stream self.nodes ++
      int32_bytes (to_int32 (self.data.length : Int)) ++
      data_stream self.data)
    (self.tail)
    (to_int32 (self.tail.length : Int))
    (0 + 4 + 4 + self.alphabet_size + 4 + 8 * self.nodes.length + 4 + 8 * self.data.length)
    (by unfold trie_stream; rw [htake]; try simp only [List.append_assoc, List.append_nil, List.nil_append])
    (by simp [int32_bytes_length, hal, nodes_stream_length, data_stream_length]; try omega)
  have r9 := file_read_chars_at (trie_stream self)
    (int32_bytes (to_int32 (TRIE_SIGNATURE : Int)) ++
      int32_bytes (to_int32 (self.alphabet_size : Int)) ++
      self.alphabet ++
      int32_bytes (to_int32 (self.nodes.length : Int)) ++
      nodes_stream self.nodes ++
      int32_bytes (to_int32 (self.data.length : Int)) ++
      data_stream self.data ++
      int32_bytes (to_int32 (self.tail.length : Int)))
    self.tail
    []
    (0 + 4 + 4 + self.alphabet_size + 4 + 8 * self.nodes.length + 4 + 8 * self.data.length + 4) self.tail.length
    (by unfold trie_stream; rw [htake]; try simp only [List.append_assoc, List.append_nil, List.nil_append])
    (by simp [int32_bytes_length, hal, nodes_stream_length, data_stream_length]; try omega) rfl
  have hlen : (trie_stream self).length =
      0 + 4 + 4 + self.alphabet_size + 4 + 8 * self.nodes.length + 4 + 8 * self.data.length + 4 +
        self.tail.length := by
    unfold trie_stream
    rw [htake]
    simp [int32_bytes_length, hal, nodes_stream_length, data_stream_length]
    omega
  obtain ⟨v1, hv1, r1⟩ : ∃ v : Int, to_uint32 v = TRIE_SIGNATURE ∧
      file_read_int32 ⟨trie_stream self, (0)⟩ =
        (some v, ⟨trie_stream self, (0) + 4⟩) := ⟨_, e_sig, q1⟩
  obtain ⟨v2, hv2, r2⟩ : ∃ v : Int, to_uint32 v = self.alphabet_size ∧
      file_read_int32 ⟨trie_stream self, (0 + 4)⟩ =
        (some v, ⟨trie_stream self, (0 + 4) + 4⟩) := ⟨_, e_as, q2⟩
  obtain ⟨v4, hv4, r4⟩ : ∃ v : Int, to_uint32 v = self.nodes.length ∧
      file_read_int32 ⟨trie_stream self, (0 + 4 + 4 + self.alphabet_size)⟩ =
        (some v, ⟨trie_stream self, (0 + 4 + 4 + self.alphabet_size) + 4⟩) := ⟨_, e_n, q4⟩
  obtain ⟨v6, hv6, r6⟩ : ∃ v : Int, to_uint32 v = self.data.length ∧
      file_read_int32 ⟨trie_stream self, (0 + 4 + 4 + self.alphabet_size + 4 + 8 * self.nodes.length)⟩ =
        (some v, ⟨trie_stream self, (0 + 4 + 4 + self.alphabet_size + 4 + 8 * self.nodes.length) + 4⟩) := ⟨_, e_d, q6⟩
  obtain ⟨v8, hv8, r8⟩ : ∃ v : Int, to_uint32 v = self.tail.length ∧
      file_read_int32 ⟨trie_stream self, (0 + 4 + 4 + self.alphabet_size + 4 + 8 * self.nodes.length + 4 + 8 * self.data.length)⟩ =
        (some v, ⟨trie_stream self, (0 + 4 + 4 + self.alphabet_size + 4 + 8 * self.nodes.length + 4 + 8 * self.data.length) + 4⟩) := ⟨_, e_t, q8⟩
  unfold trie_read
  dsimp only
  rw [r1]
  dsimp only
  rw [if_neg (by rw [hv1]; exact fun h => h rfl), r2]
  dsimp only
  rw [if_neg (by rw [hv2]; unfold NUM_CHARS; omega), hv2, r3]
  dsimp only
  rw [r4]
  dsimp only
  rw [hv4, r5]
  dsimp only
  rw [r6]
  dsimp only
  rw [hv6, r7]
  dsimp only
  rw [r8]
  dsimp only
  rw [hv8, r9, hlen]

theorem trie_get_loop_congr (t t1 : trie_t) (hn : t1.nodes = t.nodes) (hd : t1.data = t.data)
    (ht : t1.tail = t.tail) (hnull : t1.null_node = t.null_node) (w : Bool) (k : Nat) :
    ∀ (ptr : List UInt8) (node : trie_node_t) (node_id : Nat) (nx : Option Nat),
      (∀ c ∈ ptr, t1.alpha_map c = t.alpha_map c) →
      trie_get_loop t1 w k ptr node node_id nx = trie_get_loop t w k ptr node node_id nx := by
  have hnode : ∀ i, trie_get_node t1 i = trie_get_node t i := by
    intro i; unfold trie_get_node; rw [hn, hnull]
  have htail : ∀ node next_id ptr c, trie_get_tail t1 node next_id ptr c w =
      trie_get_tail t node next_id ptr c w := by
    intro node next_id ptr c; unfold trie_get_tail data_at; rw [hd, ht]
  induction k with
  | zero => intro ptr node node_id nx _; cases nx <;> simp [trie_get_loop]
  | succ k ih =>
    intro ptr node node_id nx hmap
    unfold trie_get_loop
    cases ptr with
    | nil => simp [deref]
    | cons c cs =>
      have hidx : trie_get_transition_index t1 node c = trie_get_transition_index t node c := by
        unfold trie_get_transition_index trie_get_char_index
        rw [hmap c (List.mem_cons_self _ _)]
      simp only [deref, hidx, hnode, htail, List.tail_cons]
      rw [ih cs _ _ _ (fun x hx => hmap x (List.mem_cons_of_mem _ hx))]

/-- Two tries with the same nodes, data records, tail bytes and placeholder node answer a query
alike when their tables agree on the bytes of the query buffer. -/
theorem trie_get_congr (t t1 : trie_t) (hn : t1.nodes = t.nodes) (hd : t1.data = t.data)
    (ht : t1.tail = t.tail) (hnull : t1.null_node = t.null_node) (word : List UInt8)
    (w : Bool) (hmap : ∀ c ∈ word, t1.alpha_map c = t.alpha_map c) :
    trie_get t1 word w = trie_get t word w := by
  unfold trie_get trie_get_root node_at
  rw [hn]
  cases t.nodes.get? ROOT_ID with
  | none => rfl
  | some root =>
    dsimp only
    cases c_string word with
    | error e => rfl
    | ok s => exact trie_get_loop_congr t t1 hn hd ht hnull w _ _ _ _ _ hmap

/-- The structural part of the round trip: for a serialisable trie, `trie_write` succeeds and
`trie_read` applied to the stream it produced succeeds, consumes the whole stream and yields a
trie with the same `alphabet_size`, alphabet bytes, node sequence, data records and tail bytes.
Its table is rebuilt from the alphabet by `trie_new_empty`; the two tries give the same
`trie_get` result for every query on whose bytes (terminator included) the two tables agree. -/
theorem trie_read_trie_written (self : trie_t) (mem : UInt8 → UInt8) (hs : serialisable self) :
    (trie_write self ⟨[], 0⟩).1 = true ∧
      ∃ t1 : trie_t,
        trie_read ⟨trie_written self, 0⟩ mem =
          .ok (some t1, ⟨trie_written self, (trie_written self).length⟩) ∧
        t1.alphabet_size = self.alphabet_size ∧ t1.alphabet = self.alphabet ∧
        t1.nodes = self.nodes ∧ t1.data = self.data ∧ t1.tail = self.tail ∧
        t1.alpha_map = fill_alpha_map self.alphabet 0 mem ∧
        ∀ (word : List UInt8) (whole_word : Bool), self.null_node = NULL_NODE →
          (∀ c ∈ word, t1.alpha_map c = self.alpha_map c) →
          trie_get t1 word whole_word = trie_get self word whole_word := by
  have hw := trie_write_empty self
  have hwritten : trie_written self = trie_stream self := by
    unfold trie_written; rw [hw]
  refine ⟨by rw [hw],
    { trie_new_empty self.alphabet mem with
      nodes := (trie_new_empty self.alphabet mem).nodes ++ self.nodes
      data := (trie_new_empty self.alphabet mem).data ++ self.data
      tail := self.tail }, ?_, ?_, rfl, ?_, ?_, rfl, rfl, ?_⟩
  · rw [hwritten]; exact trie_read_stream self mem hs
  · exact hs.2.1
  · exact List.nil_append _
  · exact List.nil_append _
  · intro word whole_word hnull hmap
    exact trie_get_congr self
      { trie_new_empty self.alphabet mem with
        nodes := (trie_new_empty self.alphabet mem).nodes ++ self.nodes
        data := (trie_new_empty self.alphabet mem).data ++ self.data
        tail := self.tail }
      (List.nil_append _) (List.nil_append _) rfl hnull.symm word whole_word hmap

/-- The structural part of the round trip at a concrete input: the trie over {a, b, c} holding
"ab" and "abc" is serialisable, and it is read back from its stream into a zero-filled struct. -/
theorem trie_read_trie_written_witness :
    (trie_write
        (trie_or (trie_new [97, 98, 99] (fun _ => 7))
          (trie_add_all 16 TRIE_MAX_INDEX_DEFAULT (trie_new [97, 98, 99] (fun _ => 7))
            [(c_str [97, 98], 1), (c_str [97, 98, 99], 2)])) ⟨[], 0⟩).1 = true :=
  (trie_read_trie_written
    (trie_or (trie_new [97, 98, 99] (fun _ => 7))
      (trie_add_all 16 TRIE_MAX_INDEX_DEFAULT (trie_new [97, 98, 99] (fun _ => 7))
        [(c_str [97, 98], 1), (c_str [97, 98, 99], 2)]))
    (fun _ => 0)
    ⟨by decide, by decide, by decide, by decide, by decide, by decide, by decide⟩).1

/-! ### C7: node indices returned by `trie_get` -/

/-- C8 (the code at the failing input): over the alphabet {a, b, c}, with a zero-filled
`alpha_map`, `trie_get("aaa", false)` returns node 4 after `trie_add("aaa", 1)` and returns 0
after the further `trie_add("a", 2)`: the terminator transition of "a" has the char index of
the byte 'a' and takes the cell of the second 'a' of "aaa". -/
theorem trie_get_prefix_lost_to_terminator :
    ((trie_add_all 16 TRIE_MAX_INDEX_DEFAULT (trie_new [97, 98, 99] (fun _ => 0))
        [(c_str [97, 97, 97], 1)]).bind fun t => trie_get t (c_str [97, 97, 97]) false) = .ok 4 ∧
    ((trie_add_all 16 TRIE_MAX_INDEX_DEFAULT (trie_new [97, 98, 99] (fun _ => 0))
        [(c_str [97, 97, 97], 1), (c_str [97], 2)]).bind fun t =>
      trie_get t (c_str [97, 97, 97]) false) = .ok 0 := by
  constructor <;> rfl

/-- The C string read from a buffer that holds non-zero bytes `k` and then a NUL is `k`. -/
theorem c_string_bytes_nul (k rest : List UInt8) (hk : ∀ c ∈ k, c ≠ 0) :
    c_string (k ++ 0 :: rest) = .ok k := by
  induction k with
  | nil => simp [c_string]
  | cons c cs ih =>
    have hc : c ≠ 0 := hk c (List.mem_cons_self _ _)
    rw [List.cons_append]
    unfold c_string
    rw [if_neg hc, ih (fun x hx => hk x (List.mem_cons_of_mem _ hx))]

/-- The loop of `trie_get` on a prefix: when the whole-word walk over `kk` from a node ends at a
non-zero index, the walk without `whole_word` over a non-empty prefix of `kk` from the same node
ends at a non-zero index as well. -/
theorem trie_get_loop_of_whole_word (t : trie_t) (hnull : t.null_node = NULL_NODE) (h : Nat)
    (hh : h ≠ 0) (kk : List UInt8) :
    ∀ (pp : List UInt8) (node : trie_node_t) (node_id : Nat) (nx nx1 : Option Nat),
      (∀ c ∈ kk, c ≠ 0) → pp ≠ [] → pp <+: kk → 2 ≤ node_id →
      trie_get_loop t true (kk.length + 1) (kk ++ [0]) node node_id nx = .ok h →
      ∃ h1, trie_get_loop t false pp.length (pp ++ [0]) node node_id nx1 = .ok h1 ∧ h1 ≠ 0 := by
  induction kk with
  | nil =>
    intro pp node node_id nx nx1 _ hpp hpre
    exact absurd (List.prefix_nil.mp hpre) hpp
  | cons c kk ih =>
    intro pp node node_id nx nx1 hk hpp hpre h2 hget
    cases pp with
    | nil => exact absurd rfl hpp
    | cons c1 pp =>
      obtain ⟨hc1, hpre1⟩ := List.cons_prefix_cons.mp hpre
      subst hc1
      have hc : c1 ≠ 0 := hk c1 (List.mem_cons_self _ _)
      have hkk : ∀ x ∈ kk, x ≠ 0 := fun x hx => hk x (List.mem_cons_of_mem _ hx)
      have hppz : ∀ x ∈ pp, x ≠ 0 := fun x hx => hkk x (hpre1.subset hx)
      simp only [List.length_cons, List.cons_append] at hget ⊢
      unfold trie_get_loop at hget
      simp only [deref, List.tail_cons] at hget
      by_cases hchk : to_uint32 (trie_get_node t (trie_get_transition_index t node c1)).check =
          node_id
      · rw [if_neg (by simpa using hchk)] at hget
        have h2n : 2 ≤ trie_get_transition_index t node c1 := by
          by_contra hlt
          have hnode : trie_get_node t (trie_get_transition_index t node c1) = t.null_node := by
            unfold trie_get_node
            rw [if_pos (Or.inr (by unfold ROOT_ID; omega))]
          rw [hnode, hnull] at hchk
          simp [NULL_NODE, to_uint32] at hchk
          omega
        by_cases hb : (trie_get_node t (trie_get_transition_index t node c1)).base < 0
        · rw [if_pos hb] at hget
          unfold trie_get_tail at hget
          cases hd : data_at t
              (to_int32 (-1 * (trie_get_node t (trie_get_transition_index t node c1)).base)) with
          | error e => rw [hd] at hget; cases hget
          | ok d =>
            rw [hd] at hget
            dsimp only at hget
            cases hs : c_string (t.tail.drop d.tail) with
            | error e => rw [hs] at hget; cases hget
            | ok s =>
              rw [hs] at hget
              dsimp only at hget
              rw [if_pos hc, List.tail_cons, c_string_bytes_nul kk [] hkk] at hget
              dsimp only at hget
              have hks : kk <+: s := by
                by_contra hns
                have hno : ¬ (s.take kk.length = kk) := fun e =>
                  hns (List.prefix_iff_eq_take.mpr e.symm)
                split_ifs at hget with hlen hm hm
                · simp only [strncmp_eq, decide_eq_true_eq] at hm
                  rw [← hlen.2, List.take_length] at hm
                  exact hno hm
                · exact hh (Except.ok.inj hget).symm
                · simp only [strncmp_eq, decide_eq_true_eq, List.take_length] at hm
                  exact hno hm
                · exact hh (Except.ok.inj hget).symm
              have hps : s.take pp.length = pp :=
                (List.prefix_iff_eq_take.mp (hpre1.trans hks)).symm
              refine ⟨trie_get_transition_index t node c1, ?_, by omega⟩
              unfold trie_get_loop
              simp only [deref, List.tail_cons]
              rw [if_neg (by simpa using hchk), if_pos hb]
              unfold trie_get_tail
              rw [hd]
              dsimp only
              rw [hs]
              dsimp only
              rw [if_pos hc, List.tail_cons, c_string_bytes_nul pp [] hppz]
              simp [strncmp_eq, hps]
        · rw [if_neg hb] at hget
          cases pp with
          | nil =>
            refine ⟨trie_get_transition_index t node c1, ?_, by omega⟩
            unfold trie_get_loop
            simp only [deref, List.tail_cons, List.length_nil, List.nil_append]
            rw [if_neg (by simpa using hchk), if_neg hb]
            simp [trie_get_loop]
          | cons c2 pp2 =>
            obtain ⟨h1, hget1, hne1⟩ :=
              ih (c2 :: pp2) _ _ _ (some (trie_get_transition_index t node c1)) hkk
                (List.cons_ne_nil _ _) hpre1 h2n hget
            refine ⟨h1, ?_, hne1⟩
            unfold trie_get_loop
            simp only [deref, List.tail_cons]
            rw [if_neg (by simpa using hchk), if_neg hb]
            exact hget1
      · rw [if_pos hchk] at hget
        exact absurd (Except.ok.inj hget).symm hh

/-- Prefix lookup of a retrievable key: in every trie whose placeholder node is
`NULL_NODE`, when `trie_get(k, true)` returns a non-zero index for a key `k`, then
`trie_get(p, false)` returns a non-zero index for every non-empty prefix `p` of `k`. -/
theorem trie_get_prefix_of_whole_word (t : trie_t) (hnull : t.null_node = NULL_NODE)
    (k p : List UInt8) (h : Nat) (hk : ∀ c ∈ k, c ≠ 0) (hp : p ≠ []) (hpre : p <+: k)
    (hget : trie_get t (c_str k) true = .ok h) (hh : h ≠ 0) :
    ∃ h1, trie_get t (c_str p) false = .ok h1 ∧ h1 ≠ 0 := by
  have hpz : ∀ c ∈ p, c ≠ 0 := fun c hc => hk c (hpre.subset hc)
  unfold trie_get c_str at hget
  unfold trie_get c_str
  cases hr : trie_get_root t with
  | error e => rw [hr] at hget; cases hget
  | ok root =>
    rw [hr] at hget
    dsimp only at hget ⊢
    rw [c_string_bytes_nul k [] hk] at hget
    rw [c_string_bytes_nul p [] hpz]
    dsimp only at hget ⊢
    simp only [if_true, Bool.false_eq_true, if_false] at hget ⊢
    exact trie_get_loop_of_whole_word t hnull h hh k p root ROOT_ID none none hk hp hpre
      (Nat.le_refl _) hget

/-- The example "ab" then "abc" over the alphabet {a, b, c} with a zero-filled `alpha_map`:
`trie_get("ab", false)` returns node 5, whose check is the node 4 reached on 'a' and whose base
5 is positive. -/
theorem trie_get_ab_of_abc :
    ((trie_add_all 16 TRIE_MAX_INDEX_DEFAULT (trie_new [97, 98, 99] (fun _ => 0))
        [(c_str [97, 98], 1), (c_str [97, 98, 99], 2)]).bind fun t =>
      (trie_get t (c_str [97, 98]) false).bind fun h => .ok (h, trie_get_node t h)) =
      .ok (5, ⟨5, 4⟩) := by
  rfl

/-! ### C9: the tail comparison without `whole_word` -/

/-- C9 (counterexample): over the alphabet {a, b, c}, after `trie_add("cab", 7)` node 6 is the
terminal reached on 'c' and its stored tail is "ab".  `trie_get("c", false)` returns 6 although
"ab" is not a prefix of the remaining query bytes "", and `trie_get("cabc", false)` returns 0
although "ab" is a prefix of the remaining query bytes "abc". -/
theorem trie_get_tail_compare_direction :
    ((trie_add 16 TRIE_MAX_INDEX_DEFAULT (trie_new [97, 98, 99] (fun _ => 0))
        (c_str [99, 97, 98]) 7).bind fun t =>
      (trie_get t (c_str [99]) false).bind fun h1 =>
      (trie_get t (c_str [99, 97, 98, 99]) false).bind fun h2 =>
        .ok (t.nodes.get? 6, t.data.get? 1, t.tail, h1, h2)) =
      .ok (some ⟨-1, 2⟩, some ⟨1, 7⟩, [0, 97, 98, 0], 6, 0) := by
  rfl

/-- C9 (amended): without `whole_word`, an iteration of the walk of `trie_get` that reads the
byte `c` and finds the child on `c` to be a terminal (its check is the current node, its base
is negative) ends the walk, and the value returned is the index of that terminal if the
remaining query bytes are a prefix of the tail stored for it, and 0 otherwise. -/
theorem trie_get_loop_at_terminal (self : trie_t) (k : Nat) (ptr : List UInt8) (c : UInt8)
    (node : trie_node_t) (node_id : Nat) (next_id : Option Nat)
    (data_node : trie_data_node_t) (stored query : List UInt8)
    (hptr : deref ptr = .ok c)
    (hcheck : to_uint32 (trie_get_node self (trie_get_transition_index self node c)).check =
      node_id)
    (hbase : (trie_get_node self (trie_get_transition_index self node c)).base < 0)
    (hdata : data_at self
      (to_int32 (-1 * (trie_get_node self (trie_get_transition_index self node c)).base)) =
        .ok data_node)
    (hstored : c_string (self.tail.drop data_node.tail) = .ok stored)
    (hquery : c_string (if c ≠ 0 then ptr.tail else ptr) = .ok query) :
    trie_get_loop self false (k + 1) ptr node node_id next_id =
      .ok (if query <+: stored then trie_get_transition_index self node c else 0) := by
  have hpre : (stored.take query.length = query) ↔ query <+: stored := by
    rw [List.prefix_iff_eq_take]
    exact eq_comm
  unfold trie_get_loop
  simp only [hptr, hcheck, hbase, trie_get_tail, hdata, hstored, hquery, strncmp_eq,
    List.take_length]
  by_cases h : query <+: stored
  · simp [h, hpre.mpr h]
  · have h1 : ¬ (stored.take query.length = query) := fun e => h (hpre.mp e)
    simp [h, h1]

/-- C9 (amended), at a concrete input: in the trie holding "cab" over {a, b, c}, the first
iteration of `trie_get("c", false)` finds the terminal 6 with stored tail "ab"; the remaining
query bytes "" are a prefix of it and the walk returns 6. -/
theorem trie_get_loop_at_terminal_witness :
    trie_get_loop
        (trie_or (trie_new [97, 98, 99] (fun _ => 0))
          (trie_add 16 TRIE_MAX_INDEX_DEFAULT (trie_new [97, 98, 99] (fun _ => 0))
            (c_str [99, 97, 98]) 7))
        false 1 (c_str [99]) ⟨3, 0⟩ 2 none =
      .ok (if ([] : List UInt8) <+: [97, 98] then 6 else 0) :=
  trie_get_loop_at_terminal
    (trie_or (trie_new [97, 98, 99] (fun _ => 0))
      (trie_add 16 TRIE_MAX_INDEX_DEFAULT (trie_new [97, 98, 99] (fun _ => 0))
        (c_str [99, 97, 98]) 7))
    0 (c_str [99]) 99 ⟨3, 0⟩ 2 none ⟨1, 7⟩ [97, 98] [] rfl rfl (by decide) rfl rfl rfl

/-! ### C10: query bytes outside the alphabet -/

/-- C10 (the code at the failing input): over the alphabet {a, b, c}, with a zero-filled
`alpha_map`, after `trie_add("abc", 1)` the queries "xbc" with and without `whole_word` return
node 4: the table entry of the byte 'x' was never written and holds 0, the entry of 'a'. -/
theorem trie_get_unknown_byte_matches :
    ((trie_add 16 TRIE_MAX_INDEX_DEFAULT (trie_new [97, 98, 99] (fun _ => 0))
        (c_str [97, 98, 99]) 1).bind fun t =>
      (trie_get t (c_str [120, 98, 99]) true).bind fun h1 =>
      (trie_get t (c_str [120, 98, 99]) false).bind fun h2 => .ok (h1, h2)) = .ok (4, 4) := by
  rfl

/-! ### C11: streams that do not start with the signature -/

/-- `file_read_int32` leaves the bytes of the stream as they are. -/
theorem file_read_int32_bytes (file : file_t) : (file_read_int32 file).2.bytes = file.bytes := by
  unfold file_read_int32 file_read_chars
  split_ifs <;> split <;> rename_i heq <;> (injection heq with h1 h2; subst h2; rfl)

/-- C11: when the first 32-bit word of the stream cannot be read, or is read and differs from
`TRIE_SIGNATURE`, `trie_read` returns no trie, and the stream after the call has the position
it had on entry (and the same bytes). -/
theorem trie_read_without_signature (file : file_t) (mem : UInt8 → UInt8)
    (h : ∀ s, (file_read_int32 file).1 = some s → to_uint32 s ≠ TRIE_SIGNATURE) :
    ∃ f, trie_read file mem = .ok (none, f) ∧ f.pos = file.pos ∧ f.bytes = file.bytes := by
  have hb := file_read_int32_bytes file
  unfold trie_read
  rcases hr : file_read_int32 file with ⟨_ | s, f1⟩
  · rw [hr] at hb
    exact ⟨_, rfl, rfl, hb⟩
  · rw [hr] at hb
    have hs : to_uint32 s ≠ TRIE_SIGNATURE := h s (by rw [hr])
    dsimp only
    rw [if_pos hs]
    exact ⟨_, rfl, rfl, hb⟩

/-- C11 at two streams: one that ends after two bytes, and one whose first word is 1. -/
theorem trie_read_without_signature_witness :
    (∃ f, trie_read ⟨[171, 171], 0⟩ (fun _ => 0) = .ok (none, f) ∧ f.pos = 0 ∧
        f.bytes = [171, 171]) ∧
      (∃ f, trie_read ⟨[9, 0, 0, 0, 1, 0, 0, 0, 0], 1⟩ (fun _ => 0) = .ok (none, f) ∧ f.pos = 1 ∧
        f.bytes = [9, 0, 0, 0, 1, 0, 0, 0, 0]) :=
  ⟨trie_read_without_signature ⟨[171, 171], 0⟩ (fun _ => 0) (fun s hs => by
      have hn : (file_read_int32 ⟨[171, 171], 0⟩).1 = none := rfl
      rw [hn] at hs
      cases hs),
   trie_read_without_signature ⟨[9, 0, 0, 0, 1, 0, 0, 0, 0], 1⟩ (fun _ => 0) (fun s hs => by
      have hn : (file_read_int32 ⟨[9, 0, 0, 0, 1, 0, 0, 0, 0], 1⟩).1 = some 1 := rfl
      rw [hn] at hs
      cases hs
      decide)⟩

/-! ### C12: `trie_add_suffix` -/

/-- C12 (the code at the failing input): over the alphabet {a, b, c} with a zero-filled
`alpha_map`, after `trie_add_suffix("a", 1)` and `trie_add_suffix("ba", 2)` the root has the
child 4 on the terminator byte.  The suffix "aa" was never added, yet
`trie_add_suffix("aa", 3)` returns the trie it was given: the data store still is
`(0,0), (1,1), (2,2)`, no record holds 3, and the walk from node 4 along "aa" and the
terminator ends at node 6, the terminal of "a", whose record holds 1. -/
theorem trie_add_suffix_drops_new_payload :
    trie_add_suffix_all 16 TRIE_MAX_INDEX_DEFAULT (trie_new [97, 98, 99] (fun _ => 0))
        [(c_str [97], 1), (c_str [98, 97], 2)] = .ok trie_suffix_a_ba ∧
      trie_get_transition_index trie_suffix_a_ba ⟨3, 0⟩ 0 = 4 ∧
      ((trie_add_suffix 16 TRIE_MAX_INDEX_DEFAULT trie_suffix_a_ba (c_str [97, 97]) 3).bind
        fun t => (trie_get_loop t true 3 (c_str [97, 97]) (trie_get_node t 4) 4 none).bind
          fun h => .ok (t.nodes, t.data, t.tail, h, trie_get_node t h)) =
        .ok ([⟨0, 0⟩, ⟨-10, -3⟩, ⟨3, 0⟩, ⟨-1, -8⟩, ⟨4, 2⟩, ⟨5, 4⟩, ⟨-1, 5⟩, ⟨-2, 5⟩, ⟨-3, -9⟩,
              ⟨-8, -10⟩, ⟨-9, -1⟩],
            [⟨0, 0⟩, ⟨1, 1⟩, ⟨2, 2⟩], [0, 0, 0], 6, ⟨-1, 5⟩) ∧
      trie_suffix_a_ba.data = [⟨0, 0⟩, ⟨1, 1⟩, ⟨2, 2⟩] := by
  exact ⟨rfl, rfl, rfl, rfl⟩

/-! ### C13: the empty key -/

/-- C13: for a key buffer that starts with the NUL byte (the empty key), `trie_add` and
`trie_add_suffix` return, and the trie after the call is the trie before it: node store, data
store, tail buffer and everything else. -/
theorem trie_add_empty_key (fuel max_index : Nat) (self : trie_t) (rest : List UInt8)
    (v : Nat) :
    trie_add fuel max_index self (0 :: rest) v = .ok self ∧
      trie_add_suffix fuel max_index self (0 :: rest) v = .ok self := by
  constructor
  · simp [trie_add, c_string]
  · simp [trie_add_suffix, c_string]

/-! ### C14: the free list after `trie_add` -/

/-- C14 (the code at the failing input): over the alphabet {NUL, a, b, c}, `trie_add("acc", 1)`
and `trie_add("ac", 2)` return a trie whose cell 0 is `(0, -8)`, not `(0, 0)`; the walk from the
head visits the cells 3 and 4 and returns to the head, while the cell 8, `(0, -1)`, is free
too.  No list of cells is the well-formed free list of this trie. -/
theorem trie_add_breaks_free_list :
    trie_add_all 16 TRIE_MAX_INDEX_DEFAULT (trie_new [0, 97, 98, 99] (fun _ => 0))
        [(c_str [97, 99, 99], 1), (c_str [97, 99], 2)] = .ok trie_acc_ac ∧
      trie_acc_ac.nodes =
        [⟨0, -8⟩, ⟨-4, -3⟩, ⟨3, 0⟩, ⟨-1, -4⟩, ⟨-3, -1⟩, ⟨3, 2⟩, ⟨-2, 7⟩, ⟨5, 5⟩, ⟨0, -1⟩,
          ⟨-1, 7⟩] ∧
      ∀ L, ¬ free_list_is trie_acc_ac L := by
  refine ⟨rfl, by decide, ?_⟩
  intro L h
  have h0 := h.2.2.1
  revert h0
  decide

/-! ### C15: parents and children after `trie_add` -/

/-- C15 (the code at the failing input): over the alphabet {a, b, c}, with an `alpha_map`
allocated in memory that holds 7 everywhere, the char index of the terminator is 8.  After
`trie_add("a", 1)` and `trie_add("aa", 2)` the cell 11 is `(-1, 4)`: it is allocated and its
parent is node 4, whose base is 4; the transitions of node 4 on NUL, a, b, c lead to the cells
12, 5, 6, 7, and no byte at all leads to cell 11.  (It is the terminal of "a", left behind when
the base of node 4 went from 3 to 4; `trie_get("a", true)` returns 0.) -/
theorem trie_add_orphans_terminator_child :
    trie_add_all 16 TRIE_MAX_INDEX_DEFAULT (trie_new [97, 98, 99] (fun _ => 7))
        [(c_str [97], 1), (c_str [97, 97], 2)] = .ok trie_a_aa_filled ∧
      trie_a_aa_filled.nodes =
        [⟨0, 0⟩, ⟨-10, -3⟩, ⟨3, 0⟩, ⟨-1, -6⟩, ⟨4, 2⟩, ⟨-2, 4⟩, ⟨-3, -7⟩, ⟨-6, -8⟩, ⟨-7, -9⟩,
          ⟨-8, -10⟩, ⟨-9, -1⟩, ⟨-1, 4⟩] ∧
      [0, 97, 98, 99].map (trie_get_transition_index trie_a_aa_filled ⟨4, 2⟩) = [12, 5, 6, 7] ∧
      (List.range 256).all (fun c =>
        trie_get_transition_index trie_a_aa_filled ⟨4, 2⟩ (UInt8.ofNat c) != 11) = true ∧
      trie_get trie_a_aa_filled (c_str [97]) true = .ok 0 := by
  exact ⟨rfl, by decide, by decide, by decide, rfl⟩

/-! ### C16: terminals and their data records -/

theorem trie_get_node_with_store (t : trie_t) (d : List trie_data_node_t) (tl : List UInt8)
    (i : Nat) : trie_get_node (with_store t d tl) i = trie_get_node t i := rfl

theorem trie_get_transition_index_with_store (t : trie_t) (d : List trie_data_node_t)
    (tl : List UInt8) (node : trie_node_t) (c : UInt8) :
    trie_get_transition_index (with_store t d tl) node c = trie_get_transition_index t node c :=
  rfl

theorem trie_set_check_with_store (t t1 : trie_t) (d : List trie_data_node_t) (tl : List UInt8)
    (i : Nat) (v : Int) (h : trie_set_check t i v = .ok t1) :
    trie_set_check (with_store t d tl) i v = .ok (with_store t1 d tl) := by
  unfold trie_set_check at h ⊢
  have e : (with_store t d tl).nodes = t.nodes := rfl
  rw [e]
  cases hg : t.nodes.get? i with
  | none => rw [hg] at h; cases h
  | some n =>
    rw [hg] at h
    have e1 := Except.ok.inj h
    subst e1
    rfl

theorem trie_set_base_with_store (t t1 : trie_t) (d : List trie_data_node_t) (tl : List UInt8)
    (i : Nat) (v : Int) (h : trie_set_base t i v = .ok t1) :
    trie_set_base (with_store t d tl) i v = .ok (with_store t1 d tl) := by
  unfold trie_set_base at h ⊢
  have e : (with_store t d tl).nodes = t.nodes := rfl
  rw [e]
  cases hg : t.nodes.get? i with
  | none => rw [hg] at h; cases h
  | some n =>
    rw [hg] at h
    have e1 := Except.ok.inj h
    subst e1
    rfl

theorem trie_init_node_with_store (t t1 : trie_t) (d : List trie_data_node_t) (tl : List UInt8)
    (i : Nat) (h : trie_init_node t i = .ok t1) :
    trie_init_node (with_store t d tl) i = .ok (with_store t1 d tl) := by
  unfold trie_init_node at h ⊢
  rw [trie_get_node_with_store]
  simp only [bind, Except.bind] at h ⊢
  cases h1 : trie_set_check t (to_uint32 (to_int32 (-(trie_get_node t i).base)))
      (to_int32 (-to_int32 (-(trie_get_node t i).check))) with
  | error e => rw [h1] at h; cases h
  | ok s =>
    rw [h1] at h
    rw [trie_set_check_with_store t s d tl _ _ h1]
    exact trie_set_base_with_store s t1 d tl _ _ h

theorem trie_extend_with_store (max_index : Nat) (t t1 : trie_t) (d : List trie_data_node_t)
    (tl : List UInt8) (k : Nat) (b : Bool) (h : trie_extend max_index t k = .ok (b, t1)) :
    trie_extend max_index (with_store t d tl) k = .ok (b, with_store t1 d tl) := by
  unfold trie_extend at h ⊢
  have e : (with_store t d tl).nodes = t.nodes := rfl
  rw [e]
  by_cases c1 : k ≤ 0 ∨ max_index ≤ k
  · rw [if_pos c1] at h ⊢
    have e1 := Prod.mk.inj (Except.ok.inj h)
    rw [← e1.1, ← e1.2]
  · rw [if_neg c1] at h ⊢
    by_cases c2 : k < t.nodes.length
    · rw [if_pos c2] at h ⊢
      have e1 := Prod.mk.inj (Except.ok.inj h)
      rw [← e1.1, ← e1.2]
    · rw [if_neg c2] at h ⊢
      simp only [bind, Except.bind] at h ⊢
      have e2 : ({ with_store t d tl with nodes := (t.nodes ++
          extend_cells ((k + 1) % 4294967296 - t.nodes.length) t.nodes.length) } : trie_t) =
          with_store { t with nodes := (t.nodes ++
            extend_cells ((k + 1) % 4294967296 - t.nodes.length) t.nodes.length) } d tl := rfl
      rw [e2]
      generalize ({ t with nodes := (t.nodes ++
        extend_cells ((k + 1) % 4294967296 - t.nodes.length) t.nodes.length) } : trie_t) = s1
        at h ⊢
      have e3 : trie_get_free_list (with_store s1 d tl) = trie_get_free_list s1 := rfl
      rw [e3]
      cases h0 : trie_get_free_list s1 with
      | error e => rw [h0] at h; cases h
      | ok head =>
        rw [h0] at h
        dsimp only at h ⊢
        cases h2 : trie_set_check s1 (to_uint32 (-head.base))
            (to_int32 (-(t.nodes.length : Int))) with
        | error e => rw [h2] at h; cases h
        | ok s2 =>
          rw [h2] at h
          rw [trie_set_check_with_store s1 s2 d tl _ _ h2]
          dsimp only at h ⊢
          cases h3 : trie_set_base s2 t.nodes.length
              (to_int32 (-((to_uint32 (-head.base) : Nat) : Int))) with
          | error e => rw [h3] at h; cases h
          | ok s3 =>
            rw [h3] at h
            rw [trie_set_base_with_store s2 s3 d tl _ _ h3]
            dsimp only at h ⊢
            cases h4 : trie_set_check s3 k (to_int32 (-(FREE_LIST_ID : Int))) with
            | error e => rw [h4] at h; cases h
            | ok s4 =>
              rw [h4] at h
              rw [trie_set_check_with_store s3 s4 d tl _ _ h4]
              dsimp only at h ⊢
              cases h5 : trie_set_base s4 FREE_LIST_ID (to_int32 (-(k : Int))) with
              | error e => rw [h5] at h; cases h
              | ok s5 =>
                rw [h5] at h
                rw [trie_set_base_with_store s4 s5 d tl _ _ h5]
                have e1 := Prod.mk.inj (Except.ok.inj h)
                rw [← e1.1, ← e1.2]
                rfl

theorem trie_make_room_for_with_store (max_index : Nat) (t t1 : trie_t)
    (d : List trie_data_node_t) (tl : List UInt8) (n : Nat)
    (h : trie_make_room_for max_index t n = .ok t1) :
    trie_make_room_for max_index (with_store t d tl) n = .ok (with_store t1 d tl) := by
  unfold trie_make_room_for at h ⊢
  have e : (with_store t d tl).nodes = t.nodes := rfl
  have e0 : (with_store t d tl).alphabet_size = t.alphabet_size := rfl
  rw [e, e0]
  by_cases c : (n + t.alphabet_size) % 4294967296 ≥ t.nodes.length
  · rw [if_pos c] at h ⊢
    cases hx : trie_extend max_index t ((n + t.alphabet_size) % 4294967296) with
    | error e => rw [hx] at h; cases h
    | ok r =>
      obtain ⟨b, s⟩ := r
      rw [hx] at h
      rw [trie_extend_with_store max_index t s d tl _ b hx]
      have e1 := Except.ok.inj h
      dsimp only at e1 ⊢
      rw [e1]
  · rw [if_neg c] at h ⊢
    have e1 := Except.ok.inj h
    rw [e1]

/-- `trie_add_transition` from the root for a byte whose cell is free, on a trie that differs
from `t1` in the data store and the tail buffer only. -/
theorem trie_add_transition_free_cell (fuel max_index : Nat) (t1 t4 t5 : trie_t)
    (d : List trie_data_node_t) (tl : List UInt8) (c : UInt8) (next_id : Nat)
    (hfree : (trie_get_node t1 next_id).check < 0)
    (hne : to_uint32 (trie_get_node t1 next_id).check ≠ ROOT_ID)
    (hbase : (trie_get_node t1 ROOT_ID).base > 0)
    (hnext1 : to_uint32 ((trie_get_node t1 ROOT_ID).base + (trie_get_char_index t1 c : Int)) =
      next_id)
    (hroom1 : trie_make_room_for max_index t1 next_id = .ok t1)
    (hov : ¬ to_uint32 (trie_get_node t1 ROOT_ID).base >
      to_uint32 ((max_index : Int) - (trie_get_char_index t1 c : Int)))
    (hinit : trie_init_node t1 next_id = .ok t4)
    (hchk : trie_set_check t4 next_id (to_int32 (ROOT_ID : Int)) = .ok t5) :
    trie_add_transition fuel max_index (with_store t1 d tl) ROOT_ID c =
      .ok (next_id, with_store t5 d tl) := by
  have eci : trie_get_char_index (with_store t1 d tl) c = trie_get_char_index t1 c := rfl
  have hnf : ¬ (to_uint32 (trie_get_node t1 ROOT_ID).base >
      to_uint32 ((max_index : Int) - (trie_get_char_index t1 c : Int)) ∨
      trie_node_is_free (trie_get_node t1 next_id) = false) := by
    intro h
    rcases h with h | h
    · exact hov h
    · unfold trie_node_is_free at h
      rw [decide_eq_true hfree] at h
      cases h
  unfold trie_add_transition
  rw [trie_get_node_with_store, eci]
  dsimp only
  rw [if_pos hbase, hnext1, trie_make_room_for_with_store max_index t1 t1 d tl next_id hroom1]
  dsimp only
  rw [trie_get_node_with_store, if_neg hne, if_neg hnf]
  simp only [bind, Except.bind]
  rw [trie_init_node_with_store t1 t4 d tl next_id hinit]
  dsimp only
  rw [trie_set_check_with_store t4 t5 d tl next_id _ hchk]
  rfl

/-- `trie_add` of a key whose first byte has no transition from the root yet, on a trie that
differs from `t` in the data store and the tail buffer only; the hypotheses describe the run
of the node operations on `t`. -/
theorem trie_add_first_byte (fuel max_index : Nat) (t t1 t4 t5 : trie_t)
    (d : List trie_data_node_t) (tl : List UInt8) (c : UInt8) (rest : List UInt8) (v : Nat)
    (next_id : Nat) (nd : trie_node_t) (hc : c ≠ 0) (hrest : ∀ x ∈ rest, x ≠ 0)
    (hnext : trie_get_transition_index t (trie_get_node t ROOT_ID) c = next_id)
    (hnz : next_id ≠ NULL_ID)
    (hroom : trie_make_room_for max_index t next_id = .ok t1)
    (hfree : (trie_get_node t1 next_id).check < 0)
    (hne : to_uint32 (trie_get_node t1 next_id).check ≠ ROOT_ID)
    (hbase : (trie_get_node t1 ROOT_ID).base > 0)
    (hnext1 : to_uint32 ((trie_get_node t1 ROOT_ID).base + (trie_get_char_index t1 c : Int)) =
      next_id)
    (hroom1 : trie_make_room_for max_index t1 next_id = .ok t1)
    (hov : ¬ to_uint32 (trie_get_node t1 ROOT_ID).base >
      to_uint32 ((max_index : Int) - (trie_get_char_index t1 c : Int)))
    (hinit : trie_init_node t1 next_id = .ok t4)
    (hchk : trie_set_check t4 next_id (to_int32 (ROOT_ID : Int)) = .ok t5)
    (hidx : to_uint32 (to_int32 (next_id : Int)) = next_id)
    (hget : t5.nodes.get? next_id = some nd) :
    trie_add fuel max_index (with_store t d tl) (c :: (rest ++ [0])) v =
      .ok (with_store
        { t5 with nodes :=
            (t5.nodes.set next_id { nd with base := to_int32 (-1 * (d.length : Int)) }) }
        (d ++ [⟨tl.length % 4294967296, v⟩]) (tl ++ rest ++ [0])) := by
  have hcs : c_string (c :: (rest ++ [0])) = .ok (c :: rest) := by
    have := c_string_bytes_nul (c :: rest) [] (by
      intro x hx
      rcases List.mem_cons.mp hx with rfl | hx
      · exact hc
      · exact hrest x hx)
    exact this
  have hcr : c_string (rest ++ [0]) = .ok rest := c_string_bytes_nul rest [] hrest
  unfold trie_add
  rw [hcs]
  dsimp only
  rw [if_neg (by simp)]
  unfold trie_add_to_node
  rw [hcs]
  dsimp only
  rw [List.length_cons]
  unfold add_to_node_loop
  simp only [deref]
  rw [trie_get_node_with_store, trie_get_transition_index_with_store, hnext, if_pos hnz,
    trie_make_room_for_with_store max_index t t1 d tl next_id hroom]
  dsimp only
  rw [trie_get_node_with_store, if_pos (Or.inl hfree)]
  unfold trie_separate_tail
  simp only [deref, bind, Except.bind]
  rw [trie_add_transition_free_cell fuel max_index t1 t4 t5 d tl c next_id hfree hne hbase hnext1
    hroom1 hov hinit hchk]
  dsimp only
  rw [hidx]
  have hsb : trie_set_base (with_store t5 d tl) next_id
      (to_int32 (-1 * ((with_store t5 d tl).data.length : Int))) =
      .ok (with_store
        { t5 with nodes := (t5.nodes.set next_id
            { nd with base := to_int32 (-1 * (d.length : Int)) }) } d tl) := by
    unfold trie_set_base
    have e : (with_store t5 d tl).nodes = t5.nodes := rfl
    rw [e, hget]
    rfl
  rw [hsb]
  dsimp only
  rw [if_pos hc, List.tail_cons, hcr]
  rfl

/-- The call `trie_add` number 1 of the tail-offset run: the key starts with 'a', a byte
with no transition from the root yet; the data store has 1 records before the call. -/
theorem trie_abcd_add_1 (d : List trie_data_node_t) (tl rest : List UInt8) (v : Nat)
    (hd : d.length = 1) (hrest : ∀ x ∈ rest, x ≠ 0) :
    trie_add 16 TRIE_MAX_INDEX_DEFAULT
        (with_store
          (trie_abcd
            [⟨0, 0⟩, ⟨-1, -1⟩, ⟨3, 0⟩])
          d tl) (97 :: (rest ++ [0])) v =
      .ok (with_store
        (trie_abcd
          [⟨0, 0⟩, ⟨-10, -3⟩, ⟨3, 0⟩, ⟨-1, -4⟩, ⟨-3, -6⟩, ⟨-1, 2⟩, ⟨-4, -7⟩, ⟨-6, -8⟩,
           ⟨-7, -9⟩, ⟨-8, -10⟩, ⟨-9, -1⟩])
        (d ++ [⟨tl.length % 4294967296, v⟩]) (tl ++ rest ++ [0])) := by
  rw [trie_add_first_byte 16 TRIE_MAX_INDEX_DEFAULT
    (trie_abcd
      [⟨0, 0⟩, ⟨-1, -1⟩, ⟨3, 0⟩])
    (trie_abcd
      [⟨0, 0⟩, ⟨-10, -3⟩, ⟨3, 0⟩, ⟨-1, -4⟩, ⟨-3, -5⟩, ⟨-4, -6⟩, ⟨-5, -7⟩, ⟨-6, -8⟩,
       ⟨-7, -9⟩, ⟨-8, -10⟩, ⟨-9, -1⟩])
    (trie_abcd
      [⟨0, 0⟩, ⟨-10, -3⟩, ⟨3, 0⟩, ⟨-1, -4⟩, ⟨-3, -6⟩, ⟨-4, -6⟩, ⟨-4, -7⟩, ⟨-6, -8⟩,
       ⟨-7, -9⟩, ⟨-8, -10⟩, ⟨-9, -1⟩])
    (trie_abcd
      [⟨0, 0⟩, ⟨-10, -3⟩, ⟨3, 0⟩, ⟨-1, -4⟩, ⟨-3, -6⟩, ⟨-4, 2⟩, ⟨-4, -7⟩, ⟨-6, -8⟩,
       ⟨-7, -9⟩, ⟨-8, -10⟩, ⟨-9, -1⟩])
    d tl 97 rest v 5 ⟨-4, 2⟩ (by decide) hrest rfl (by decide) rfl (by decide) (by decide)
    (by decide) rfl rfl (by decide) rfl rfl rfl rfl, hd]
  rfl

/-- The call `trie_add` number 2 of the tail-offset run: the key starts with 'b', a byte
with no transition from the root yet; the data store has 2 records before the call. -/
theorem trie_abcd_add_2 (d : List trie_data_node_t) (tl rest : List UInt8) (v : Nat)
    (hd : d.length = 2) (hrest : ∀ x ∈ rest, x ≠ 0) :
    trie_add 16 TRIE_MAX_INDEX_DEFAULT
        (with_store
          (trie_abcd
            [⟨0, 0⟩, ⟨-10, -3⟩, ⟨3, 0⟩, ⟨-1, -4⟩, ⟨-3, -6⟩, ⟨-1, 2⟩, ⟨-4, -7⟩,
             ⟨-6, -8⟩, ⟨-7, -9⟩, ⟨-8, -10⟩, ⟨-9, -1⟩])
          d tl) (98 :: (rest ++ [0])) v =
      .ok (with_store
        (trie_abcd
          [⟨0, 0⟩, ⟨-11, -3⟩, ⟨3, 0⟩, ⟨-1, -4⟩, ⟨-3, -7⟩, ⟨-1, 2⟩, ⟨-2, 2⟩, ⟨-4, -8⟩,
           ⟨-7, -9⟩, ⟨-8, -10⟩, ⟨-9, -11⟩, ⟨-10, -1⟩])
        (d ++ [⟨tl.length % 4294967296, v⟩]) (tl ++ rest ++ [0])) := by
  rw [trie_add_first_byte 16 TRIE_MAX_INDEX_DEFAULT
    (trie_abcd
      [⟨0, 0⟩, ⟨-10, -3⟩, ⟨3, 0⟩, ⟨-1, -4⟩, ⟨-3, -6⟩, ⟨-1, 2⟩, ⟨-4, -7⟩, ⟨-6, -8⟩,
       ⟨-7, -9⟩, ⟨-8, -10⟩, ⟨-9, -1⟩])
    (trie_abcd
      [⟨0, 0⟩, ⟨-11, -3⟩, ⟨3, 0⟩, ⟨-1, -4⟩, ⟨-3, -6⟩, ⟨-1, 2⟩, ⟨-4, -7⟩, ⟨-6, -8⟩,
       ⟨-7, -9⟩, ⟨-8, -10⟩, ⟨-9, -11⟩, ⟨-10, -1⟩])
    (trie_abcd
      [⟨0, 0⟩, ⟨-11, -3⟩, ⟨3, 0⟩, ⟨-1, -4⟩, ⟨-3, -7⟩, ⟨-1, 2⟩, ⟨-4, -7⟩, ⟨-4, -8⟩,
       ⟨-7, -9⟩, ⟨-8, -10⟩, ⟨-9, -11⟩, ⟨-10, -1⟩])
    (trie_abcd
      [⟨0, 0⟩, ⟨-11, -3⟩, ⟨3, 0⟩, ⟨-1, -4⟩, ⟨-3, -7⟩, ⟨-1, 2⟩, ⟨-4, 2⟩, ⟨-4, -8⟩,
       ⟨-7, -9⟩, ⟨-8, -10⟩, ⟨-9, -11⟩, ⟨-10, -1⟩])
    d tl 98 rest v 6 ⟨-4, 2⟩ (by decide) hrest rfl (by decide) rfl (by decide) (by decide)
    (by decide) rfl rfl (by decide) rfl rfl rfl rfl, hd]
  rfl

/-- The call `trie_add` number 3 of the tail-offset run: the key starts with 'c', a byte
with no transition from the root yet; the data store has 3 records before the call. -/
theorem trie_abcd_add_3 (d : List trie_data_node_t) (tl rest : List UInt8) (v : Nat)
    (hd : d.length = 3) (hrest : ∀ x ∈ rest, x ≠ 0) :
    trie_add 16 TRIE_MAX_INDEX_DEFAULT
        (with_store
          (trie_abcd
            [⟨0, 0⟩, ⟨-11, -3⟩, ⟨3, 0⟩, ⟨-1, -4⟩, ⟨-3, -7⟩, ⟨-1, 2⟩, ⟨-2, 2⟩, ⟨-4, -8⟩,
             ⟨-7, -9⟩, ⟨-8, -10⟩, ⟨-9, -11⟩, ⟨-10, -1⟩])
          d tl) (99 :: (rest ++ [0])) v =
      .ok (with_store
        (trie_abcd
          [⟨0, 0⟩, ⟨-12, -3⟩, ⟨3, 0⟩, ⟨-1, -4⟩, ⟨-3, -8⟩, ⟨-1, 2⟩, ⟨-2, 2⟩, ⟨-3, 2⟩,
           ⟨-4, -9⟩, ⟨-8, -10⟩, ⟨-9, -11⟩, ⟨-10, -12⟩, ⟨-11, -1⟩])
        (d ++ [⟨tl.length % 4294967296, v⟩]) (tl ++ rest ++ [0])) := by
  rw [trie_add_first_byte 16 TRIE_MAX_INDEX_DEFAULT
    (trie_abcd
      [⟨0, 0⟩, ⟨-11, -3⟩, ⟨3, 0⟩, ⟨-1, -4⟩, ⟨-3, -7⟩, ⟨-1, 2⟩, ⟨-2, 2⟩, ⟨-4, -8⟩,
       ⟨-7, -9⟩, ⟨-8, -10⟩, ⟨-9, -11⟩, ⟨-10, -1⟩])
    (trie_abcd
      [⟨0, 0⟩, ⟨-12, -3⟩, ⟨3, 0⟩, ⟨-1, -4⟩, ⟨-3, -7⟩, ⟨-1, 2⟩, ⟨-2, 2⟩, ⟨-4, -8⟩,
       ⟨-7, -9⟩, ⟨-8, -10⟩, ⟨-9, -11⟩, ⟨-10, -12⟩, ⟨-11, -1⟩])
    (trie_abcd
      [⟨0, 0⟩, ⟨-12, -3⟩, ⟨3, 0⟩, ⟨-1, -4⟩, ⟨-3, -8⟩, ⟨-1, 2⟩, ⟨-2, 2⟩, ⟨-4, -8⟩,
       ⟨-4, -9⟩, ⟨-8, -10⟩, ⟨-9, -11⟩, ⟨-10, -12⟩, ⟨-11, -1⟩])
    (trie_abcd
      [⟨0, 0⟩, ⟨-12, -3⟩, ⟨3, 0⟩, ⟨-1, -4⟩, ⟨-3, -8⟩, ⟨-1, 2⟩, ⟨-2, 2⟩, ⟨-4, 2⟩,
       ⟨-4, -9⟩, ⟨-8, -10⟩, ⟨-9, -11⟩, ⟨-10, -12⟩, ⟨-11, -1⟩])
    d tl 99 rest v 7 ⟨-4, 2⟩ (by decide) hrest rfl (by decide) rfl (by decide) (by decide)
    (by decide) rfl rfl (by decide) rfl rfl rfl rfl, hd]
  rfl

/-- The call `trie_add` number 4 of the tail-offset run: the key starts with 'd', a byte
with no transition from the root yet; the data store has 4 records before the call. -/
theorem trie_abcd_add_4 (d : List trie_data_node_t) (tl rest : List UInt8) (v : Nat)
    (hd : d.length = 4) (hrest : ∀ x ∈ rest, x ≠ 0) :
    trie_add 16 TRIE_MAX_INDEX_DEFAULT
        (with_store
          (trie_abcd
            [⟨0, 0⟩, ⟨-12, -3⟩, ⟨3, 0⟩, ⟨-1, -4⟩, ⟨-3, -8⟩, ⟨-1, 2⟩, ⟨-2, 2⟩, ⟨-3, 2⟩,
             ⟨-4, -9⟩, ⟨-8, -10⟩, ⟨-9, -11⟩, ⟨-10, -12⟩, ⟨-11, -1⟩])
          d tl) (100 :: (rest ++ [0])) v =
      .ok (with_store
        (trie_abcd
          [⟨0, 0⟩, ⟨-13, -3⟩, ⟨3, 0⟩, ⟨-1, -4⟩, ⟨-3, -9⟩, ⟨-1, 2⟩, ⟨-2, 2⟩, ⟨-3, 2⟩,
           ⟨-4, 2⟩, ⟨-4, -10⟩, ⟨-9, -11⟩, ⟨-10, -12⟩, ⟨-11, -13⟩, ⟨-12, -1⟩])
        (d ++ [⟨tl.length % 4294967296, v⟩]) (tl ++ rest ++ [0])) := by
  rw [trie_add_first_byte 16 TRIE_MAX_INDEX_DEFAULT
    (trie_abcd
      [⟨0, 0⟩, ⟨-12, -3⟩, ⟨3, 0⟩, ⟨-1, -4⟩, ⟨-3, -8⟩, ⟨-1, 2⟩, ⟨-2, 2⟩, ⟨-3, 2⟩,
       ⟨-4, -9⟩, ⟨-8, -10⟩, ⟨-9, -11⟩, ⟨-10, -12⟩, ⟨-11, -1⟩])
    (trie_abcd
      [⟨0, 0⟩, ⟨-13, -3⟩, ⟨3, 0⟩, ⟨-1, -4⟩, ⟨-3, -8⟩, ⟨-1, 2⟩, ⟨-2, 2⟩, ⟨-3, 2⟩,
       ⟨-4, -9⟩, ⟨-8, -10⟩, ⟨-9, -11⟩, ⟨-10, -12⟩, ⟨-11, -13⟩, ⟨-12, -1⟩])
    (trie_abcd
      [⟨0, 0⟩, ⟨-13, -3⟩, ⟨3, 0⟩, ⟨-1, -4⟩, ⟨-3, -9⟩, ⟨-1, 2⟩, ⟨-2, 2⟩, ⟨-3, 2⟩,
       ⟨-4, -9⟩, ⟨-4, -10⟩, ⟨-9, -11⟩, ⟨-10, -12⟩, ⟨-11, -13⟩, ⟨-12, -1⟩])
    (trie_abcd
      [⟨0, 0⟩, ⟨-13, -3⟩, ⟨3, 0⟩, ⟨-1, -4⟩, ⟨-3, -9⟩, ⟨-1, 2⟩, ⟨-2, 2⟩, ⟨-3, 2⟩,
       ⟨-4, 2⟩, ⟨-4, -10⟩, ⟨-9, -11⟩, ⟨-10, -12⟩, ⟨-11, -13⟩, ⟨-12, -1⟩])
    d tl 100 rest v 8 ⟨-4, 2⟩ (by decide) hrest rfl (by decide) rfl (by decide) (by decide)
    (by decide) rfl rfl (by decide) rfl rfl rfl rfl, hd]
  rfl


/-- The tail-offset run, with the keys given by their bytes after the first one. -/
theorem trie_abcd_run (r1 r2 r3 r4 : List UInt8) (h1 : ∀ x ∈ r1, x ≠ 0)
    (h2 : ∀ x ∈ r2, x ≠ 0) (h3 : ∀ x ∈ r3, x ≠ 0) (h4 : ∀ x ∈ r4, x ≠ 0)
    (hl1 : r1.length = 2147483645) (hl2 : r2.length = 2147483645) (hl3 : r3.length = 2)
    (hl4 : r4.length = 0) :
    ∃ t, trie_add_all 16 TRIE_MAX_INDEX_DEFAULT (trie_new [0, 97, 98, 99, 100] (fun _ => 0))
        [(c_str (97 :: r1), 1), (c_str (98 :: r2), 2), (c_str (99 :: r3), 3),
          (c_str (100 :: r4), 4)] = .ok t ∧
      t.nodes.get? 8 = some ⟨-4, 2⟩ ∧ t.data.get? 4 = some ⟨0, 4⟩ ∧
      t.tail.length = 4294967297 := by
  have h0 : trie_new [0, 97, 98, 99, 100] (fun _ => 0) =
      with_store (trie_abcd [⟨0, 0⟩, ⟨-1, -1⟩, ⟨3, 0⟩]) [⟨0, 0⟩] [0] := rfl
  have e1 : c_str (97 :: r1) = 97 :: (r1 ++ [0]) := rfl
  have e2 : c_str (98 :: r2) = 98 :: (r2 ++ [0]) := rfl
  have e3 : c_str (99 :: r3) = 99 :: (r3 ++ [0]) := rfl
  have e4 : c_str (100 :: r4) = 100 :: (r4 ++ [0]) := rfl
  have hlen : ([0] ++ r1 ++ [0] ++ r2 ++ [0] ++ r3 ++ [0] : List UInt8).length =
      4294967296 := by
    simp only [List.length_append, List.length_cons, List.length_nil, hl1, hl2, hl3]
  refine ⟨with_store
    (trie_abcd
      [⟨0, 0⟩, ⟨-13, -3⟩, ⟨3, 0⟩, ⟨-1, -4⟩, ⟨-3, -9⟩, ⟨-1, 2⟩, ⟨-2, 2⟩, ⟨-3, 2⟩, ⟨-4, 2⟩,
      ⟨-4, -10⟩, ⟨-9, -11⟩, ⟨-10, -12⟩, ⟨-11, -13⟩, ⟨-12, -1⟩])
    ([⟨0, 0⟩] ++ [⟨([0] : List UInt8).length % 4294967296, 1⟩] ++
        [⟨([0] ++ r1 ++ [0] : List UInt8).length % 4294967296, 2⟩] ++
      [⟨([0] ++ r1 ++ [0] ++ r2 ++ [0] : List UInt8).length % 4294967296, 3⟩] ++
      [⟨([0] ++ r1 ++ [0] ++ r2 ++ [0] ++ r3 ++ [0] : List UInt8).length % 4294967296, 4⟩])
    ([0] ++ r1 ++ [0] ++ r2 ++ [0] ++ r3 ++ [0] ++ r4 ++ [0]), ?h1, ?h2, ?h3, ?h4⟩
  case h1 =>
    rw [h0, e1, e2, e3, e4]
    unfold trie_add_all
    rw [trie_abcd_add_1 _ _ r1 1 (by rfl) h1]
    dsimp only
    unfold trie_add_all
    rw [trie_abcd_add_2 _ _ r2 2 (by rfl) h2]
    dsimp only
    unfold trie_add_all
    rw [trie_abcd_add_3 _ _ r3 3 (by rfl) h3]
    dsimp only
    unfold trie_add_all
    rw [trie_abcd_add_4 _ _ r4 4 (by rfl) h4]
    dsimp only
    unfold trie_add_all
    rfl
  case h2 => rfl
  case h3 =>
    show some (⟨([0] ++ r1 ++ [0] ++ r2 ++ [0] ++ r3 ++ [0] : List UInt8).length %
        4294967296, 4⟩ : trie_data_node_t) = some ⟨0, 4⟩
    rw [hlen]
  case h4 =>
    show ([0] ++ r1 ++ [0] ++ r2 ++ [0] ++ r3 ++ [0] ++ r4 ++ [0] : List UInt8).length =
        4294967297
    rw [List.length_append, List.length_append, hlen, hl4]
    rfl

/-- C16 (the code at the failing input): over the alphabet {NUL, a, b, c, d}, the four calls
`trie_add(k1, 1)`, `trie_add(k2, 2)`, `trie_add("ccc", 3)`, `trie_add("d", 4)`, where `k1` is
`2^31 - 2` bytes 'a' and `k2` is `2^31 - 2` bytes 'b', all return.  After the third one the
tail buffer holds `2^32` bytes, and the fourth one stores the length of the tail buffer as a
32-bit value in the new data record: in the trie after the calls the cell 8 is `(-4, 2)`, an
allocated terminal, and its data record 4 is `(0, 4)`: the tail offset is 0 and not the
position `2^32` of the tail of "d". -/
theorem trie_add_wraps_tail_offset :
    ∃ t, trie_add_all 16 TRIE_MAX_INDEX_DEFAULT (trie_new [0, 97, 98, 99, 100] (fun _ => 0))
        [(c_str (97 :: List.replicate 2147483645 97), 1),
          (c_str (98 :: List.replicate 2147483645 98), 2), (c_str [99, 99, 99], 3),
          (c_str [100], 4)] = .ok t ∧
      t.nodes.get? 8 = some ⟨-4, 2⟩ ∧ t.data.get? 4 = some ⟨0, 4⟩ ∧
      t.tail.length = 4294967297 :=
  trie_abcd_run (List.replicate 2147483645 97) (List.replicate 2147483645 98) [99, 99] []
    (fun x hx => by rw [List.eq_of_mem_replicate hx]; decide)
    (fun x hx => by rw [List.eq_of_mem_replicate hx]; decide)
    (by decide) (by decide)
    (List.length_replicate _ _) (List.length_replicate _ _) rfl rfl

/-! ### C17: `trie_free_node` -/

/-- C17 (the code at the failing input): over the alphabet {NUL, a}, the trie after
`trie_add("a", 1)` and `trie_add("aa", 2)` has the well-formed free list 3, 4, and the
allocated cell 7 lies behind every free cell.  `trie_free_node(7)` leaves the cell 7 as
`(0, -1)`, not `(-4, -1)`; the check of the last free cell 4 stays `-1` instead of becoming
`-7`; and the placeholder cell 0 becomes `(0, -7)`. -/
theorem trie_free_node_misses_head :
    trie_add_all 16 TRIE_MAX_INDEX_DEFAULT (trie_new [0, 97] (fun _ => 0))
        [(c_str [97], 1), (c_str [97, 97], 2)] = .ok trie_a_aa ∧
      trie_a_aa.nodes =
        [⟨0, 0⟩, ⟨-4, -3⟩, ⟨3, 0⟩, ⟨-1, -4⟩, ⟨-3, -1⟩, ⟨5, 2⟩, ⟨-1, 5⟩, ⟨-2, 5⟩] ∧
      free_list_is trie_a_aa [3, 4] ∧
      (trie_free_node 16 trie_a_aa 7).map trie_t.nodes =
        .ok [⟨0, -7⟩, ⟨-7, -3⟩, ⟨3, 0⟩, ⟨-1, -4⟩, ⟨-3, -1⟩, ⟨5, 2⟩, ⟨-1, 5⟩, ⟨0, -1⟩] := by
  refine ⟨rfl, by decide, ⟨rfl, by decide, rfl, ?_, by decide⟩, rfl⟩
  exact ⟨by decide, ⟨rfl, rfl⟩, by decide, ⟨rfl, rfl⟩, ⟨rfl, rfl⟩⟩

/-! ### The free list: reading and writing cells -/

theorem same_store_refl (a : trie_t) : same_store a a := ⟨rfl, rfl, rfl⟩

theorem same_store_trans {a b c : trie_t} (h1 : same_store a b) (h2 : same_store b c) :
    same_store a c :=
  ⟨h2.1.trans h1.1, h2.2.1.trans h1.2.1, h2.2.2.trans h1.2.2⟩

/-- `trie_set_check` on a cell of the store returns; it writes that `check` field only. -/
theorem trie_set_check_spec (self : trie_t) (i : Nat) (v : Int) (hi : i < self.nodes.length) :
    ∃ self1, trie_set_check self i v = .ok self1 ∧
      self1.nodes.length = self.nodes.length ∧
      (∀ j, check_at self1 j = if j = i then some v else check_at self j) ∧
      (∀ j, base_at self1 j = base_at self j) ∧ same_store self self1 := by
  unfold trie_set_check
  have hg : self.nodes.get? i = some (self.nodes.get ⟨i, hi⟩) := List.get?_eq_get hi
  rw [hg]
  refine ⟨_, rfl, by simp, ?_, ?_, ⟨rfl, rfl, rfl⟩⟩
  · intro j
    by_cases hj : j = i
    · subst hj
      simp [check_at, hi]
    · have hj1 : i ≠ j := fun h => hj h.symm
      simp [check_at, hj, hj1, List.getElem?_set]
  · intro j
    by_cases hj : j = i
    · subst hj
      simp [base_at, hi]
    · have hj1 : i ≠ j := fun h => hj h.symm
      simp [base_at, hj1, List.getElem?_set]

/-- `trie_set_base` on a cell of the store returns; it writes that `base` field only. -/
theorem trie_set_base_spec (self : trie_t) (i : Nat) (v : Int) (hi : i < self.nodes.length) :
    ∃ self1, trie_set_base self i v = .ok self1 ∧
      self1.nodes.length = self.nodes.length ∧
      (∀ j, base_at self1 j = if j = i then some v else base_at self j) ∧
      (∀ j, check_at self1 j = check_at self j) ∧ same_store self self1 := by
  unfold trie_set_base
  have hg : self.nodes.get? i = some (self.nodes.get ⟨i, hi⟩) := List.get?_eq_get hi
  rw [hg]
  refine ⟨_, rfl, by simp, ?_, ?_, ⟨rfl, rfl, rfl⟩⟩
  · intro j
    by_cases hj : j = i
    · subst hj
      simp [base_at, hi]
    · have hj1 : i ≠ j := fun h => hj h.symm
      simp [base_at, hj, hj1, List.getElem?_set]
  · intro j
    by_cases hj : j = i
    · subst hj
      simp [check_at, hi]
    · have hj1 : i ≠ j := fun h => hj h.symm
      simp [check_at, hj1, List.getElem?_set]

theorem extend_cells_length (c i : Nat) : (extend_cells c i).length = c := by
  induction c generalizing i with
  | zero => rfl
  | succ c ih => simp [extend_cells, ih]

theorem extend_cells_get (c i j : Nat) (h : j < c) :
    (extend_cells c i).get? j =
      some ⟨to_int32 (-(((i + j : Nat) : Int) - 1)), to_int32 (-(((i + j : Nat) : Int) + 1))⟩ := by
  induction c generalizing i j with
  | zero => omega
  | succ c ih =>
    cases j with
    | zero => simp [extend_cells]
    | succ j =>
      have := ih (i + 1) j (by omega)
      simp only [extend_cells, List.get?_cons_succ, this]
      have e : i + 1 + j = i + (j + 1) := by omega
      rw [e]

/-- The cells of the store after the pushes of `trie_extend`. -/
theorem nodes_append_extend_cells (self : trie_t) (c j : Nat) :
    (self.nodes ++ extend_cells c self.nodes.length).get? j =
      if j < self.nodes.length then self.nodes.get? j
      else if j < self.nodes.length + c then
        some ⟨to_int32 (-((j : Int) - 1)), to_int32 (-((j : Int) + 1))⟩
      else none := by
  by_cases h1 : j < self.nodes.length
  · rw [if_pos h1, List.get?_eq_getElem?, List.get?_eq_getElem?, List.getElem?_append_left h1]
  · rw [if_neg h1, List.get?_eq_getElem?, List.getElem?_append_right (by omega),
      ← List.get?_eq_getElem?]
    by_cases h2 : j < self.nodes.length + c
    · rw [if_pos h2, extend_cells_get c _ _ (by omega)]
      have e : self.nodes.length + (j - self.nodes.length) = j := by omega
      rw [e]
    · rw [if_neg h2, List.get?_eq_none]
      rw [extend_cells_length]
      omega

theorem to_int32_neg_nat (n : Nat) (h : n ≤ 2147483648) : to_int32 (-(n : Int)) = -(n : Int) :=
  to_int32_of_range _ (by omega) (by omega)

theorem to_uint32_nat (n : Nat) (h : n < 4294967296) : to_uint32 (n : Int) = n := by
  unfold to_uint32
  omega

/-- `trie_extend` beyond the end of the store, when the head of the free list has the base
`-last` for a cell `last` of the store: the call returns `true`, the store has the cells up to
`to_index`, and the `check` and `base` fields are the old ones except for the four writes. -/
theorem trie_extend_spec (max_index : Nat) (self : trie_t) (k last : Nat)
    (hn : 2 ≤ self.nodes.length) (hk : self.nodes.length ≤ k) (hmax : k < max_index)
    (hm : max_index ≤ 2147483648) (hb : base_at self FREE_LIST_ID = some (-(last : Int)))
    (hl : last < self.nodes.length) :
    ∃ self1, trie_extend max_index self k = .ok (true, self1) ∧
      self1.nodes.length = k + 1 ∧ same_store self self1 ∧
      (∀ j, check_at self1 j =
        if j = k then some (-1) else if j = last then some (-(self.nodes.length : Int))
        else if j < self.nodes.length then check_at self j
        else if j < k + 1 then some (-((j : Int) + 1)) else none) ∧
      (∀ j, base_at self1 j =
        if j = FREE_LIST_ID then some (-(k : Int))
        else if j = self.nodes.length then some (-(last : Int))
        else if j < self.nodes.length then base_at self j
        else if j < k + 1 then some (-((j : Int) - 1)) else none) := by
  obtain ⟨head, hhead, hhb⟩ : ∃ head, self.nodes.get? FREE_LIST_ID = some head ∧
      head.base = -(last : Int) := by
    unfold base_at at hb
    cases hg : self.nodes.get? FREE_LIST_ID with
    | none => rw [hg] at hb; cases hb
    | some head =>
      rw [hg] at hb
      exact ⟨head, rfl, Option.some.inj hb⟩
  have hcnt : (k + 1) % 4294967296 - self.nodes.length = k + 1 - self.nodes.length := by
    rw [Nat.mod_eq_of_lt (by omega)]
  have hfl : trie_get_free_list
      { self with nodes := (self.nodes ++
        extend_cells (k + 1 - self.nodes.length) self.nodes.length) } = .ok head := by
    unfold trie_get_free_list node_at
    dsimp only
    rw [nodes_append_extend_cells, if_pos (by unfold FREE_LIST_ID; omega), hhead]
  have hft : to_uint32 (-head.base) = last := by
    rw [hhb, neg_neg]
    exact to_uint32_nat last (by omega)
  have hlen1 : ({ self with nodes := (self.nodes ++
        extend_cells (k + 1 - self.nodes.length) self.nodes.length) } : trie_t).nodes.length = k + 1 := by
    dsimp only
    rw [List.length_append, extend_cells_length]
    omega
  obtain ⟨s2, e2, l2, c2, b2, st2⟩ := trie_set_check_spec
    { self with nodes := (self.nodes ++
        extend_cells (k + 1 - self.nodes.length) self.nodes.length) } last (to_int32 (-(self.nodes.length : Int))) (by omega)
  obtain ⟨s3, e3, l3, b3, c3, st3⟩ := trie_set_base_spec s2 self.nodes.length
    (to_int32 (-(last : Int))) (by omega)
  obtain ⟨s4, e4, l4, c4, b4, st4⟩ := trie_set_check_spec s3 k
    (to_int32 (-(FREE_LIST_ID : Int))) (by omega)
  obtain ⟨s5, e5, l5, b5, c5, st5⟩ := trie_set_base_spec s4 FREE_LIST_ID
    (to_int32 (-(k : Int))) (by unfold FREE_LIST_ID; omega)
  have hc1 : ∀ j, check_at { self with nodes := (self.nodes ++
        extend_cells (k + 1 - self.nodes.length) self.nodes.length) } j =
      if j < self.nodes.length then check_at self j
      else if j < k + 1 then some (-((j : Int) + 1)) else none := by
    intro j
    unfold check_at
    dsimp only
    rw [nodes_append_extend_cells]
    have e : self.nodes.length + (k + 1 - self.nodes.length) = k + 1 := by omega
    rw [e]
    split_ifs with h1 h2
    · rfl
    · simp only [Option.map_some']
      rw [to_int32_of_range _ (by omega) (by omega)]
    · rfl
  have hb1 : ∀ j, base_at { self with nodes := (self.nodes ++
        extend_cells (k + 1 - self.nodes.length) self.nodes.length) } j =
      if j < self.nodes.length then base_at self j
      else if j < k + 1 then some (-((j : Int) - 1)) else none := by
    intro j
    unfold base_at
    dsimp only
    rw [nodes_append_extend_cells]
    have e : self.nodes.length + (k + 1 - self.nodes.length) = k + 1 := by omega
    rw [e]
    split_ifs with h1 h2
    · rfl
    · simp only [Option.map_some']
      rw [to_int32_of_range _ (by omega) (by omega)]
    · rfl
  refine ⟨s5, ?_, by omega, same_store_trans (same_store_trans (same_store_trans
    (same_store_trans ⟨rfl, rfl, rfl⟩ st2) st3) st4) st5, ?_, ?_⟩
  · unfold trie_extend
    rw [if_neg (by omega), if_neg (by omega)]
    dsimp only
    rw [hcnt]
    simp only [bind, Except.bind, hfl]
    rw [hft]
    simp only [e2, e3, e4, e5, pure, Except.pure]
  · intro j
    have v1 : to_int32 (-(self.nodes.length : Int)) = -(self.nodes.length : Int) :=
      to_int32_neg_nat _ (by omega)
    have v3 : to_int32 (-(FREE_LIST_ID : Int)) = -1 := rfl
    rw [c5, c4, c3, c2, hc1, v1, v3]
  · intro j
    have v2 : to_int32 (-(last : Int)) = -(last : Int) := to_int32_neg_nat _ (by omega)
    have v4 : to_int32 (-(k : Int)) = -(k : Int) := to_int32_neg_nat _ (by omega)
    rw [b5, b4, b3, b2, hb1, v2, v4]

/-! ### The free list: chains -/

theorem free_chain_lt (self : trie_t) (L : List Nat) :
    ∀ a, free_chain self a L → ∀ x ∈ L, a < x := by
  induction L with
  | nil => intro a _ x hx; cases hx
  | cons b rest ih =>
    intro a h x hx
    obtain ⟨hab, _, hr⟩ := h
    rcases List.mem_cons.mp hx with rfl | hx
    · exact hab
    · exact Nat.lt_trans hab (ih b hr x hx)

theorem check_at_lt (self : trie_t) (i : Nat) (c : Int) (h : check_at self i = some c) :
    i < self.nodes.length := by
  unfold check_at at h
  by_contra hn
  rw [List.get?_eq_none.mpr (by omega)] at h
  cases h

theorem free_chain_bound (self : trie_t) (L : List Nat) :
    ∀ a, free_chain self a L → ∀ x ∈ a :: L, x < self.nodes.length := by
  induction L with
  | nil =>
    intro a h x hx
    rcases List.mem_cons.mp hx with rfl | hx
    · exact check_at_lt self _ _ h.1
    · cases hx
  | cons b rest ih =>
    intro a h x hx
    obtain ⟨_, hl, hr⟩ := h
    rcases List.mem_cons.mp hx with rfl | hx
    · exact check_at_lt self _ _ hl.1
    · exact ih b hr x hx

theorem free_list_last_mem (L : List Nat) : ∀ a, free_list_last a L ∈ a :: L := by
  induction L with
  | nil => intro a; simp [free_list_last]
  | cons b rest ih =>
    intro a
    exact List.mem_cons_of_mem _ (ih b)

theorem free_list_last_ge (self : trie_t) (L : List Nat) :
    ∀ a, free_chain self a L → a ≤ free_list_last a L := by
  intro a h
  rcases List.mem_cons.mp (free_list_last_mem L a) with e | hx
  · omega
  · exact Nat.le_of_lt (free_chain_lt self L a h _ hx)

/-- The head of the free list has the base `-last`. -/
theorem free_chain_last (self : trie_t) (L : List Nat) :
    ∀ a, free_chain self a L → base_at self FREE_LIST_ID = some (-(free_list_last a L : Int)) := by
  induction L with
  | nil => intro a h; exact h.2
  | cons b rest ih => intro a h; exact ih b h.2.2

/-- Every cell of the walk has as `check` the negated index of the next cell of the walk, which
is a later cell of the list, or the head when the cell is the last one. -/
theorem free_chain_next (self : trie_t) (L : List Nat) :
    ∀ a, free_chain self a L → ∀ x ∈ a :: L, ∃ y : Nat, check_at self x = some (-(y : Int)) ∧
      ((y ∈ L ∧ x < y) ∨ (y = FREE_LIST_ID ∧ x = free_list_last a L)) := by
  induction L with
  | nil =>
    intro a h x hx
    rcases List.mem_cons.mp hx with rfl | hx
    · exact ⟨FREE_LIST_ID, h.1, Or.inr ⟨rfl, rfl⟩⟩
    · cases hx
  | cons b rest ih =>
    intro a h x hx
    obtain ⟨hab, hl, hr⟩ := h
    rcases List.mem_cons.mp hx with rfl | hx
    · exact ⟨b, hl.1, Or.inl ⟨List.mem_cons_self _ _, hab⟩⟩
    · obtain ⟨y, hy, hcase⟩ := ih b hr x hx
      refine ⟨y, hy, ?_⟩
      rcases hcase with ⟨hm, hlt⟩ | ⟨h1, h2⟩
      · exact Or.inl ⟨List.mem_cons_of_mem _ hm, hlt⟩
      · exact Or.inr ⟨h1, h2⟩

/-- The walk in a store that got new cells behind the last cell of the old walk. -/
theorem free_chain_extend (self self1 : trie_t) (n last : Nat) (M : List Nat)
    (hc : ∀ j, j < n → j ≠ last → check_at self1 j = check_at self j)
    (hb : ∀ j, j < n → j ≠ FREE_LIST_ID → base_at self1 j = base_at self j)
    (hlast : check_at self1 last = some (-(n : Int)))
    (hbn : base_at self1 n = some (-(last : Int)))
    (hM : free_chain self1 n M) (L : List Nat) :
    ∀ a, 1 ≤ a → free_list_last a L = last → (∀ x ∈ a :: L, x < n) → free_chain self a L →
      free_chain self1 a (L ++ n :: M) := by
  induction L with
  | nil =>
    intro a _ hl hlt _
    have ha : a = last := hl
    subst ha
    exact ⟨hlt a (List.mem_cons_self _ _), ⟨hlast, hbn⟩, hM⟩
  | cons b rest ih =>
    intro a ha hl hlt h
    obtain ⟨hab, hlk, hr⟩ := h
    have hbl : b ≤ last := hl ▸ free_list_last_ge self rest b hr
    refine ⟨hab, ⟨?_, ?_⟩, ih b (by omega) hl (fun x hx => hlt x (List.mem_cons_of_mem _ hx)) hr⟩
    · rw [hc a (hlt a (List.mem_cons_self _ _)) (by omega)]
      exact hlk.1
    · rw [hb b (hlt b (List.mem_cons_of_mem _ (List.mem_cons_self _ _)))
        (by unfold FREE_LIST_ID; omega)]
      exact hlk.2

/-- The walk over the cells that `trie_extend` pushed. -/
theorem free_chain_new (self1 : trie_t) (n k : Nat)
    (hck : ∀ j, n ≤ j → j < k → check_at self1 j = some (-((j : Int) + 1)))
    (hbs : ∀ j, n < j → j ≤ k → base_at self1 j = some (-((j : Int) - 1)))
    (hk : check_at self1 k = some (-1))
    (hb1 : base_at self1 FREE_LIST_ID = some (-(k : Int))) :
    ∀ c j, n ≤ j → j + c = k → free_chain self1 j (List.range' (j + 1) c) := by
  intro c
  induction c with
  | zero =>
    intro j _ hj
    have e : j = k := by omega
    subst e
    exact ⟨hk, hb1⟩
  | succ c ih =>
    intro j hnj hj
    rw [List.range'_succ]
    refine ⟨Nat.lt_succ_self j, ⟨?_, ?_⟩, ih (j + 1) (by omega) (by omega)⟩
    · rw [hck j hnj (by omega)]
      push_cast
      rfl
    · rw [hbs (j + 1) (by omega) (by omega)]
      push_cast
      congr 1
      omega

/-- A cell from `ROOT_ID` on is free for `trie_get_node` and `trie_node_is_free` exactly when
its `check` field is negative. -/
theorem is_free_iff (self : trie_t) (i : Nat) (h2 : ROOT_ID ≤ i) (hi : i < self.nodes.length) :
    trie_node_is_free (trie_get_node self i) = true ↔ ∃ c, check_at self i = some c ∧ c < 0 := by
  unfold trie_node_is_free trie_get_node check_at
  rw [if_neg (by omega)]
  have hg : self.nodes.get? i = some (self.nodes.get ⟨i, hi⟩) := List.get?_eq_get hi
  have hd : self.nodes.getD i self.null_node = self.nodes.get ⟨i, hi⟩ := by
    rw [List.getD_eq_getElem?_getD, ← List.get?_eq_getElem?, hg]
    rfl
  rw [hg, hd]
  simp

theorem cell_eq_of_fields (a b : trie_t) (j : Nat) (hc : check_at b j = check_at a j)
    (hb : base_at b j = base_at a j) : b.nodes.get? j = a.nodes.get? j := by
  unfold check_at at hc
  unfold base_at at hb
  cases ha : a.nodes.get? j with
  | none =>
    rw [ha] at hc
    cases hb1 : b.nodes.get? j with
    | none => rfl
    | some y => rw [hb1] at hc; cases hc
  | some x =>
    rw [ha] at hc hb
    cases hb1 : b.nodes.get? j with
    | none => rw [hb1] at hc; cases hc
    | some y =>
      rw [hb1] at hc hb
      have h1 : y.check = x.check := Option.some.inj hc
      have h2 : y.base = x.base := Option.some.inj hb
      cases x
      cases y
      simp only at h1 h2
      rw [h1, h2]

/-- `trie_extend` beyond the end of the store of a trie with a well-formed free list `L`: the
call returns `true`, the store has the cells up to `to_index`, the free list is `L` followed by
the new cells, and of the old cells only the `check` of the last free cell and the `base` of the
head are written. -/
theorem trie_extend_free_list (max_index : Nat) (self : trie_t) (L : List Nat) (k : Nat)
    (hwf : free_list_is self L) (hm : max_index ≤ 2147483648) (hk : self.nodes.length ≤ k)
    (hmax : k < max_index) :
    ∃ self1, trie_extend max_index self k = .ok (true, self1) ∧
      self1.nodes.length = k + 1 ∧ same_store self self1 ∧
      free_list_is self1 (L ++ List.range' self.nodes.length (k + 1 - self.nodes.length)) ∧
      (∀ j, j < self.nodes.length → j ≠ free_list_last FREE_LIST_ID L →
        check_at self1 j = check_at self j) ∧
      (∀ j, j < self.nodes.length → j ≠ FREE_LIST_ID → base_at self1 j = base_at self j) := by
  obtain ⟨hnull, hlen, h0, hchain, hex⟩ := hwf
  have hbound := free_chain_bound self L _ hchain
  have h1n : FREE_LIST_ID < self.nodes.length := hbound _ (List.mem_cons_self _ _)
  have hF : FREE_LIST_ID = 1 := rfl
  have hl : free_list_last FREE_LIST_ID L < self.nodes.length :=
    hbound _ (free_list_last_mem L _)
  have hl1 : 1 ≤ free_list_last FREE_LIST_ID L := by
    have := free_list_last_ge self L _ hchain
    omega
  obtain ⟨self1, he, hlen1, hst, hc, hb⟩ := trie_extend_spec max_index self k
    (free_list_last FREE_LIST_ID L) (by omega) hk hmax hm (free_chain_last self L _ hchain) hl
  have hcold : ∀ j, j < self.nodes.length → j ≠ free_list_last FREE_LIST_ID L →
      check_at self1 j = check_at self j := by
    intro j hj hjl
    rw [hc, if_neg (by omega), if_neg hjl, if_pos hj]
  have hbold : ∀ j, j < self.nodes.length → j ≠ FREE_LIST_ID → base_at self1 j = base_at self j := by
    intro j hj hj1
    rw [hb, if_neg hj1, if_neg (by omega), if_pos hj]
  refine ⟨self1, he, hlen1, hst, ⟨?_, by omega, ?_, ?_, ?_⟩, hcold, hbold⟩
  · have ht := hst.2.2
    unfold tables at ht
    have := (Prod.mk.inj (Prod.mk.inj ht).2).1
    rw [this, hnull]
  · have e := cell_eq_of_fields self self1 NULL_ID
      (by rw [hc, if_neg (by unfold NULL_ID; omega), if_neg (by unfold NULL_ID; omega),
            if_pos (by unfold NULL_ID; omega)])
      (by rw [hb, if_neg (by unfold NULL_ID; omega), if_neg (by unfold NULL_ID; omega),
            if_pos (by unfold NULL_ID; omega)])
    rw [e, h0]
  · have e : k + 1 - self.nodes.length = (k - self.nodes.length) + 1 := by omega
    rw [e, List.range'_succ]
    refine free_chain_extend self self1 self.nodes.length (free_list_last FREE_LIST_ID L)
      (List.range' (self.nodes.length + 1) (k - self.nodes.length)) hcold hbold ?_ ?_ ?_ L
      FREE_LIST_ID (by omega) rfl hbound hchain
    · rw [hc, if_neg (by omega), if_pos rfl]
    · rw [hb, if_neg (by omega), if_pos rfl]
    · refine free_chain_new self1 self.nodes.length k ?_ ?_ ?_ ?_ (k - self.nodes.length)
        self.nodes.length (Nat.le_refl _) (by omega)
      · intro j h1 h2
        rw [hc, if_neg (by omega), if_neg (by omega), if_neg (by omega), if_pos (by omega)]
      · intro j h1 h2
        rw [hb, if_neg (by omega), if_neg (by omega), if_neg (by omega), if_pos (by omega)]
      · rw [hc, if_pos rfl]
      · rw [hb, if_pos rfl]
  · intro i hi h2
    have hR : ROOT_ID = 2 := rfl
    rw [is_free_iff self1 i h2 (by omega), List.mem_append, List.mem_range']
    by_cases hin : i < self.nodes.length
    · rw [← hex i hin h2, is_free_iff self i h2 hin]
      by_cases hil : i = free_list_last FREE_LIST_ID L
      · have hmem : i ∈ L := by
          rcases List.mem_cons.mp (free_list_last_mem L FREE_LIST_ID) with e | hx
          · omega
          · rw [hil]; exact hx
        have hfree := (is_free_iff self i h2 hin).mp ((hex i hin h2).mpr hmem)
        constructor
        · intro _
          exact Or.inl hfree
        · intro _
          refine ⟨-(self.nodes.length : Int), ?_, by omega⟩
          rw [hc, if_neg (by omega), if_pos hil]
      · rw [hcold i hin hil]
        constructor
        · intro h
          exact Or.inl h
        · rintro (h | ⟨x, hx, hix⟩)
          · exact h
          · omega
    · constructor
      · intro _
        exact Or.inr ⟨i - self.nodes.length, by omega, by omega⟩
      · intro _
        by_cases hik : i = k
        · exact ⟨-1, by rw [hc, if_pos hik], by omega⟩
        · refine ⟨-((i : Int) + 1), ?_, by omega⟩
          rw [hc, if_neg hik, if_neg (by omega), if_neg hin, if_pos (by omega)]

/-! ### C18: `trie_extend` -/

/-- C18: for a trie whose free list is well formed and consists of the cells `L`, and an index
limit of at most `2^31 - 1`: (1) for `len ≤ to_index < TRIE_MAX_INDEX`, `trie_extend(to_index)`
returns `true`, the node store then has `to_index + 1` cells, every old cell from `ROOT_ID` on
that is not free is the same cell as before, the parts of the trie outside the node store are
the same, and the free list is well formed and consists of `L` followed by `len`, `len + 1`,
..., `to_index`; (2) for `0 < to_index < len` the trie after the call is the trie before it;
(3) for `to_index ≥ TRIE_MAX_INDEX` the call returns `false` and the trie is the one before
it. -/
theorem trie_extend_postcondition (max_index : Nat) (self : trie_t) (L : List Nat)
    (to_index : Nat) (hwf : free_list_is self L) (hmax : max_index ≤ TRIE_MAX_INDEX_DEFAULT) :
    (self.nodes.length ≤ to_index → to_index < max_index →
      ∃ self1, trie_extend max_index self to_index = .ok (true, self1) ∧
        self1.nodes.length = to_index + 1 ∧
        (∀ i < self.nodes.length, ROOT_ID ≤ i → i ∉ L →
          self1.nodes.get? i = self.nodes.get? i) ∧
        same_store self self1 ∧
        free_list_is self1
          (L ++ List.range' self.nodes.length (to_index + 1 - self.nodes.length))) ∧
    (0 < to_index → to_index < self.nodes.length →
      trie_extend max_index self to_index = .ok (decide (to_index < max_index), self)) ∧
    (max_index ≤ to_index → trie_extend max_index self to_index = .ok (false, self)) := by
  have hm : max_index ≤ 2147483648 := by
    unfold TRIE_MAX_INDEX_DEFAULT at hmax
    omega
  refine ⟨?_, ?_, ?_⟩
  · intro hk hlt
    obtain ⟨self1, he, hlen, hst, hwf1, hc, hb⟩ :=
      trie_extend_free_list max_index self L to_index hwf hm hk hlt
    refine ⟨self1, he, hlen, ?_, hst, hwf1⟩
    intro i hi h2 hnot
    have hR : ROOT_ID = 2 := rfl
    have hF : FREE_LIST_ID = 1 := rfl
    have hil : i ≠ free_list_last FREE_LIST_ID L := by
      intro e
      rcases List.mem_cons.mp (free_list_last_mem L FREE_LIST_ID) with e1 | hx
      · omega
      · exact hnot (e ▸ hx)
    exact cell_eq_of_fields self self1 i (hc i hi hil) (hb i hi (by omega))
  · intro h0 hlt
    unfold trie_extend
    by_cases h : to_index < max_index
    · rw [if_neg (by omega), if_pos hlt]
      simp [h]
    · rw [if_pos (by omega)]
      simp [h]
  · intro h
    unfold trie_extend
    rw [if_pos (Or.inr h)]

/-- C18 at a concrete input: the fresh trie over {NUL, a} has three cells and an empty free
list; `trie_extend(5)` makes the free list 3, 4, 5. -/
theorem trie_extend_postcondition_witness :
    free_list_is (trie_new [0, 97] (fun _ => 0)) [] ∧
      ∃ self1, trie_extend TRIE_MAX_INDEX_DEFAULT (trie_new [0, 97] (fun _ => 0)) 5 =
          .ok (true, self1) ∧
        self1.nodes.length = 6 ∧ free_list_is self1 [3, 4, 5] := by
  have hwf : free_list_is (trie_new [0, 97] (fun _ => 0)) [] :=
    ⟨rfl, by decide, rfl, ⟨rfl, rfl⟩, by decide⟩
  obtain ⟨self1, he, hlen, _, _, hwf1⟩ :=
    (trie_extend_postcondition TRIE_MAX_INDEX_DEFAULT (trie_new [0, 97] (fun _ => 0)) [] 5 hwf
      (Nat.le_refl _)).1 (by decide) (by decide)
  exact ⟨hwf, self1, he, hlen, hwf1⟩

/-! ### The free list: the walks of `trie_find_new_base` -/

theorem trie_get_node_of_check (self : trie_t) (i : Nat) (c : Int) (h2 : ROOT_ID ≤ i)
    (h : check_at self i = some c) : (trie_get_node self i).check = c := by
  have hi := check_at_lt self i c h
  unfold trie_get_node
  rw [if_neg (by omega)]
  unfold check_at at h
  have hg : self.nodes.get? i = some (self.nodes.get ⟨i, hi⟩) := List.get?_eq_get hi
  rw [hg] at h
  rw [List.getD_eq_getElem?_getD, ← List.get?_eq_getElem?, hg]
  exact Option.some.inj h

theorem trie_get_node_low (self : trie_t) (i : Nat) (h : i < ROOT_ID) :
    trie_get_node self i = self.null_node := by
  unfold trie_get_node
  rw [if_pos (Or.inr h)]

theorem to_uint32_neg_neg (y : Nat) (h : y < 4294967296) : to_uint32 (-(-(y : Int))) = y := by
  rw [neg_neg]
  exact to_uint32_nat y h

/-- A cell of the free list: it lies in the store from `ROOT_ID` on, and its `check` is the
negated index of the next cell of the list, or of the head when it is the last cell. -/
theorem free_list_next (self : trie_t) (L : List Nat) (hwf : free_list_is self L) (x : Nat)
    (hx : x ∈ L) :
    ROOT_ID ≤ x ∧ x < self.nodes.length ∧ ∃ y : Nat,
      (trie_get_node self x).check = -(y : Int) ∧ to_uint32 (-(trie_get_node self x).check) = y ∧
      ((y ∈ L ∧ x < y) ∨ (y = FREE_LIST_ID ∧ x = free_list_last FREE_LIST_ID L)) := by
  obtain ⟨_, hlen, _, hchain, _⟩ := hwf
  have h1 : FREE_LIST_ID < x := free_chain_lt self L _ hchain x hx
  have hR : ROOT_ID = 2 := rfl
  have hF : FREE_LIST_ID = 1 := rfl
  have hb := free_chain_bound self L _ hchain
  have hxl : x < self.nodes.length := hb x (List.mem_cons_of_mem _ hx)
  obtain ⟨y, hy, hcase⟩ := free_chain_next self L _ hchain x (List.mem_cons_of_mem _ hx)
  have hc := trie_get_node_of_check self x _ (by omega) hy
  have hyl : y < 4294967296 := by
    rcases hcase with ⟨hm, _⟩ | ⟨h1, _⟩
    · have := hb y (List.mem_cons_of_mem _ hm)
      omega
    · omega
  refine ⟨by omega, hxl, y, hc, ?_, hcase⟩
  rw [hc]
  exact to_uint32_neg_neg y hyl

/-- The head of a well-formed free list: its `check` is the negated index of the first cell of
the list, or of the head itself when the list is empty. -/
theorem free_list_head (self : trie_t) (L : List Nat) (hwf : free_list_is self L) :
    ∃ head, trie_get_free_list self = .ok head ∧ ∃ y : Nat,
      to_uint32 (-head.check) = y ∧ (y ∈ L ∨ y = FREE_LIST_ID) := by
  obtain ⟨_, hlen, _, hchain, _⟩ := hwf
  have hb := free_chain_bound self L _ hchain
  obtain ⟨y, hy, hcase⟩ := free_chain_next self L _ hchain FREE_LIST_ID (List.mem_cons_self _ _)
  have hF : FREE_LIST_ID = 1 := rfl
  have hyl : y < 4294967296 := by
    rcases hcase with ⟨hm, _⟩ | ⟨h1, _⟩
    · have := hb y (List.mem_cons_of_mem _ hm)
      omega
    · omega
  unfold check_at at hy
  cases hg : self.nodes.get? FREE_LIST_ID with
  | none => rw [hg] at hy; cases hy
  | some head =>
    rw [hg] at hy
    have hc : head.check = -(y : Int) := Option.some.inj hy
    refine ⟨head, ?_, y, ?_, ?_⟩
    · unfold trie_get_free_list node_at
      rw [hg]
    · rw [hc]
      exact to_uint32_neg_neg y hyl
    · rcases hcase with ⟨hm, _⟩ | ⟨h1, _⟩
      · exact Or.inl hm
      · exact Or.inr h1

/-- The first loop of `trie_find_new_base` on a well-formed free list ends at the head or at a
cell of the list that is not below the limit. -/
theorem find_base_skip_spec (self : trie_t) (L : List Nat) (limit : Nat)
    (hwf : free_list_is self L) :
    ∀ fuel index r, (index ∈ L ∨ index = FREE_LIST_ID) →
      find_base_skip self limit fuel index = .ok r →
      (r = FREE_LIST_ID ∨ (r ∈ L ∧ limit ≤ r)) := by
  intro fuel
  induction fuel with
  | zero => intro index r _ h; cases h
  | succ k ih =>
    intro index r hidx h
    unfold find_base_skip at h
    by_cases hc : index ≠ FREE_LIST_ID ∧ index < limit
    · rw [if_pos hc] at h
      have hmem : index ∈ L := by
        rcases hidx with hm | e
        · exact hm
        · exact absurd e hc.1
      obtain ⟨_, _, y, _, hy, hcase⟩ := free_list_next self L hwf index hmem
      rw [hy] at h
      refine ih y r ?_ h
      rcases hcase with ⟨hm, _⟩ | ⟨h1, _⟩
      · exact Or.inl hm
      · exact Or.inr h1
    · rw [if_neg hc] at h
      have e : index = r := Except.ok.inj h
      subst e
      rcases hidx with hm | e
      · by_cases h1 : index = FREE_LIST_ID
        · exact Or.inl h1
        · exact Or.inr ⟨hm, by
            by_contra hlt
            exact hc ⟨h1, by omega⟩⟩
      · exact Or.inl e

theorem free_list_grown_refl (self : trie_t) (L : List Nat) (hwf : free_list_is self L) :
    free_list_grown self self L [] := by
  refine ⟨?_, ?_, Nat.le_refl _, same_store_refl self, fun _ _ _ _ => rfl⟩
  · rw [List.append_nil]
    exact hwf
  · intro x hx
    cases hx

theorem free_list_grown_trans (a b c : trie_t) (L M N : List Nat)
    (h1 : free_list_grown a b L M) (h2 : free_list_grown b c (L ++ M) N) :
    free_list_grown a c L (M ++ N) := by
  obtain ⟨_, hM, hl1, hs1, hk1⟩ := h1
  obtain ⟨hwf2, hN, hl2, hs2, hk2⟩ := h2
  refine ⟨?_, ?_, by omega, same_store_trans hs1 hs2, ?_⟩
  · rw [← List.append_assoc]
    exact hwf2
  · intro x hx
    rcases List.mem_append.mp hx with h | h
    · exact hM x h
    · have := hN x h
      omega
  · intro i hi h2 hnot
    rw [hk2 i (by omega) h2 ?_, hk1 i hi h2 hnot]
    intro hmem
    rcases List.mem_append.mp hmem with h | h
    · exact hnot h
    · have := hM i h
      omega

theorem free_list_last_max (self : trie_t) (L : List Nat) :
    ∀ a, free_chain self a L → ∀ x ∈ a :: L, x ≤ free_list_last a L := by
  induction L with
  | nil =>
    intro a _ x hx
    rcases List.mem_cons.mp hx with rfl | hx
    · exact Nat.le_refl _
    · cases hx
  | cons b rest ih =>
    intro a h x hx
    obtain ⟨hab, _, hr⟩ := h
    have hb := ih b hr b (List.mem_cons_self _ _)
    rcases List.mem_cons.mp hx with rfl | hx
    · exact Nat.le_of_lt (Nat.lt_of_lt_of_le hab hb)
    · exact ih b hr x hx

/-- The three outcomes of `trie_extend` on a trie with a well-formed free list: it fails and
leaves the trie, or the index is inside the store and it leaves the trie, or it appends free
cells up to the index. -/
theorem trie_extend_cases (max_index : Nat) (self : trie_t) (L : List Nat) (k : Nat)
    (hwf : free_list_is self L) (hm : max_index ≤ 2147483648) (b : Bool) (self1 : trie_t)
    (h : trie_extend max_index self k = .ok (b, self1)) :
    (b = false ∧ self1 = self) ∨ (b = true ∧ self1 = self ∧ k < self.nodes.length) ∨
      (b = true ∧ self.nodes.length ≤ k ∧ k < self1.nodes.length ∧
        free_list_grown self self1 L
          (List.range' self.nodes.length (k + 1 - self.nodes.length))) := by
  by_cases h1 : k ≤ 0 ∨ max_index ≤ k
  · unfold trie_extend at h
    rw [if_pos h1] at h
    have e := Except.ok.inj h
    exact Or.inl ⟨(Prod.mk.inj e).1.symm, (Prod.mk.inj e).2.symm⟩
  · by_cases h2 : k < self.nodes.length
    · unfold trie_extend at h
      rw [if_neg h1, if_pos h2] at h
      have e := Except.ok.inj h
      exact Or.inr (Or.inl ⟨(Prod.mk.inj e).1.symm, (Prod.mk.inj e).2.symm, h2⟩)
    · obtain ⟨s, he, hlen, hst, hwf1, hc, hb⟩ :=
        trie_extend_free_list max_index self L k hwf hm (by omega) (by omega)
      rw [he] at h
      have e := Except.ok.inj h
      have e1 : s = self1 := (Prod.mk.inj e).2
      subst e1
      refine Or.inr (Or.inr ⟨(Prod.mk.inj e).1.symm, by omega, by omega, hwf1, ?_, by omega, hst,
        ?_⟩)
      · intro x hx
        exact (List.mem_range'_1.mp hx).1
      · intro i hi h2 hnot
        have hR : ROOT_ID = 2 := rfl
        have hF : FREE_LIST_ID = 1 := rfl
        have hil : i ≠ free_list_last FREE_LIST_ID L := by
          intro e
          rcases List.mem_cons.mp (free_list_last_mem L FREE_LIST_ID) with e1 | hx
          · omega
          · exact hnot (e ▸ hx)
        exact cell_eq_of_fields self s i (hc i hi hil) (hb i hi (by omega))

theorem trie_extend_true (max_index : Nat) (self : trie_t) (L : List Nat) (k : Nat)
    (hwf : free_list_is self L) (hm : max_index ≤ 2147483648) (self1 : trie_t)
    (h : trie_extend max_index self k = .ok (true, self1)) :
    ∃ M, free_list_grown self self1 L M ∧ k < self1.nodes.length := by
  rcases trie_extend_cases max_index self L k hwf hm true self1 h with
    ⟨hb, _⟩ | ⟨_, hs, hk⟩ | ⟨_, _, hk, hg⟩
  · cases hb
  · subst hs
    exact ⟨[], free_list_grown_refl self1 L hwf, hk⟩
  · exact ⟨_, hg, hk⟩

theorem free_list_mem_of_free (self : trie_t) (L : List Nat) (hwf : free_list_is self L)
    (i : Nat) (h2 : ROOT_ID ≤ i) (hi : i < self.nodes.length)
    (hc : (trie_get_node self i).check < 0) : i ∈ L := by
  refine (hwf.2.2.2.2 i hi h2).mp ?_
  unfold trie_node_is_free
  exact decide_eq_true hc

/-- The `for` loop of `trie_find_new_base` on a trie with a well-formed free list: when it
ends with an index, the trie has free cells appended and the index is a cell of its free list,
not below the start. -/
theorem find_base_extend_spec (max_index : Nat) (hm : max_index ≤ 2147483648) :
    ∀ fuel self L index r self1, free_list_is self L → ROOT_ID ≤ index →
      find_base_extend max_index fuel self index = .ok (some r, self1) →
      ∃ M, free_list_grown self self1 L M ∧ r ∈ L ++ M ∧ index ≤ r := by
  intro fuel
  induction fuel with
  | zero => intro self L index r self1 _ _ h; cases h
  | succ k ih =>
    intro self L index r self1 hwf h2 h
    unfold find_base_extend at h
    cases he : trie_extend max_index self index with
    | error e => rw [he] at h; cases h
    | ok p =>
      obtain ⟨b, s⟩ := p
      rw [he] at h
      cases b with
      | false => cases h
      | true =>
        dsimp only at h
        obtain ⟨M0, hg, hlt⟩ := trie_extend_true max_index self L index hwf hm s he
        by_cases hc : (trie_get_node s index).check < 0
        · rw [if_pos hc] at h
          have e := Prod.mk.inj (Except.ok.inj h)
          have e1 : index = r := Option.some.inj e.1
          have e2 : s = self1 := e.2
          subst e1 e2
          exact ⟨M0, hg, free_list_mem_of_free s _ hg.1 index h2 hlt hc, Nat.le_refl _⟩
        · rw [if_neg hc] at h
          have hl := hg.1.2.1
          rw [Nat.mod_eq_of_lt (by omega)] at h
          obtain ⟨N, hg1, hr, hle⟩ := ih s (L ++ M0) (index + 1) r self1 hg.1 (by omega) h
          refine ⟨M0 ++ N, free_list_grown_trans self s self1 L M0 N hg hg1, ?_, by omega⟩
          rw [← List.append_assoc]
          exact hr

theorem to_uint32_sub_add (i f : Nat) (hi : i < 4294967296) :
    (to_uint32 ((i : Int) - (f : Int)) + f) % 4294967296 = i := by
  unfold to_uint32
  omega

/-- The candidate base `index - first_char_index` never fits at an index below `ROOT_ID`: the
cell of the first transition is then the cell `index` itself, for which `trie_get_node` hands
out `NULL_NODE`. -/
theorem trie_can_fit_transitions_low (max_index : Nat) (self : trie_t) (c0 : UInt8)
    (rest : List UInt8) (index : Nat) (hnull : self.null_node = NULL_NODE)
    (hi : index < ROOT_ID) :
    trie_can_fit_transitions max_index self
      (to_uint32 ((index : Int) - (trie_get_char_index self c0 : Int))) (c0 :: rest) = false := by
  have hR : ROOT_ID = 2 := rfl
  unfold trie_can_fit_transitions
  rw [List.all_cons, to_uint32_sub_add index _ (by omega), trie_get_node_low self index hi, hnull]
  simp [trie_node_is_free, NULL_NODE]

/-- Once the search loop of `trie_find_new_base` is at an index below `ROOT_ID` it does not
end with an index. -/
theorem find_base_search_low (max_index : Nat) (self : trie_t) (c0 : UInt8) (rest : List UInt8)
    (hnull : self.null_node = NULL_NODE) :
    ∀ fuel index, index < ROOT_ID → ∀ r s,
      find_base_search max_index (trie_get_char_index self c0) (c0 :: rest) fuel self index ≠
        .ok (some r, s) := by
  intro fuel
  induction fuel with
  | zero => intro index _ r s h; cases h
  | succ k ih =>
    intro index hi r s h
    unfold find_base_search at h
    rw [trie_can_fit_transitions_low max_index self c0 rest index hnull hi] at h
    rw [trie_get_node_low self index hi, hnull] at h
    have e : ¬ (-NULL_NODE.check = (FREE_LIST_ID : Int)) := by decide
    have e1 : to_uint32 (-NULL_NODE.check) = 0 := rfl
    simp only [Bool.false_eq_true, if_false, e, e1] at h
    exact ih 0 (by decide) r s h

theorem same_store_char_index (a b : trie_t) (h : same_store a b) (c : UInt8) :
    trie_get_char_index b c = trie_get_char_index a c := by
  have ht := h.2.2
  unfold tables at ht
  unfold trie_get_char_index
  rw [(Prod.mk.inj ht).1]

/-- The search loop of `trie_find_new_base` on a trie with a well-formed free list, started at
a cell of the list: when it ends with an index, the trie has free cells appended, the index is
a cell of its free list not below the start, and the transitions fit at it. -/
theorem find_base_search_spec (max_index : Nat) (hm : max_index ≤ 2147483648) (c0 : UInt8)
    (rest : List UInt8) (fci : Nat) :
    ∀ fuel self L index r self1, free_list_is self L → fci = trie_get_char_index self c0 →
      index ∈ L → fci + 3 ≤ index →
      find_base_search max_index fci (c0 :: rest) fuel self index = .ok (some r, self1) →
      ∃ M, free_list_grown self self1 L M ∧ r ∈ L ++ M ∧ fci + 3 ≤ r ∧
        trie_can_fit_transitions max_index self1
          (to_uint32 ((r : Int) - (fci : Int))) (c0 :: rest) = true := by
  intro fuel
  induction fuel with
  | zero => intro self L index r self1 _ _ _ _ h; cases h
  | succ k ih =>
    intro self L index r self1 hwf hfci hmem hge h
    have hF : FREE_LIST_ID = 1 := rfl
    unfold find_base_search at h
    by_cases hfit : trie_can_fit_transitions max_index self
        (to_uint32 ((index : Int) - (fci : Int))) (c0 :: rest) = true
    · rw [if_pos hfit] at h
      have e := Prod.mk.inj (Except.ok.inj h)
      have e1 : index = r := Option.some.inj e.1
      have e2 : self = self1 := e.2
      subst e1 e2
      refine ⟨[], free_list_grown_refl self L hwf, ?_, hge, hfit⟩
      rw [List.append_nil]
      exact hmem
    · rw [if_neg hfit] at h
      obtain ⟨h2, hlt, y, hcy, huy, hcase⟩ := free_list_next self L hwf index hmem
      by_cases hlastc : -(trie_get_node self index).check = (FREE_LIST_ID : Int)
      · rw [if_pos hlastc] at h
        cases he : trie_extend max_index self
            ((self.nodes.length + self.alphabet_size) % 4294967296) with
        | error e => rw [he] at h; cases h
        | ok p =>
          obtain ⟨b, s⟩ := p
          rw [he] at h
          cases b with
          | false => cases h
          | true =>
            dsimp only at h
            rcases trie_extend_cases max_index self L _ hwf hm true s he with
              ⟨hb, _⟩ | ⟨_, hs, _⟩ | ⟨_, hk, _, hg⟩
            · cases hb
            · subst hs
              have hy1 : y = 1 := by
                rw [hcy, neg_neg] at hlastc
                have : (y : Int) = 1 := hlastc
                omega
              rw [huy, hy1, hfci] at h
              exact absurd h (find_base_search_low max_index s c0 rest hwf.1 k 1 (by decide) r
                self1)
            · have hmem1 : index ∈ L ++
                  List.range' self.nodes.length
                    ((self.nodes.length + self.alphabet_size) % 4294967296 + 1 -
                      self.nodes.length) :=
                List.mem_append_left _ hmem
              obtain ⟨_, _, y1, _, huy1, hcase1⟩ := free_list_next s _ hg.1 index hmem1
              rw [huy1] at h
              rcases hcase1 with ⟨hm1, hlt1⟩ | ⟨_, hlast⟩
              · obtain ⟨N, hg1, hr, hge1, hfit1⟩ := ih s _ y1 r self1 hg.1
                  (by rw [same_store_char_index self s hg.2.2.2.1]; exact hfci) hm1 (by omega) h
                refine ⟨_, free_list_grown_trans self s self1 L _ N hg hg1, ?_, hge1, hfit1⟩
                rw [← List.append_assoc]
                exact hr
              · have hin : self.nodes.length ∈ FREE_LIST_ID :: (L ++
                    List.range' self.nodes.length
                      ((self.nodes.length + self.alphabet_size) % 4294967296 + 1 -
                        self.nodes.length)) := by
                  refine List.mem_cons_of_mem _ (List.mem_append_right _ ?_)
                  rw [List.mem_range']
                  exact ⟨0, by omega, by omega⟩
                have := free_list_last_max s _ _ hg.1.2.2.2.1 _ hin
                omega
      · rw [if_neg hlastc] at h
        rw [huy] at h
        rcases hcase with ⟨hm1, hlt1⟩ | ⟨hy1, _⟩
        · exact ih self L y r self1 hwf hfci hm1 (by omega) h
        · exfalso
          apply hlastc
          rw [hcy, hy1]
          rfl

theorem trie_get_char_index_le (self : trie_t) (c : UInt8) :
    1 ≤ trie_get_char_index self c ∧ trie_get_char_index self c ≤ 256 := by
  unfold trie_get_char_index
  have := (self.alpha_map c).val.isLt
  have e : (self.alpha_map c).toNat = (self.alpha_map c).val.val := rfl
  rw [e]
  have hs : UInt8.size = 256 := rfl
  omega

/-- A cell that `trie_get_node` and `trie_node_is_free` find free lies in the store. -/
theorem free_cell_in_store (self : trie_t) (hnull : self.null_node = NULL_NODE) (j : Nat)
    (h : trie_node_is_free (trie_get_node self j) = true) : j < self.nodes.length := by
  by_contra hn
  unfold trie_get_node at h
  rw [if_pos (Or.inl (by omega)), hnull] at h
  revert h
  decide

/-- What `trie_can_fit_transitions` says about a base below `2^31`: the cell of every
transition lies in the store and is free. -/
theorem trie_can_fit_transitions_cells (max_index : Nat) (self : trie_t)
    (hnull : self.null_node = NULL_NODE) (b : Nat) (hb : b < 2147483648)
    (transitions : List UInt8)
    (h : trie_can_fit_transitions max_index self b transitions = true) :
    ∀ c ∈ transitions, b + trie_get_char_index self c < self.nodes.length ∧
      trie_node_is_free (trie_get_node self (b + trie_get_char_index self c)) = true := by
  intro c hc
  unfold trie_can_fit_transitions at h
  have h1 := List.all_eq_true.mp h c hc
  have hci := trie_get_char_index_le self c
  rw [Nat.mod_eq_of_lt (by omega)] at h1
  have h2 : trie_node_is_free (trie_get_node self (b + trie_get_char_index self c)) = true := by
    cases hf : trie_node_is_free (trie_get_node self (b + trie_get_char_index self c)) with
    | true => rfl
    | false => rw [hf] at h1; simp at h1
  exact ⟨free_cell_in_store self hnull _ h2, h2⟩

/-! ### C19: `trie_find_new_base` -/

/-- C19: for a trie whose free list is well formed and consists of the cells `L`, and an index
limit of at most `2^31 - 1`: when `trie_find_new_base` returns a value `b` other than
`TRIE_INDEX_ERROR`, then `b ≥ TRIE_POOL_BEGIN`; for every byte `c` of the transitions the index
`b + char_index(c)` lies in the node store after the call and is a free cell there; every cell
from `ROOT_ID` on that was not free before the call is the same cell after it; the parts of the
trie outside the node store are the same; and the free list after the call is well formed and
is `L` followed by cells behind the old end of the store. -/
theorem trie_find_new_base_postcondition (fuel max_index : Nat) (self : trie_t) (L : List Nat)
    (transitions : List UInt8) (b : Nat) (self1 : trie_t) (hwf : free_list_is self L)
    (hmax : max_index ≤ TRIE_MAX_INDEX_DEFAULT)
    (hret : trie_find_new_base fuel max_index self transitions = .ok (b, self1))
    (hb : b ≠ TRIE_INDEX_ERROR) :
    TRIE_POOL_BEGIN ≤ b ∧
      (∀ c ∈ transitions, b + trie_get_char_index self c < self1.nodes.length ∧
        trie_node_is_free (trie_get_node self1 (b + trie_get_char_index self c)) = true) ∧
      (∀ i < self.nodes.length, ROOT_ID ≤ i → i ∉ L →
        self1.nodes.get? i = self.nodes.get? i) ∧
      same_store self self1 ∧
      ∃ M, free_list_is self1 (L ++ M) ∧ ∀ x ∈ M, self.nodes.length ≤ x := by
  have hm : max_index ≤ 2147483648 := by
    unfold TRIE_MAX_INDEX_DEFAULT at hmax
    omega
  have hP : TRIE_POOL_BEGIN = 3 := rfl
  have hF : FREE_LIST_ID = 1 := rfl
  cases transitions with
  | nil => cases hret
  | cons c0 rest =>
    unfold trie_find_new_base at hret
    obtain ⟨head, hhead, y, hy, hyc⟩ := free_list_head self L hwf
    simp only [bind, Except.bind, hhead, hy] at hret
    cases hs : find_base_skip self (trie_get_char_index self c0 + TRIE_POOL_BEGIN) fuel y with
    | error e => rw [hs] at hret; cases hret
    | ok index =>
      rw [hs] at hret
      dsimp only at hret
      have hidx := find_base_skip_spec self L _ hwf fuel y index hyc hs
      have hstart : ∃ index1 s1 M1, free_list_grown self s1 L M1 ∧ index1 ∈ L ++ M1 ∧
          trie_get_char_index self c0 + 3 ≤ index1 ∧
          (if index = FREE_LIST_ID then
              find_base_extend max_index fuel self
                (trie_get_char_index self c0 + TRIE_POOL_BEGIN)
            else pure (some index, self)) = .ok (some index1, s1) := by
        by_cases h1 : index = FREE_LIST_ID
        · have hret1 := hret
          rw [if_pos h1] at hret1 ⊢
          cases hx : find_base_extend max_index fuel self
              (trie_get_char_index self c0 + TRIE_POOL_BEGIN) with
          | error e => rw [hx] at hret1; cases hret1
          | ok r1 =>
            obtain ⟨o, s1⟩ := r1
            rw [hx] at hret1
            cases o with
            | none =>
              dsimp only at hret1
              exact absurd (Prod.mk.inj (Except.ok.inj hret1)).1.symm hb
            | some index1 =>
              obtain ⟨M1, hg, hmem, hge⟩ := find_base_extend_spec max_index hm fuel self L _
                index1 s1 hwf (by unfold ROOT_ID; omega) hx
              exact ⟨index1, s1, M1, hg, hmem, by omega, rfl⟩
        · rw [if_neg h1]
          rcases hidx with e | ⟨hmem, hge⟩
          · exact absurd e h1
          · refine ⟨index, self, [], free_list_grown_refl self L hwf, ?_, by omega, rfl⟩
            rw [List.append_nil]
            exact hmem
      obtain ⟨index1, s1, M1, hg1, hmem1, hge1, hst⟩ := hstart
      rw [hst] at hret
      dsimp only at hret
      have hret1 := hret
      cases hx : find_base_search max_index (trie_get_char_index self c0) (c0 :: rest) fuel s1
          index1 with
      | error e => rw [hx] at hret1; cases hret1
      | ok r2 =>
        obtain ⟨o, s2⟩ := r2
        rw [hx] at hret1
        cases o with
        | none =>
          dsimp only at hret1
          exact absurd (Prod.mk.inj (Except.ok.inj hret1)).1.symm hb
        | some index2 =>
          dsimp only at hret1
          have e := Prod.mk.inj (Except.ok.inj hret1)
          have e2 : s2 = self1 := e.2
          subst e2
          obtain ⟨M2, hg2, hmem2, hge2, hfit⟩ := find_base_search_spec max_index hm c0 rest _
            fuel s1 (L ++ M1) index1 index2 s2 hg1.1
            (by rw [same_store_char_index self s1 hg1.2.2.2.1]) hmem1 hge1 hx
          have hg := free_list_grown_trans self s1 s2 L M1 M2 hg1 hg2
          have hi2 : index2 < s2.nodes.length :=
            free_chain_bound s2 _ _ hg2.1.2.2.2.1 index2 (List.mem_cons_of_mem _ hmem2)
          have hl2 := hg2.1.2.1
          have hbv : to_uint32 ((index2 : Int) - (trie_get_char_index self c0 : Int)) =
              index2 - trie_get_char_index self c0 := by
            unfold to_uint32
            omega
          rw [hbv] at hfit e
          have eb : index2 - trie_get_char_index self c0 = b := e.1
          rw [eb] at hfit
          refine ⟨by omega, ?_, hg.2.2.2.2, hg.2.2.2.1, M1 ++ M2, hg.1, hg.2.1⟩
          intro c hc
          have := trie_can_fit_transitions_cells max_index s2 hg2.1.1 b (by omega) _ hfit c hc
          rw [same_store_char_index self s2 hg.2.2.2.1] at this
          exact this

/-- C19 at a concrete input: on the fresh trie over {NUL, a}, whose free list is empty,
`trie_find_new_base` for the byte 'a' (char index 2) returns the base 3 and a trie in which the
cell 5 is free. -/
theorem trie_find_new_base_postcondition_witness :
    free_list_is (trie_new [0, 97] (fun _ => 0)) [] ∧
      ∃ self1, trie_find_new_base 4 TRIE_MAX_INDEX_DEFAULT (trie_new [0, 97] (fun _ => 0))
          [97] = .ok (3, self1) ∧
        TRIE_POOL_BEGIN ≤ 3 ∧ 3 + 2 < self1.nodes.length ∧
        trie_node_is_free (trie_get_node self1 (3 + 2)) = true := by
  have hwf : free_list_is (trie_new [0, 97] (fun _ => 0)) [] :=
    ⟨rfl, by decide, rfl, ⟨rfl, rfl⟩, by decide⟩
  have hret : trie_find_new_base 4 TRIE_MAX_INDEX_DEFAULT (trie_new [0, 97] (fun _ => 0))
      [97] = .ok (3, trie_or (trie_new [0, 97] (fun _ => 0))
        ((trie_find_new_base 4 TRIE_MAX_INDEX_DEFAULT (trie_new [0, 97] (fun _ => 0))
          [97]).map Prod.snd)) := rfl
  have h := trie_find_new_base_postcondition 4 TRIE_MAX_INDEX_DEFAULT
    (trie_new [0, 97] (fun _ => 0)) [] [97] 3 _ hwf (Nat.le_refl _) hret (by decide)
  exact ⟨hwf, _, hret, h.1, h.2.1 97 (List.mem_singleton_self _)⟩

/-! ### C20: `trie_relocate_base` -/

/-- C20 (the code at the failing input): over the alphabet {a, b, c}, with an `alpha_map`
allocated in memory that holds 7 everywhere, the char indices of NUL, a, b, c are 8, 1, 2, 3.
The trie after `trie_add("aa", 1)` and `trie_add("a", 2)` has a well-formed free list; its
node 4 has the base 4 and two children, the cell 5 on 'a' and the cell 12 on the terminator.
For the new base 5 the cells 6 and 13 are free.  `trie_relocate_base(4, 5)` moves the child on
'a' to the cell 6 and frees the cell 5, but the cell 13 does not get the child on the
terminator: it stays free, and the old cell 12 stays `(-2, 4)`. -/
theorem trie_relocate_base_leaves_terminator_child :
    trie_add_all 16 TRIE_MAX_INDEX_DEFAULT (trie_new [97, 98, 99] (fun _ => 7))
        [(c_str [97, 97], 1), (c_str [97], 2)] = .ok trie_aa_a_filled ∧
      trie_aa_a_filled.nodes =
        [⟨0, 0⟩, ⟨-15, -3⟩, ⟨3, 0⟩, ⟨-1, -6⟩, ⟨4, 2⟩, ⟨-1, 4⟩, ⟨-3, -7⟩, ⟨-6, -8⟩, ⟨-7, -9⟩,
          ⟨-8, -10⟩, ⟨-9, -11⟩, ⟨-10, -13⟩, ⟨-2, 4⟩, ⟨-11, -14⟩, ⟨-13, -15⟩, ⟨-14, -1⟩] ∧
      free_list_is trie_aa_a_filled [3, 6, 7, 8, 9, 10, 11, 13, 14, 15] ∧
      [0, 97, 98, 99].map (trie_get_char_index trie_aa_a_filled) = [8, 1, 2, 3] ∧
      (trie_relocate_base 16 TRIE_MAX_INDEX_DEFAULT trie_aa_a_filled 4 5).map trie_t.nodes =
        .ok [⟨0, 0⟩, ⟨-15, -3⟩, ⟨3, 0⟩, ⟨-1, -5⟩, ⟨5, 2⟩, ⟨-3, -7⟩, ⟨-1, 4⟩, ⟨-5, -8⟩, ⟨-7, -9⟩,
          ⟨-8, -10⟩, ⟨-9, -11⟩, ⟨-10, -13⟩, ⟨-2, 4⟩, ⟨-11, -14⟩, ⟨-13, -15⟩, ⟨-14, -1⟩] := by
  refine ⟨rfl, by decide, ⟨rfl, by decide, rfl, ?_, by decide⟩, by decide, rfl⟩
  simp only [free_chain, free_link, FREE_LIST_ID]
  decide

/-! ### C21: the split made by `trie_tail_merge` -/

/-- The example of the split: over the alphabet {a, b, c, d}, after `trie_add("abc", 9)` and
`trie_add("abd", 10)` the node 4 on 'a' has the base 3 and the one child 5 on 'b', and the node
5 has the base 3 and the two terminal children 6 on 'c' and 7 on 'd', with the data records
`(1, 9)` and `(4, 10)` and the stored tails "" and "". -/
theorem trie_add_abc_abd_split :
    (trie_add_all 16 TRIE_MAX_INDEX_DEFAULT (trie_new [97, 98, 99, 100] (fun _ => 0))
        [(c_str [97, 98, 99], 9), (c_str [97, 98, 100], 10)]).map
        (fun t => (t.nodes, t.tail, t.data)) =
      .ok ([⟨0, 0⟩, ⟨-11, -3⟩, ⟨3, 0⟩, ⟨-1, -8⟩, ⟨3, 2⟩, ⟨3, 4⟩, ⟨-1, 5⟩, ⟨-2, 5⟩, ⟨-3, -9⟩,
          ⟨-8, -10⟩, ⟨-9, -11⟩, ⟨-10, -1⟩], [0, 0, 99, 0, 0], [⟨0, 0⟩, ⟨1, 9⟩, ⟨4, 10⟩]) := rfl

/-- C21 (the code at the failing input): over the alphabet {a, b, c}, with a zero-filled
`alpha_map`, the trie after `trie_add("b", 1)` has the well-formed free list 3, 4, 6, 7, 8 and
the terminal 5 = `(-1, 2)` with the data index 1 and the stored tail "" (the byte 0 at the tail
offset 1).  `trie_tail_merge(5, "a", 2)` returns; the common prefix of "" and "a" has the
length 0, so the node 5 should get two terminal children, on the terminator with base -1 and on
'a' with the new data record 2.  In the trie after the call the node 5 is `(3, 2)`, its
transitions on the terminator and on 'a' both lead to the cell 4, the cell 4 = `(-2, 5)` is the
only cell with the check value 5, and no allocated cell has the base -1. -/
theorem trie_tail_merge_one_child_for_two :
    trie_add_all 16 TRIE_MAX_INDEX_DEFAULT (trie_new [97, 98, 99] (fun _ => 0))
        [(c_str [98], 1)] = .ok trie_b ∧
      trie_b.nodes =
        [⟨0, 0⟩, ⟨-8, -3⟩, ⟨3, 0⟩, ⟨-1, -4⟩, ⟨-3, -6⟩, ⟨-1, 2⟩, ⟨-4, -7⟩, ⟨-6, -8⟩, ⟨-7, -1⟩] ∧
      trie_b.tail = [0, 0] ∧ trie_b.data = [⟨0, 0⟩, ⟨1, 1⟩] ∧
      free_list_is trie_b [3, 4, 6, 7, 8] ∧
      (trie_tail_merge 16 TRIE_MAX_INDEX_DEFAULT trie_b 5 (c_str [97]) 2).map
          (fun t => (t.nodes, t.tail, t.data)) =
        .ok ([⟨0, 0⟩, ⟨-8, -3⟩, ⟨3, 0⟩, ⟨-1, -6⟩, ⟨-2, 5⟩, ⟨3, 2⟩, ⟨-3, -7⟩, ⟨-6, -8⟩,
            ⟨-7, -1⟩], [0, 0, 0], [⟨0, 0⟩, ⟨1, 1⟩, ⟨2, 2⟩]) ∧
      trie_get_transition_index trie_b ⟨3, 2⟩ 0 = 4 ∧
      trie_get_transition_index trie_b ⟨3, 2⟩ 97 = 4 := by
  refine ⟨rfl, by decide, by decide, by decide, ⟨rfl, by decide, rfl, ?_, by decide⟩, rfl,
    by decide, by decide⟩
  exact ⟨by decide, ⟨rfl, rfl⟩, by decide, ⟨rfl, rfl⟩, by decide, ⟨rfl, rfl⟩, by decide,
    ⟨rfl, rfl⟩, by decide, ⟨rfl, rfl⟩, ⟨rfl, rfl⟩⟩

/-! ### C22: `trie_add_transition` after a failed base allocation -/

/-- The result of `trie_add_transition` in a call on a node without a positive base whose base
allocation fails: the char index of the byte, which is not `TRIE_INDEX_ERROR`. -/
theorem trie_add_transition_no_base_index_error (fuel max_index : Nat) (self s : trie_t)
    (node_id : Nat) (c : UInt8) (hb : ¬ (trie_get_node self node_id).base > 0)
    (hf : trie_find_new_base fuel max_index self [c] = .ok (TRIE_INDEX_ERROR, s)) :
    returns (trie_add_transition fuel max_index self node_id c)
      (fun r => r.1 = trie_get_char_index self c ∧ r.1 ≠ TRIE_INDEX_ERROR) := by
  have hci : (TRIE_INDEX_ERROR + trie_get_char_index self c) % 4294967296 =
      trie_get_char_index self c := by
    have := UInt8.toNat_lt (self.alpha_map c)
    unfold TRIE_INDEX_ERROR trie_get_char_index
    omega
  have hne : trie_get_char_index self c ≠ TRIE_INDEX_ERROR := by
    unfold TRIE_INDEX_ERROR trie_get_char_index
    omega
  unfold trie_add_transition
  simp only [if_neg hb, hf]
  intro r hr
  simp only [bind, Except.bind] at hr
  split at hr
  · cases hr
  · split at hr
    · cases hr
    · split at hr
      · cases hr
      · simp only [pure, Except.pure] at hr
        cases hr
        exact ⟨hci, by rw [hci]; exact hne⟩

/-- The result of `trie_add_transition` in a call on a node with a positive base whose cell
for the byte is taken and whose base allocation for the relocation fails: the char index of
the byte, which is not `TRIE_INDEX_ERROR`. -/
theorem trie_add_transition_relocation_index_error (fuel max_index : Nat)
    (self self1 s : trie_t) (node_id : Nat) (c : UInt8)
    (hb : (trie_get_node self node_id).base > 0)
    (hroom : trie_make_room_for max_index self
      (to_uint32 ((trie_get_node self node_id).base + (trie_get_char_index self c : Int))) =
        .ok self1)
    (hchk : to_uint32 (trie_get_node self1
      (to_uint32 ((trie_get_node self node_id).base +
        (trie_get_char_index self c : Int)))).check ≠ node_id)
    (hcond : to_uint32 (trie_get_node self node_id).base >
        to_uint32 ((max_index : Int) - (trie_get_char_index self c : Int)) ∨
      trie_node_is_free (trie_get_node self1
        (to_uint32 ((trie_get_node self node_id).base +
          (trie_get_char_index self c : Int)))) = false)
    (hf : trie_find_new_base fuel max_index self1
      (trie_get_transition_chars self1 node_id ++ [c]) = .ok (TRIE_INDEX_ERROR, s)) :
    returns (trie_add_transition fuel max_index self node_id c)
      (fun r => r.1 = trie_get_char_index self c ∧ r.1 ≠ TRIE_INDEX_ERROR) := by
  have hci : (TRIE_INDEX_ERROR + trie_get_char_index self c) % 4294967296 =
      trie_get_char_index self c := by
    have := UInt8.toNat_lt (self.alpha_map c)
    unfold TRIE_INDEX_ERROR trie_get_char_index
    omega
  have hne : trie_get_char_index self c ≠ TRIE_INDEX_ERROR := by
    unfold TRIE_INDEX_ERROR trie_get_char_index
    omega
  unfold trie_add_transition
  simp only [if_pos hb, hroom, if_neg hchk, if_pos hcond]
  intro r hr
  split at hr
  · simp only [hf, bind, Except.bind] at hr
    split at hr
    · cases hr
    · split at hr
      · cases hr
      · split at hr
        · cases hr
        · simp only [pure, Except.pure] at hr
          cases hr
          exact ⟨hci, by rw [hci]; exact hne⟩
  · cases hr

/-- C22 (the code at the failing input): over the alphabet {a}, with the index limit
`TRIE_MAX_INDEX = 4`, on the trie made by `trie_new`: `trie_find_new_base` for the byte 'a'
returns `TRIE_INDEX_ERROR` and leaves the trie as it is (the cell 4 cannot be added), and
`trie_add_transition(ROOT_ID, 'a')`, which makes that call, returns 1, the char index of 'a',
not `TRIE_INDEX_ERROR`; after it the root is `(0, 0)` and the head of the free list is
`(-1, 2)`. -/
theorem trie_add_transition_hides_index_error :
    (trie_find_new_base 16 4 (trie_new [97] (fun _ => 0)) [97]).map
        (fun r => (r.1, r.2.nodes)) = .ok (TRIE_INDEX_ERROR, [⟨0, 0⟩, ⟨-1, -1⟩, ⟨3, 0⟩]) ∧
      (trie_add_transition 16 4 (trie_new [97] (fun _ => 0)) ROOT_ID 97).map
        (fun r => (r.1, r.2.nodes)) = .ok (1, [⟨0, 0⟩, ⟨-1, 2⟩, ⟨0, 0⟩]) ∧
      trie_get_char_index (trie_new [97] (fun _ => 0)) 97 = 1 ∧ TRIE_INDEX_ERROR = 0 := by
  exact ⟨rfl, rfl, rfl, rfl⟩

/-! ### C23: `trie_tail_merge` after a failed base allocation -/

/-- C23 (the code at the failing input): over the alphabet {NUL, a, b}, with the index limit
`TRIE_MAX_INDEX = 10`, the calls `trie_add("a", 1)`, `trie_add("bab", 2)`, `trie_add("aa", 3)`
return a trie with the well-formed free list 3, 4, 9, in which the node 6 = `(-2, 2)` is the
terminal of "bab" with the stored tail "ab".  In `trie_tail_merge(6, "a", 4)` the transition on
the common prefix 'a' is added as the node 9, and the base allocation for the transition of the
node 9 on the old suffix byte 'b' fails: `trie_find_new_base` returns `TRIE_INDEX_ERROR`.  The
call returns a trie that is not the one before the call: the node 6 is `(7, 2)` and not
`(-2, 2)`, the free list is empty, the data store has the new record `(6, 4)`, the tail bytes
at the old offset 2 are "" and not "ab"; `trie_get("bab", true)` returned 6 before the call and
returns 0 after it. -/
theorem trie_tail_merge_keeps_failed_split :
    trie_add_all 16 10 (trie_new [0, 97, 98] (fun _ => 0))
        [(c_str [97], 1), (c_str [98, 97, 98], 2), (c_str [97, 97], 3)] = .ok trie_a_bab_aa ∧
      (trie_a_bab_aa.nodes, trie_a_bab_aa.tail, trie_a_bab_aa.data) =
        ([⟨0, 0⟩, ⟨-9, -3⟩, ⟨3, 0⟩, ⟨-1, -4⟩, ⟨-3, -9⟩, ⟨6, 2⟩, ⟨-2, 2⟩, ⟨-1, 5⟩, ⟨-3, 5⟩,
          ⟨-4, -1⟩], [0, 0, 97, 98, 0, 0], [⟨0, 0⟩, ⟨1, 1⟩, ⟨2, 2⟩, ⟨5, 3⟩]) ∧
      free_list_is trie_a_bab_aa [3, 4, 9] ∧
      (trie_add_transition 16 10 trie_a_bab_aa 6 97).map Prod.fst = .ok 9 ∧
      (trie_add_transition 16 10 trie_a_bab_aa 6 97 >>= fun r =>
          trie_find_new_base 16 10 r.2 [98]).map Prod.fst = .ok TRIE_INDEX_ERROR ∧
      (trie_tail_merge 16 10 trie_a_bab_aa 6 (c_str [97]) 4).map
          (fun t => (t.nodes, t.tail, t.data)) =
        .ok ([⟨0, 0⟩, ⟨-1, -1⟩, ⟨3, 0⟩, ⟨-2, 9⟩, ⟨-4, 9⟩, ⟨6, 2⟩, ⟨7, 2⟩, ⟨-1, 5⟩, ⟨-3, 5⟩,
            ⟨3, 6⟩], [0, 0, 0, 98, 0, 0, 0], [⟨0, 0⟩, ⟨1, 1⟩, ⟨2, 2⟩, ⟨5, 3⟩, ⟨6, 4⟩]) ∧
      trie_get trie_a_bab_aa (c_str [98, 97, 98]) true = .ok 6 ∧
      (trie_tail_merge 16 10 trie_a_bab_aa 6 (c_str [97]) 4 >>= fun t =>
          trie_get t (c_str [98, 97, 98]) true) = .ok 0 := by
  refine ⟨rfl, by decide, ⟨rfl, by decide, rfl, ?_, by decide⟩, rfl, rfl, rfl, rfl, rfl⟩
  exact ⟨by decide, ⟨rfl, rfl⟩, by decide, ⟨rfl, rfl⟩, by decide, ⟨rfl, rfl⟩, ⟨rfl, rfl⟩⟩

/-! ### C24: the alphabet map -/

/-- The loop of `trie_new_empty` leaves the entries of the bytes outside the alphabet as the
allocated memory held them. -/
theorem fill_alpha_map_outside (cs : List UInt8) (i : Nat) (m : UInt8 → UInt8) (x : UInt8)
    (h : x ∉ cs) : fill_alpha_map cs i m x = m x := by
  induction cs generalizing i m with
  | nil => rfl
  | cons c cs ih =>
    unfold fill_alpha_map
    rw [ih (i + 1) _ (fun hx => h (List.mem_cons_of_mem _ hx))]
    have hne : x ≠ c := fun e => h (e ▸ List.mem_cons_self _ _)
    simp only [if_neg hne]

/-- The loop of `trie_new_empty` writes the position of every byte of an alphabet of distinct
bytes. -/
theorem fill_alpha_map_at (cs : List UInt8) (hnd : cs.Nodup) (i : Nat) (m : UInt8 → UInt8)
    (k : Nat) (hk : k < cs.length) :
    fill_alpha_map cs i m (cs.get ⟨k, hk⟩) = UInt8.ofNat (i + k) := by
  induction cs generalizing i m k with
  | nil => cases hk
  | cons c cs ih =>
    unfold fill_alpha_map
    cases k with
    | zero =>
      have hc : c ∉ cs := (List.nodup_cons.mp hnd).1
      show fill_alpha_map cs (i + 1) _ c = _
      rw [fill_alpha_map_outside cs (i + 1) _ c hc]
      simp only [if_true, Nat.add_zero]
    | succ k =>
      have hk1 : k < cs.length := Nat.lt_of_succ_lt_succ hk
      show fill_alpha_map cs (i + 1) _ (cs.get ⟨k, hk1⟩) = _
      rw [ih (List.nodup_cons.mp hnd).2 (i + 1) _ k hk1]
      congr 1
      omega

/-- Over an alphabet of at most 256 distinct bytes, the char index of the byte at the position
`k` of the alphabet is `k + 1`. -/
theorem trie_get_char_index_alphabet (alphabet : List UInt8) (mem : UInt8 → UInt8)
    (hnd : alphabet.Nodup) (hlen : alphabet.length ≤ 256) (k : Nat) (hk : k < alphabet.length) :
    trie_get_char_index (trie_new alphabet mem) (alphabet.get ⟨k, hk⟩) = k + 1 := by
  have e : (trie_new alphabet mem).alpha_map = fill_alpha_map alphabet 0 mem := rfl
  unfold trie_get_char_index
  rw [e, fill_alpha_map_at alphabet hnd 0 mem k hk, Nat.zero_add]
  have h : (UInt8.ofNat k).toNat = k % 256 := rfl
  rw [h, Nat.mod_eq_of_lt (by omega)]

/-- The char index of the terminator over an alphabet without the NUL byte: one more than the
content of the entry 0 of the allocated memory, which `trie_new` does not write. -/
theorem trie_get_char_index_terminator (alphabet : List UInt8) (mem : UInt8 → UInt8)
    (h0 : (0 : UInt8) ∉ alphabet) :
    trie_get_char_index (trie_new alphabet mem) 0 = (mem 0).toNat + 1 := by
  have e : (trie_new alphabet mem).alpha_map = fill_alpha_map alphabet 0 mem := rfl
  unfold trie_get_char_index
  rw [e, fill_alpha_map_outside alphabet 0 mem 0 h0]

/-- C24 (the code at the failing input): over the alphabet {a, b, c}, the char indices of 'a',
'b', 'c' are 1, 2, 3.  The terminator has the char index `alpha_map[0] + 1`, and `trie_new`
never writes `alpha_map[0]`: when the allocated memory holds 0 there, the terminator has the
char index 1 of 'a', and from the root the terminator and 'a' lead to the same cell 4; when it
holds 1 or 2, the char index of 'b' or 'c'; when it holds 7, the char index 8. -/
theorem trie_new_terminator_index_not_reserved :
    [97, 98, 99].map (trie_get_char_index (trie_new [97, 98, 99] (fun _ => 0))) = [1, 2, 3] ∧
      trie_get_char_index (trie_new [97, 98, 99] (fun _ => 0)) 0 = 1 ∧
      trie_get_transition_index (trie_new [97, 98, 99] (fun _ => 0)) ⟨3, 0⟩ 0 = 4 ∧
      trie_get_transition_index (trie_new [97, 98, 99] (fun _ => 0)) ⟨3, 0⟩ 97 = 4 ∧
      trie_get_char_index (trie_new [97, 98, 99] (fun _ => 1)) 0 =
        trie_get_char_index (trie_new [97, 98, 99] (fun _ => 1)) 98 ∧
      trie_get_char_index (trie_new [97, 98, 99] (fun _ => 2)) 0 =
        trie_get_char_index (trie_new [97, 98, 99] (fun _ => 2)) 99 ∧
      trie_get_char_index (trie_new [97, 98, 99] (fun _ => 7)) 0 = 8 := by
  exact ⟨by decide, by decide, by decide, by decide, by decide, by decide, by decide⟩

/-! ### The free cells: links in both directions -/

theorem list_cell_ge {chk : Nat → Option Int} {i : Nat} (h : list_cell chk i) : 2 ≤ i := h.1

theorem base_at_lt (self : trie_t) (i : Nat) (b : Int) (h : base_at self i = some b) :
    i < self.nodes.length := by
  unfold base_at at h
  by_contra hn
  rw [List.get?_eq_none.mpr (by omega)] at h
  cases h

theorem store_grown_mono {a b : trie_t} {lo hi lo1 hi1 : Nat} (h : store_grown a b lo hi)
    (hlo : lo1 ≤ lo) (hhi : hi ≤ hi1) : store_grown a b lo1 hi1 :=
  ⟨h.1, h.2.1, h.2.2.1, fun j hj hout => h.2.2.2 j hj (by omega)⟩

theorem path_not_small {t : trie_t} {P : Nat → Prop} (hcl : path_closed t P) {i : Nat}
    (hi : P i) : 2 ≤ i := (hcl i hi).1.1

/-- The add of the counterexample is one the statement leaves out: over {NUL, a, b, c}, after
`trie_add("a", 1)` the node that `trie_add("aa", 2)` restructures is node 5, the terminal of
"a", which is on the path [2, 5] of the query "a". -/
theorem trie_add_site_on_path_of_tail_split :
    trie_add_site TRIE_MAX_INDEX_DEFAULT
        (trie_or (trie_new [0, 97, 98, 99] (fun _ => 0))
          (trie_add_all 16 TRIE_MAX_INDEX_DEFAULT (trie_new [0, 97, 98, 99] (fun _ => 0))
            [(c_str [97], 1)])) (c_str [97, 97]) = some 5 ∧
      trie_get_path
        (trie_or (trie_new [0, 97, 98, 99] (fun _ => 0))
          (trie_add_all 16 TRIE_MAX_INDEX_DEFAULT (trie_new [0, 97, 98, 99] (fun _ => 0))
            [(c_str [97], 1)])) (c_str [97]) true = [2, 5] := by
  constructor <;> decide

